import Mathlib

/-!
# KLINIKAL Winsock emulation layer: embedding and verified properties

A shallow embedding of the Go package `winsock` (handle registry, socket
options, event notification, byte order, service table, address conversion)
together with theorems about it.

Conventions of the embedding

* Go maps are association lists with unique keys (`mapGet`, `mapSet`,
  `mapDel`); iteration follows list order, which is one of the orders the Go
  runtime may pick.
* `int32` quantities that the code treats as bit masks or packed keys
  (option level, option name, option key, event masks, fired events) are
  carried as their 32-bit two's-complement pattern, a `Nat` below `2^32`;
  `-1` is `0xFFFFFFFF`.  Signed quantities (lengths, return codes, error
  codes) are `Int`.
* `uintptr` is 64 bits wide and integers are laid out in memory low byte first
  (amd64).
* Pointers to caller memory are `Option`s: `none` is the nil pointer, `some m`
  is the memory the pointer designates.
* Calls into the transport and the Go runtime whose outcome the package does
  not decide (dialling, endpoint readiness, channel selection) are explicit
  parameters of the embedded function.
-/

namespace Winsock

/-! ## Go maps as association lists -/

/-- Map lookup `m[k]`. -/
def mapGet {α : Type} (m : List (Nat × α)) (k : Nat) : Option α :=
  match m with
  | [] => none
  | (k', v) :: rest => if k' = k then some v else mapGet rest k

/-- Map assignment `m[k] = v`: replaces the binding of `k` or adds one. -/
def mapSet {α : Type} (m : List (Nat × α)) (k : Nat) (v : α) : List (Nat × α) :=
  match m with
  | [] => [(k, v)]
  | (k', v') :: rest => if k' = k then (k, v) :: rest else (k', v') :: mapSet rest k v

/-- Map deletion `delete(m, k)`. -/
def mapDel {α : Type} (m : List (Nat × α)) (k : Nat) : List (Nat × α) :=
  match m with
  | [] => []
  | (k', v') :: rest => if k' = k then mapDel rest k else (k', v') :: mapDel rest k

/-! ## Machine integers -/

/-- Conversion to `uint16`. -/
def u16 (x : Nat) : Nat := x % 2 ^ 16

/-- Conversion to `uint32` (also: the bit pattern of an `int32`). -/
def u32 (x : Nat) : Nat := x % 2 ^ 32

/-- Conversion to `uint64`. -/
def u64 (x : Nat) : Nat := x % 2 ^ 64

/-- Signed value of an `int32` bit pattern. -/
def i32 (x : Nat) : Int := if u32 x < 2 ^ 31 then (u32 x : Int) else (u32 x : Int) - 2 ^ 32

/-- Bit pattern of a signed value converted to `int32`. -/
def ofInt32 (x : Int) : Nat := (x % 2 ^ 32).toNat

/-- Go `x >> n` on an `int32` bit pattern (arithmetic shift, sign-extending). -/
def sar32 (x n : Nat) : Nat :=
  if x < 2 ^ 31 then x >>> n else (x >>> n) ||| (u32 (0xFFFFFFFF <<< (32 - n)))

/-- The `n` low-order bytes of `x`, least significant first. -/
def toBytesLE : Nat → Nat → List Nat
  | 0, _ => []
  | n + 1, x => x % 256 :: toBytesLE n (x / 256)

/-- The number whose bytes, least significant first, are `bs`. -/
def ofBytesLE : List Nat → Nat
  | [] => 0
  | b :: bs => b + 256 * ofBytesLE bs

/-- The string `s` as Go bytes; the strings of this development are ASCII,
one byte per character. -/
def goBytes (s : String) : List Nat := s.toList.map Char.toNat

/-- Go `copy(dst, src)`: overwrites the first `min (len dst) (len src)` bytes
of `dst`. -/
def goCopy (dst src : List Nat) : List Nat :=
  src.take dst.length ++ dst.drop src.length

/-- Store `v` at index `i` of a buffer (`buf[i] = v`). -/
def goStore (buf : List Nat) (i v : Nat) : List Nat := buf.set i v

/-- Go `binary.LittleEndian.Uint32(b)`; the callers check `len(b) >= 4`. -/
def leUint32 (b : List Nat) : Nat :=
  b.getD 0 0 ||| (b.getD 1 0 <<< 8) ||| (b.getD 2 0 <<< 16) ||| (b.getD 3 0 <<< 24)

/-! ## Constants -/

def WSAEFAULT : Int := 10014
def WSAEINVAL : Int := 10022
def WSAEWOULDBLOCK : Int := 10035
def WSAENOTSOCK : Int := 10038
def WSAEMSGSIZE : Int := 10040
def WSAEPROTONOSUPPORT : Int := 10043
def WSAEOPNOTSUPP : Int := 10045
def WSAECONNRESET : Int := 10054
def WSAETIMEDOUT : Int := 10060
def WSAECONNREFUSED : Int := 10061
def WSAEHOSTUNREACH : Int := 10065

def SOL_SOCKET : Nat := 0xFFFF
def IPPROTO_IP : Nat := 0
def IPPROTO_TCP : Nat := 6

def SO_REUSEADDR : Nat := 0x0004
def SO_KEEPALIVE : Nat := 0x0008
def SO_BROADCAST : Nat := 0x0020
def SO_LINGER : Nat := 0x0080
def SO_SNDBUF : Nat := 0x1001
def SO_RCVBUF : Nat := 0x1002
def SO_SNDTIMEO : Nat := 0x1005
def SO_RCVTIMEO : Nat := 0x1006
def SO_ERROR : Nat := 0x1007
def SO_TYPE : Nat := 0x1008
def IP_TOS : Nat := 3
def TCP_NODELAY : Nat := 0x0001
def TCP_MAXSEG : Nat := 0x0002

def FD_READ : Nat := 1 <<< 0
def FD_WRITE : Nat := 1 <<< 1
def FD_OOB : Nat := 1 <<< 2
def FD_ACCEPT : Nat := 1 <<< 3
def FD_CONNECT : Nat := 1 <<< 4
def FD_CLOSE : Nat := 1 <<< 5
def FD_MAX_EVENTS : Nat := 10

/-- The readiness bits of gvisor's `waiter` package, as that package defines
them. -/
def EventIn : Nat := 0x01
def EventOut : Nat := 0x04
def EventErr : Nat := 0x08
def EventHUp : Nat := 0x10

def AF_INET : Int := 2
def AF_INET6 : Int := 23

/-! ## Data model (registry.go) -/

/-- SocketType of registry.go. -/
inductive SocketType where
  | TypeTCP
  | TypeUDP
  | TypeRaw
deriving DecidableEq

/-- A `net.Conn` handed out by the transport.  The package only observes the
outcome of its type assertions and of the reflective lookups of waiter.go. -/
structure Conn where
  id : Nat
  isTCPConn : Bool
  isUDPConn : Bool
  hasWq : Bool
  hasEp : Bool
deriving DecidableEq

/-- A `net.Listener` handed out by the transport. -/
structure Listener where
  id : Nat
  hasWq : Bool
  hasEp : Bool
deriving DecidableEq

/-- SocketState of registry.go (`Type_` is the field `Type`).  `WaiterQueue` and `Endpoint` record whether
the pointer is non-nil; `WaiterEntry` holds the mask of the registered entry. -/
structure SocketState where
  Handle : Nat
  Conn : Option Conn
  Listener : Option Listener
  Type_ : SocketType
  AddressFamily : Int
  Protocol : Int
  IsNonBlocking : Bool
  LastErrorCode : Int
  BoundAddr : List Nat
  Options : List (Nat × List Nat)
  PeekBuf : List Nat
  EventHandle : Nat
  NetworkEvents : Nat
  FiredEvents : Nat
  WaiterQueue : Bool
  WaiterEntry : Option Nat
  Endpoint : Bool
deriving DecidableEq

/-- OverlappedResult of registry.go. -/
structure OverlappedResult where
  BytesTransferred : Nat
  Error : Int
  Complete : Bool
  Flags : Nat
deriving DecidableEq

/-- The socketRegistry of registry.go.  An event object is a channel of
capacity one; the map records whether its slot is full. -/
structure socketRegistry where
  NextHandle : Nat
  sockets : List (Nat × SocketState)
  events : List (Nat × Bool)
  overlapped : List (Nat × OverlappedResult)
deriving DecidableEq

/-- The package-level `registry` as initialised at program start. -/
def registry0 : socketRegistry :=
  { NextHandle := 1000, sockets := [], events := [], overlapped := [] }

/-- A call the package makes on an object of the transport or of the Go
runtime. -/
inductive Effect where
  | ConnClose (id : Nat)
  | ListenerClose (id : Nat)
  | SetKeepAlive (enable : Bool)
  | SetLinger (sec : Int)
  | SetReadDeadline (ms : Nat)
  | SetWriteDeadline (ms : Nat)
  | SetReadBuffer (size : Nat)
  | SetWriteBuffer (size : Nat)
  | SetBroadcast (enable : Bool)
  | SetTOS (tos : Nat)
  | SetMaxSeg (mss : Nat)
  | SetNoDelay (enable : Bool)
deriving DecidableEq

/-- The package-level state: the host byte order flag of byte_order.go, the
registry, the last-error cell of status_error.go, and the trace of calls made
on transport objects. -/
structure World where
  isLittleEndian : Bool
  registry : socketRegistry
  lastError : Int
  trace : List Effect
deriving DecidableEq

/-- The state at program start. -/
def World.init (le : Bool) : World :=
  { isLittleEndian := le, registry := registry0, lastError := 0, trace := [] }

/-- setLastError of status_error.go. -/
def setLastError (w : World) (errCode : Int) : World := { w with lastError := errCode }

/-- RegisterEvent: a fresh handle and an empty one-slot channel. -/
def socketRegistry.RegisterEvent (r : socketRegistry) : Nat × socketRegistry :=
  let handle := u64 (r.NextHandle + 1)
  (handle, { r with NextHandle := handle, events := mapSet r.events handle false })

/-- GetEvent. -/
def socketRegistry.GetEvent (r : socketRegistry) (handle : Nat) : Option Bool :=
  mapGet r.events handle

/-- UnregisterEvent. -/
def socketRegistry.UnregisterEvent (r : socketRegistry) (handle : Nat) : socketRegistry :=
  { r with events := mapDel r.events handle }

/-- Register: a fresh handle, stored into the state and bound to it. -/
def socketRegistry.Register (r : socketRegistry) (st : SocketState) : Nat × socketRegistry :=
  let handle := u64 (r.NextHandle + 1)
  (handle, { r with NextHandle := handle,
                    sockets := mapSet r.sockets handle { st with Handle := handle } })

/-- Get. -/
def socketRegistry.Get (r : socketRegistry) (handle : Nat) : Option SocketState :=
  mapGet r.sockets handle

/-- Unregister. -/
def socketRegistry.Unregister (r : socketRegistry) (handle : Nat) : socketRegistry :=
  match mapGet r.sockets handle with
  | some _ => { r with sockets := mapDel r.sockets handle }
  | none => r

/-- The `Close` calls issued for one socket: its connection, then its
listener. -/
def closesOf (st : SocketState) : List Effect :=
  (match st.Conn with
   | some c => [Effect.ConnClose c.id]
   | none => []) ++
  (match st.Listener with
   | some l => [Effect.ListenerClose l.id]
   | none => [])

/-- PurgeAll: closes every socket's connection and listener and empties the
socket map; the other maps and the handle counter are left as they are. -/
def socketRegistry.PurgeAll (r : socketRegistry) : socketRegistry × List Effect :=
  ({ r with sockets := [] }, r.sockets.flatMap (fun kv => closesOf kv.2))

/-- SetLastError of the registry. -/
def socketRegistry.SetLastError (r : socketRegistry) (handle : Nat) (errCode : Int) :
    socketRegistry :=
  match r.Get handle with
  | some st => { r with sockets := mapSet r.sockets handle { st with LastErrorCode := errCode } }
  | none => r

/-- GetLastError of the registry. -/
def socketRegistry.GetLastError (r : socketRegistry) (handle : Nat) : Int :=
  match r.Get handle with
  | some st => st.LastErrorCode
  | none => 0

/-- SetOverlappedResult. -/
def socketRegistry.SetOverlappedResult (r : socketRegistry) (key : Nat)
    (result : OverlappedResult) : socketRegistry :=
  { r with overlapped := mapSet r.overlapped key result }

/-- GetOverlappedResult: retrieves and removes. -/
def socketRegistry.GetOverlappedResult (r : socketRegistry) (key : Nat) :
    Option OverlappedResult × socketRegistry :=
  match mapGet r.overlapped key with
  | some res => (some res, { r with overlapped := mapDel r.overlapped key })
  | none => (none, r)

/-- Non-blocking send on an event channel (`select { case c <- v: default: }`). -/
def signalEvent (events : List (Nat × Bool)) (handle : Nat) : List (Nat × Bool) :=
  match mapGet events handle with
  | some _ => mapSet events handle true
  | none => events

/-- Non-blocking receive on an event channel (`select { case <-c: default: }`). -/
def drainEvent (events : List (Nat × Bool)) (handle : Nat) : List (Nat × Bool) :=
  match mapGet events handle with
  | some _ => mapSet events handle false
  | none => events

/-- NotifyEvent of SocketState: translates the readiness mask, keeps the
requested bits, adds them to FiredEvents with `atomic.AddInt32`, and signals
the associated event object. -/
def SocketState.NotifyEvent (st : SocketState) (events : List (Nat × Bool)) (mask : Nat) :
    SocketState × List (Nat × Bool) :=
  let fired := 0
  let fired := if mask &&& EventIn ≠ 0 then
      (if st.Listener.isSome then fired ||| FD_ACCEPT else fired ||| FD_READ)
    else fired
  let fired := if mask &&& EventOut ≠ 0 then fired ||| FD_WRITE else fired
  let fired := if mask &&& EventErr ≠ 0 ∨ mask &&& EventHUp ≠ 0 then fired ||| FD_CLOSE else fired
  let fired := fired &&& st.NetworkEvents
  if fired ≠ 0 then
    ({ st with FiredEvents := u32 (st.FiredEvents + fired) },
     if st.EventHandle ≠ 0 then signalEvent events st.EventHandle else events)
  else (st, events)

/-- The readiness mask a WSAEventSelect event mask subscribes to (the same
computation appears in UpdateWaiterQueue and in GoWSAEventSelect). -/
def waiterMaskOf (networkEvents : Nat) : Nat :=
  let mask := 0
  let mask := if networkEvents &&& (FD_READ ||| FD_ACCEPT) ≠ 0 then mask ||| EventIn else mask
  let mask := if networkEvents &&& FD_WRITE ≠ 0 then mask ||| EventOut else mask
  let mask := if networkEvents &&& FD_CLOSE ≠ 0 then mask ||| (EventErr ||| EventHUp) else mask
  mask

/-- The initial notification issued after a waiter has been registered:
`ready` is the endpoint's current readiness set, so that
`st.Endpoint.Readiness(mask)` is `ready &&& mask`. -/
def initialNotify (st : SocketState) (events : List (Nat × Bool)) (mask ready : Nat) :
    SocketState × List (Nat × Bool) :=
  if st.Endpoint then
    let readyMask := ready &&& mask
    if readyMask ≠ 0 then st.NotifyEvent events readyMask else (st, events)
  else if st.Listener.isSome then st.NotifyEvent events EventIn
  else (st, events)

/-- The block "unregister existing waiter if any" of UpdateWaiterQueue and
GoWSAEventSelect. -/
def unregisterWaiter (st : SocketState) : SocketState :=
  if st.WaiterEntry.isSome ∧ st.WaiterQueue then { st with WaiterEntry := none } else st

/-- The block of UpdateWaiterQueue and GoWSAEventSelect that registers a
waiter when an event mask and an event object are set (`networkEvents` and
`eventHandle` are the values the block tests) and delivers the initial
notification. -/
def registerWaiter (st : SocketState) (events : List (Nat × Bool))
    (networkEvents eventHandle ready : Nat) : SocketState × List (Nat × Bool) :=
  if networkEvents ≠ 0 ∧ eventHandle ≠ 0 ∧ st.WaiterQueue then
    let mask := waiterMaskOf networkEvents
    if mask ≠ 0 then
      initialNotify { st with WaiterEntry := some mask } events mask ready
    else (st, events)
  else (st, events)

/-- The waiter queue and endpoint UpdateWaiterQueue extracts from the
connection or, failing that, the listener. -/
def refreshQueue (st : SocketState) : SocketState :=
  match st.Conn with
  | some c => { st with WaiterQueue := c.hasWq, Endpoint := c.hasEp }
  | none =>
    match st.Listener with
    | some l => { st with WaiterQueue := l.hasWq, Endpoint := l.hasEp }
    | none => { st with WaiterQueue := false, Endpoint := false }

/-- UpdateWaiterQueue of waiter.go. -/
def UpdateWaiterQueue (st : SocketState) (events : List (Nat × Bool)) (ready : Nat) :
    SocketState × List (Nat × Bool) :=
  let st := refreshQueue (unregisterWaiter st)
  registerWaiter st events st.NetworkEvents st.EventHandle ready

/-! ## Error translation (status_error.go) -/

/-- A Go `error` as mapError observes it: whether it implements `net.Error`,
its `Timeout()`, whether `errors.Is(err, net.ErrClosed)`, and its message. -/
structure GoError where
  isNetError : Bool
  timeout : Bool
  isErrClosed : Bool
  msg : List Nat
deriving DecidableEq

/-- Go `strings.Contains(s, sub)`. -/
def stringsContains (s sub : List Nat) : Bool :=
  match s with
  | [] => sub.isEmpty
  | c :: rest => sub.isPrefixOf (c :: rest) || stringsContains rest sub

/-- mapError of status_error.go; `none` is the nil error. -/
def mapError (err : Option GoError) : Int :=
  match err with
  | none => 0
  | some e =>
    if e.isNetError && e.timeout then WSAETIMEDOUT
    else if e.isErrClosed then WSAENOTSOCK
    else if stringsContains e.msg (goBytes "connection refused") then WSAECONNREFUSED
    else if stringsContains e.msg (goBytes "connection reset") then WSAECONNRESET
    else if stringsContains e.msg (goBytes "host is unreachable")
        || stringsContains e.msg (goBytes "no route to host") then WSAEHOSTUNREACH
    else if stringsContains e.msg (goBytes "network is unreachable") then WSAEHOSTUNREACH
    else if stringsContains e.msg (goBytes "address already in use") then 10048
    else if stringsContains e.msg (goBytes "address not available") then 10049
    else if stringsContains e.msg (goBytes "message too long") then WSAEMSGSIZE
    else if stringsContains e.msg (goBytes "broken pipe") then WSAECONNRESET
    else if stringsContains e.msg (goBytes "protocol not supported") then WSAEPROTONOSUPPORT
    else if stringsContains e.msg (goBytes "operation not supported") then WSAEOPNOTSUPP
    else if stringsContains e.msg (goBytes "i/o timeout") then WSAETIMEDOUT
    else if stringsContains e.msg (goBytes "would block") then WSAEWOULDBLOCK
    else 10001

/-! ## Socket options (conf_ctl.go) -/

/-- OptKey of registry.go: `(level << 16) | (optname & 0xFFFF)` on `int32`. -/
def OptKey (level optname : Nat) : Nat :=
  u32 (level <<< 16) ||| (optname &&& 0xFFFF)

/-- A `uint16` read from two bytes of memory in host byte order. -/
def hostUint16 (le : Bool) (b0 b1 : Nat) : Nat :=
  if le then b0 ||| (b1 <<< 8) else (b0 <<< 8) ||| b1

/-- The four bytes of a 32-bit pattern in host byte order. -/
def hostBytes32 (le : Bool) (x : Nat) : List Nat :=
  if le then toBytesLE 4 x else (toBytesLE 4 x).reverse

/-- applySolSocketOpt.  A deadline effect with `ms = 0` clears the deadline. -/
def applySolSocketOpt (le : Bool) (st : SocketState) (optname : Nat) (val : List Nat) :
    List Effect :=
  if optname = SO_KEEPALIVE then
    match st.Conn with
    | some c =>
      if val.length ≥ 4 ∧ c.isTCPConn then [Effect.SetKeepAlive (leUint32 val ≠ 0)] else []
    | none => []
  else if optname = SO_LINGER then
    match st.Conn with
    | some c =>
      if val.length ≥ 4 ∧ c.isTCPConn then
        if hostUint16 le (val.getD 0 0) (val.getD 1 0) ≠ 0 then
          [Effect.SetLinger (hostUint16 le (val.getD 2 0) (val.getD 3 0))]
        else [Effect.SetLinger (-1)]
      else []
    | none => []
  else if optname = SO_RCVTIMEO then
    if val.length ≥ 4 ∧ st.Conn.isSome then [Effect.SetReadDeadline (leUint32 val)] else []
  else if optname = SO_SNDTIMEO then
    if val.length ≥ 4 ∧ st.Conn.isSome then [Effect.SetWriteDeadline (leUint32 val)] else []
  else if optname = SO_RCVBUF then
    match st.Conn with
    | some c =>
      if val.length ≥ 4 ∧ (c.isTCPConn ∨ c.isUDPConn) then [Effect.SetReadBuffer (leUint32 val)]
      else []
    | none => []
  else if optname = SO_SNDBUF then
    match st.Conn with
    | some c =>
      if val.length ≥ 4 ∧ (c.isTCPConn ∨ c.isUDPConn) then [Effect.SetWriteBuffer (leUint32 val)]
      else []
    | none => []
  else if optname = SO_REUSEADDR then []
  else if optname = SO_BROADCAST then
    if val.length ≥ 4 ∧ st.Endpoint then [Effect.SetBroadcast (leUint32 val ≠ 0)] else []
  else []

/-- applyIPOpt. -/
def applyIPOpt (st : SocketState) (optname : Nat) (val : List Nat) : List Effect :=
  if optname = IP_TOS then
    if val.length ≥ 4 ∧ st.Endpoint then [Effect.SetTOS (leUint32 val)] else []
  else []

/-- applyTCPOpt. -/
def applyTCPOpt (st : SocketState) (optname : Nat) (val : List Nat) : List Effect :=
  if optname = TCP_NODELAY then
    match st.Conn with
    | some c =>
      if val.length ≥ 4 ∧ c.isTCPConn then [Effect.SetNoDelay (leUint32 val ≠ 0)] else []
    | none => []
  else if optname = TCP_MAXSEG then
    if val.length ≥ 4 ∧ st.Endpoint then [Effect.SetMaxSeg (leUint32 val)] else []
  else []

/-- applySockOpt: the calls made on the live connection for one option. -/
def applySockOpt (le : Bool) (st : SocketState) (level optname : Nat) (val : List Nat) :
    List Effect :=
  if level = SOL_SOCKET then applySolSocketOpt le st optname val
  else if level = IPPROTO_IP then applyIPOpt st optname val
  else if level = IPPROTO_TCP then applyTCPOpt st optname val
  else []

/-- GoSetsockopt: stores the raw option bytes under OptKey and applies the
option to the live connection. -/
def GoSetsockopt (w : World) (s level optname : Nat) (optval : Option (List Nat))
    (optlen : Int) : Int × World :=
  match w.registry.Get s with
  | none => (-1, setLastError w WSAENOTSOCK)
  | some st =>
    match optval with
    | none => (-1, setLastError w WSAEFAULT)
    | some mem =>
      if optlen ≤ 0 then (-1, setLastError w WSAEFAULT)
      else
        let raw := goCopy (List.replicate optlen.toNat 0) (mem.take optlen.toNat)
        let st := { st with Options := mapSet st.Options (OptKey level optname) raw }
        (0, { w with registry := { w.registry with sockets := mapSet w.registry.sockets s st },
                     trace := w.trace ++ applySockOpt w.isLittleEndian st level optname raw })

/-- Result of GoGetsockopt: return value, new state, and the contents of the
caller's `optval` buffer and `optlen` cell after the call. -/
structure GetsockoptResult where
  ret : Int
  world : World
  optval : Option (List Nat)
  optlen : Option Int
deriving DecidableEq

/-- GoGetsockopt; `none` is a run-time panic (a negative `*optlen` used as a
slice length). -/
def GoGetsockopt (w : World) (s level optname : Nat) (optval : Option (List Nat))
    (optlen : Option Int) : Option GetsockoptResult :=
  match w.registry.Get s with
  | none => some ⟨-1, setLastError w WSAENOTSOCK, optval, optlen⟩
  | some st =>
    match optval, optlen with
    | some mem, some len =>
      if level = SOL_SOCKET ∧ optname = SO_ERROR then
        let errCode := st.LastErrorCode
        let st := { st with LastErrorCode := 0 }
        let w := { w with registry := { w.registry with sockets := mapSet w.registry.sockets s st } }
        if len ≥ 4 then
          some ⟨0, w, some (goCopy mem (hostBytes32 w.isLittleEndian (ofInt32 errCode))), some 4⟩
        else some ⟨0, w, some mem, some len⟩
      else if level = SOL_SOCKET ∧ optname = SO_TYPE then
        if len ≥ 4 then
          let sockType : Int := if st.Type_ = SocketType.TypeUDP then 2 else 1
          some ⟨0, w, some (goCopy mem (hostBytes32 w.isLittleEndian (ofInt32 sockType))), some 4⟩
        else some ⟨0, w, some mem, some len⟩
      else
        match mapGet st.Options (OptKey level optname) with
        | none =>
          if len > 0 then some ⟨0, w, some (goCopy mem (List.replicate len.toNat 0)), some len⟩
          else some ⟨0, w, some mem, some len⟩
        | some raw =>
          let n : Int := if len > raw.length then raw.length else len
          if n < 0 then none
          else some ⟨0, w, some (goCopy mem (raw.take n.toNat)), some n⟩
    | _, _ => some ⟨-1, setLastError w WSAEFAULT, optval, optlen⟩

/-! ## Socket creation and destruction (sock_mgmt.go) -/

/-- GoSocket. -/
def GoSocket (w : World) (af typ protocol : Int) : Nat × World :=
  let st : SocketState :=
    { Handle := 0, Conn := none, Listener := none, Type_ := SocketType.TypeTCP,
      AddressFamily := af, Protocol := protocol, IsNonBlocking := false, LastErrorCode := 0,
      BoundAddr := [], Options := [], PeekBuf := [], EventHandle := 0, NetworkEvents := 0,
      FiredEvents := 0, WaiterQueue := false, WaiterEntry := none, Endpoint := false }
  let st := if typ = 2 then { st with Type_ := SocketType.TypeUDP }
    else if typ = 3 then { st with Type_ := SocketType.TypeRaw }
    else st
  let (handle, r) := w.registry.Register st
  (handle, { w with registry := r })

/-- GoClosesocket. -/
def GoClosesocket (w : World) (s : Nat) : Int × World :=
  match w.registry.Get s with
  | none => (-1, w)
  | some st =>
    (0, { w with trace := w.trace ++ closesOf st, registry := w.registry.Unregister s })

/-! ## Connect (conn_basic.go) -/

/-- Go `netip` decimal rendering of one byte. -/
def appendDecimal (x : Nat) : List Nat :=
  (if x ≥ 100 then [48 + x / 100] else []) ++
  (if x ≥ 10 then [48 + x / 10 % 10] else []) ++ [48 + x % 10]

/-- Dotted-decimal text of four bytes (`IP.String` of an IPv4 address). -/
def ipv4String (a b c d : Nat) : List Nat :=
  appendDecimal a ++ [46] ++ appendDecimal b ++ [46] ++ appendDecimal c ++ [46] ++
    appendDecimal d

/-- Go `strconv.Itoa` on a non-negative value. -/
def itoa (n : Nat) : List Nat := (Nat.toDigits 10 n).map Char.toNat

/-- Go `net.JoinHostPort`. -/
def joinHostPort (host port : List Nat) : List Nat :=
  if host.contains 58 then [91] ++ host ++ [93, 58] ++ port else host ++ [58] ++ port

/-- The first eight bytes of a caller's sockaddr_in. -/
structure SockAddrIn where
  family : Nat
  port0 : Nat
  port1 : Nat
  a0 : Nat
  a1 : Nat
  a2 : Nat
  a3 : Nat
deriving DecidableEq

/-- parseSockAddrIn: the "ip:port" text of a sockaddr_in, `none` on error. -/
def parseSockAddrIn (name : Option SockAddrIn) : Option (List Nat) :=
  match name with
  | none => none
  | some sa =>
    if sa.family ≠ 2 then none
    else
      let port := u16 (sa.port0 <<< 8) ||| sa.port1
      some (joinHostPort (ipv4String sa.a0 sa.a1 sa.a2 sa.a3) (itoa port))

/-- Outcomes of the transport and library calls of one GoConnect call:
`dial` is the result of whichever of DialUDP, DialPing, Dial is reached, and
`ready` the readiness set of the new endpoint when UpdateWaiterQueue probes
it. -/
structure ConnectEnv where
  stackOk : Bool
  resolveUDPOk : Bool
  splitHostPortOk : Bool
  parseAddrOk : Bool
  dial : Except GoError Conn
  ready : Nat

/-- The loop of GoConnect that re-applies the stored options: each key is
unpacked with `key >> 16` and `key & 0xFFFF`. -/
def reapplyOptions (le : Bool) (st : SocketState) (opts : List (Nat × List Nat)) :
    List Effect :=
  opts.flatMap (fun kv =>
    let level := sar32 kv.1 16
    let opt := kv.1 &&& 0xFFFF
    applySockOpt le st level opt kv.2)

/-- The tail shared by the three branches of GoConnect once dialling has
succeeded: install the connection, refresh the waiter, re-apply options. -/
def connectInstall (w : World) (s : Nat) (st : SocketState) (conn : Conn) (closeOld : Bool)
    (ready : Nat) : Int × World :=
  let closes := if closeOld then
      (match st.Conn with
       | some c => [Effect.ConnClose c.id]
       | none => [])
    else []
  let (st, events) := UpdateWaiterQueue { st with Conn := some conn } w.registry.events ready
  (0, { w with
        registry := { w.registry with sockets := mapSet w.registry.sockets s st, events := events },
        trace := w.trace ++ closes ++ reapplyOptions w.isLittleEndian st st.Options })

/-- GoConnect. -/
def GoConnect (w : World) (s : Nat) (name : Option SockAddrIn) (_namelen : Int)
    (env : ConnectEnv) : Int × World :=
  match w.registry.Get s with
  | none => (-1, setLastError w WSAENOTSOCK)
  | some st =>
    match parseSockAddrIn name with
    | none => (-1, setLastError w WSAEINVAL)
    | some _ =>
      if ¬ env.stackOk then (-1, setLastError w WSAEHOSTUNREACH)
      else if st.Type_ = SocketType.TypeUDP then
        if ¬ env.resolveUDPOk then (-1, setLastError w WSAEINVAL)
        else
          match env.dial with
          | Except.error e => (-1, setLastError w (mapError (some e)))
          | Except.ok conn => connectInstall w s st conn true env.ready
      else if st.Type_ = SocketType.TypeRaw then
        if st.Protocol ≠ 1 then (-1, setLastError w WSAEPROTONOSUPPORT)
        else if ¬ env.splitHostPortOk then (-1, setLastError w WSAEINVAL)
        else if ¬ env.parseAddrOk then (-1, setLastError w WSAEINVAL)
        else
          match env.dial with
          | Except.error e => (-1, setLastError w (mapError (some e)))
          | Except.ok conn => connectInstall w s st conn true env.ready
      else
        match env.dial with
        | Except.error e => (-1, setLastError w (mapError (some e)))
        | Except.ok conn => connectInstall w s st conn false env.ready

/-! ## Event selection (io_multplx.go) -/

/-- GoWSAEventSelect; `hEventObject = 0` is the nil pointer, and `ready` is
the endpoint's readiness set at the time of the initial probe. -/
def GoWSAEventSelect (w : World) (s hEventObject lNetworkEvents ready : Nat) : Int × World :=
  match w.registry.Get s with
  | none => (-1, setLastError w WSAENOTSOCK)
  | some st =>
    let handle := hEventObject
    if hEventObject ≠ 0 ∧ (w.registry.GetEvent handle).isNone then
      (-1, setLastError w WSAEINVAL)
    else
      let st := unregisterWaiter st
      let st := { st with EventHandle := handle, NetworkEvents := lNetworkEvents,
                          IsNonBlocking := true }
      let (st, events) := registerWaiter st w.registry.events lNetworkEvents hEventObject ready
      (0, { w with registry :=
              { w.registry with sockets := mapSet w.registry.sockets s st, events := events } })

/-- The WSANETWORKEVENTS block. -/
structure wsaNetworkEvents where
  NetworkEvents : Nat
  ErrorCode : List Int
deriving DecidableEq

/-- GoWSAEnumNetworkEvents: swaps FiredEvents to zero, reports the old value,
clears the error codes and drains the event object. -/
def GoWSAEnumNetworkEvents (w : World) (s hEventObject : Nat)
    (lpNetworkEvents : Option wsaNetworkEvents) : Int × World × Option wsaNetworkEvents :=
  match w.registry.Get s with
  | none => (-1, setLastError w WSAENOTSOCK, lpNetworkEvents)
  | some st =>
    match lpNetworkEvents with
    | none => (-1, setLastError w WSAEFAULT, none)
    | some _ =>
      let fired := st.FiredEvents
      let st := { st with FiredEvents := 0 }
      let result : wsaNetworkEvents :=
        { NetworkEvents := fired, ErrorCode := List.replicate FD_MAX_EVENTS 0 }
      let events := if hEventObject ≠ 0 then drainEvent w.registry.events hEventObject
        else w.registry.events
      (0, { w with registry :=
              { w.registry with sockets := mapSet w.registry.sockets s st, events := events } },
       some result)

/-- Delivery of a readiness notification by the transport to the waiter of
socket `s`: the callback is `SocketState.NotifyEvent`. -/
def deliverNotify (w : World) (s mask : Nat) : World :=
  match w.registry.Get s with
  | none => w
  | some st =>
    let (st, events) := st.NotifyEvent w.registry.events mask
    { w with registry :=
        { w.registry with sockets := mapSet w.registry.sockets s st, events := events } }

/-! ## Event objects (event_objects.go) -/

/-- GoWSACreateEvent. -/
def GoWSACreateEvent (w : World) : Nat × World :=
  let (handle, r) := w.registry.RegisterEvent
  (handle, { w with registry := r })

/-- GoWSACloseEvent. -/
def GoWSACloseEvent (w : World) (hEvent : Nat) : Int × World :=
  (1, { w with registry := w.registry.UnregisterEvent hEvent })

/-- GoWSASetEvent. -/
def GoWSASetEvent (w : World) (hEvent : Nat) : Int × World :=
  match w.registry.GetEvent hEvent with
  | none => (0, w)
  | some _ => (1, { w with registry := { w.registry with events := signalEvent w.registry.events hEvent } })

/-- GoWSAResetEvent. -/
def GoWSAResetEvent (w : World) (hEvent : Nat) : Int × World :=
  match w.registry.GetEvent hEvent with
  | none => (0, w)
  | some _ => (1, { w with registry := { w.registry with events := drainEvent w.registry.events hEvent } })

/-- One case handed to `reflect.Select`: a receive on an event channel or on
the timer channel. -/
inductive SelectCase where
  | chan (handle : Nat)
  | timer
deriving DecidableEq

/-- The case list GoWSAWaitForMultipleEvents builds: one receive per handle
that resolves to an event object, in array order, then the timer unless the
timeout is INFINITE. -/
def waitCases (r : socketRegistry) (handles : List Nat) (dwTimeout : Nat) : List SelectCase :=
  handles.filterMap (fun h => if (r.GetEvent h).isSome then some (SelectCase.chan h) else none)
    ++ (if dwTimeout ≠ 0xFFFFFFFF then [SelectCase.timer] else [])

/-- Whether `reflect.Select` can return the index `chosen`: the case exists
and can proceed (its channel's slot is full; the timer may always fire). -/
def selectAdmits (r : socketRegistry) (cases : List SelectCase) (chosen : Nat) : Bool :=
  match cases.get? chosen with
  | some (SelectCase.chan h) => r.GetEvent h == some true
  | some SelectCase.timer => true
  | none => false

/-- GoWSAWaitForMultipleEvents.  `chosen` and `recvOK` are what
`reflect.Select` returns (any index admitted by `selectAdmits`); the receive
empties the chosen channel's slot. -/
def GoWSAWaitForMultipleEvents (w : World) (cEvents : Nat) (lphEvents : Option (List Nat))
    (_fWaitAll : Int) (dwTimeout : Nat) (_fAlertable : Int) (chosen : Nat) (recvOK : Bool) :
    Nat × World :=
  match lphEvents with
  | none => (0xFFFFFFFF, w)
  | some mem =>
    if cEvents = 0 then (0xFFFFFFFF, w)
    else
      let handles := mem.take cEvents
      let cases := waitCases w.registry handles dwTimeout
      let w := match cases.get? chosen with
        | some (SelectCase.chan h) =>
          { w with registry := { w.registry with events := drainEvent w.registry.events h } }
        | _ => w
      if dwTimeout ≠ 0xFFFFFFFF ∧ chosen = cases.length - 1 then (0x102, w)
      else if ¬ recvOK then (0xFFFFFFFF, w)
      else (u32 chosen, w)

/-! ## Byte order (byte_order.go) -/

/-- Go `bits.ReverseBytes16`: the value with its two bytes in reversed order. -/
def ReverseBytes16 (x : Nat) : Nat := ofBytesLE (toBytesLE 2 x).reverse

/-- Go `bits.ReverseBytes32`: the value with its four bytes in reversed order. -/
def ReverseBytes32 (x : Nat) : Nat := ofBytesLE (toBytesLE 4 x).reverse

/-- Go `bits.ReverseBytes64`: the value with its eight bytes in reversed order. -/
def ReverseBytes64 (x : Nat) : Nat := ofBytesLE (toBytesLE 8 x).reverse

/-- The package variable `isLittleEndian` as `init()` sets it: whether the
first byte in memory of a `uint16` holding 1 is 1. -/
def isLittleEndian : Bool := decide ((toBytesLE 2 1).head? = some 1)

/-- GoHtonl; the first argument is the package variable `isLittleEndian`. -/
def GoHtonl (isLittleEndian : Bool) (hostlong : Nat) : Nat :=
  if isLittleEndian then ReverseBytes32 hostlong else hostlong

/-- GoHtons. -/
def GoHtons (isLittleEndian : Bool) (hostshort : Nat) : Nat :=
  if isLittleEndian then ReverseBytes16 hostshort else hostshort

/-- GoNtohl. -/
def GoNtohl (isLittleEndian : Bool) (netlong : Nat) : Nat :=
  if isLittleEndian then ReverseBytes32 netlong else netlong

/-- GoNtohs. -/
def GoNtohs (isLittleEndian : Bool) (netshort : Nat) : Nat :=
  if isLittleEndian then ReverseBytes16 netshort else netshort

/-- GoHtonll. -/
def GoHtonll (isLittleEndian : Bool) (hostlonglong : Nat) : Nat :=
  if isLittleEndian then ReverseBytes64 hostlonglong else hostlonglong

/-- GoNtohll. -/
def GoNtohll (isLittleEndian : Bool) (netlonglong : Nat) : Nat :=
  if isLittleEndian then ReverseBytes64 netlonglong else netlonglong

/-! ## Service database (proto_svc.go) -/

/-- goStringFromPtr of addr_res.go: the bytes before the first NUL of the
memory the pointer designates; the empty string for a nil pointer. -/
def goStringFromPtr (ptr : Option (List Nat)) : List Nat :=
  match ptr with
  | none => []
  | some mem => mem.takeWhile (fun b => b ≠ 0)

/-- Go `strings.ToLower` on ASCII text. -/
def stringsToLower (s : List Nat) : List Nat :=
  s.map (fun c => if 65 ≤ c ∧ c ≤ 90 then c + 32 else c)

/-- servEntry; `Port` is the 16-bit pattern of the `int16` field. -/
structure servEntry where
  Name : List Nat
  Aliases : List (List Nat)
  Port : Nat
  Proto : List Nat
deriving DecidableEq

/-- The static service table. -/
def servTable : List servEntry :=
  [ ⟨goBytes "echo", [], 7, goBytes "tcp"⟩,
    ⟨goBytes "echo", [], 7, goBytes "udp"⟩,
    ⟨goBytes "ftp-data", [], 20, goBytes "tcp"⟩,
    ⟨goBytes "ftp", [], 21, goBytes "tcp"⟩,
    ⟨goBytes "ssh", [], 22, goBytes "tcp"⟩,
    ⟨goBytes "telnet", [], 23, goBytes "tcp"⟩,
    ⟨goBytes "smtp", [goBytes "mail"], 25, goBytes "tcp"⟩,
    ⟨goBytes "domain", [goBytes "dns"], 53, goBytes "tcp"⟩,
    ⟨goBytes "domain", [goBytes "dns"], 53, goBytes "udp"⟩,
    ⟨goBytes "http", [goBytes "www"], 80, goBytes "tcp"⟩,
    ⟨goBytes "pop3", [], 110, goBytes "tcp"⟩,
    ⟨goBytes "imap", [], 143, goBytes "tcp"⟩,
    ⟨goBytes "https", [], 443, goBytes "tcp"⟩,
    ⟨goBytes "smtps", [], 465, goBytes "tcp"⟩,
    ⟨goBytes "imaps", [], 993, goBytes "tcp"⟩,
    ⟨goBytes "pop3s", [], 995, goBytes "tcp"⟩ ]

/-- The static servent and the buffers its pointers designate: `Name` points
at `staticServName`, `Proto` at `staticServProto`, and the alias array holds
a pointer to `staticServAlias` (when `aliasSet`) followed by nil. -/
structure ServStatics where
  staticServName : List Nat
  staticServAlias : List Nat
  aliasSet : Bool
  Port : Nat
  staticServProto : List Nat
deriving DecidableEq

/-- The static buffers at program start: zeroed arrays of 64, 64 and 16
bytes. -/
def ServStatics.init : ServStatics :=
  { staticServName := List.replicate 64 0, staticServAlias := List.replicate 64 0,
    aliasSet := false, Port := 0, staticServProto := List.replicate 16 0 }

/-- fillServent; `none` is the index-out-of-range panic of a terminator
written past a static buffer. -/
def fillServent (st : ServStatics) (e : servEntry) : Option ServStatics :=
  if e.Name.length ≥ st.staticServName.length then none
  else
    let name := goStore (goCopy st.staticServName e.Name) e.Name.length 0
    let aliasStep : Option (List Nat × Bool) :=
      match e.Aliases with
      | a :: _ =>
        if a.length ≥ st.staticServAlias.length then none
        else some (goStore (goCopy st.staticServAlias a) a.length 0, true)
      | [] => some (st.staticServAlias, false)
    match aliasStep with
    | none => none
    | some (aliasBuf, aliasSet) =>
      let p := u16 e.Port
      let port := u16 (u16 (p <<< 8) ||| (p >>> 8))
      if e.Proto.length ≥ st.staticServProto.length then none
      else
        some { staticServName := name, staticServAlias := aliasBuf, aliasSet := aliasSet,
               Port := port,
               staticServProto := goStore (goCopy st.staticServProto e.Proto) e.Proto.length 0 }

/-- The table scan of GoGetservbyname: the first entry that passes the
protocol filter and whose name or one of whose aliases matches. -/
def servFindByName (table : List servEntry) (search protoFilter : List Nat) : Option servEntry :=
  table.find? (fun e =>
    (protoFilter = [] ∨ stringsToLower e.Proto = protoFilter) ∧
    (stringsToLower e.Name = search ∨ e.Aliases.any (fun a => stringsToLower a = search)))

/-- GoGetservbyname.  The outer `none` is a panic; the boolean tells whether
the returned pointer is non-nil (it then designates the static servent).
`lookupPort` stands for Go `net.LookupPort`. -/
def GoGetservbyname (st : ServStatics) (name proto : Option (List Nat))
    (lookupPort : List Nat → List Nat → Option Int) : Option (Bool × ServStatics) :=
  match name with
  | none => some (false, st)
  | some _ =>
    let search := stringsToLower (goStringFromPtr name)
    let protoFilter := if proto.isSome then stringsToLower (goStringFromPtr proto) else []
    match servFindByName servTable search protoFilter with
    | some e => (fillServent st e).map (fun st' => (true, st'))
    | none =>
      let netProto := if protoFilter ≠ [] then protoFilter else goBytes "tcp"
      match lookupPort netProto search with
      | some port =>
        (fillServent st ⟨search, [], u16 (ofInt32 port), netProto⟩).map (fun st' => (true, st'))
      | none => some (false, st)

/-- GoGetservbyport; `port` is the pattern of the `int32` argument. -/
def GoGetservbyport (st : ServStatics) (port : Nat) (proto : Option (List Nat)) :
    Option (Bool × ServStatics) :=
  let p := u16 port
  let hostPort := u16 (u16 (p <<< 8) ||| (p >>> 8))
  let protoFilter := if proto.isSome then stringsToLower (goStringFromPtr proto) else []
  match servTable.find? (fun e =>
      (protoFilter = [] ∨ stringsToLower e.Proto = protoFilter) ∧ e.Port = hostPort) with
  | some e => (fillServent st e).map (fun st' => (true, st'))
  | none => some (false, st)

/-! ## Go standard library: textual IP addresses (net, net/netip)

`net.ParseIP`, `IP.To4`, `IP.To16`, `net.IPv4` and `IP.String` are not part of
the package; they are embedded from the Go standard library (the `net/netip`
based implementation) because GoInet_pton and GoInet_ntop are defined through
them. -/

/-- The loop of `netip.parseIPv4Fields` over the bytes of `s` that remain:
`n` is `len(s)`, `i` the index of the next byte, `prev` the byte before it,
`val`, `pos`, `digLen` and `fields` the loop variables.  `none` is an
error. -/
def parseIPv4Loop (n : Nat) : List Nat → (i prev val pos digLen : Nat) → List Nat →
    Option (List Nat)
  | [], _, _, val, pos, _, fields =>
    if pos < 3 then none else some (fields.set 3 (val % 256))
  | c :: rest, i, prev, val, pos, digLen, fields =>
    if 48 ≤ c ∧ c ≤ 57 then
      if digLen = 1 ∧ val = 0 then none
      else
        let val := val * 10 + c - 48
        if val > 255 then none
        else parseIPv4Loop n rest (i + 1) c val pos (digLen + 1) fields
    else if c = 46 then
      if i = 0 ∨ i = n - 1 ∨ prev = 46 then none
      else if pos = 3 then none
      else parseIPv4Loop n rest (i + 1) c 0 (pos + 1) 0 (fields.set pos (val % 256))
    else none

/-- Go `netip.parseIPv4`: the four bytes of a dotted-decimal address. -/
def parseIPv4 (s : List Nat) : Option (List Nat) :=
  parseIPv4Loop s.length s 0 0 0 0 0 [0, 0, 0, 0]

/-- Value of a hexadecimal digit, as the three ranges `parseIPv6` tests. -/
def hexVal (c : Nat) : Option Nat :=
  if 48 ≤ c ∧ c ≤ 57 then some (c - 48)
  else if 97 ≤ c ∧ c ≤ 102 then some (c - 97 + 10)
  else if 65 ≤ c ∧ c ≤ 70 then some (c - 65 + 10)
  else none

/-- The inner loop of `parseIPv6` that reads one hexadecimal group: returns
the number of digits read, the value, and the rest of the text; `none` is the
error of a fifth digit or a value above 0xFFFF. -/
def scanHex : List Nat → (off acc : Nat) → Option (Nat × Nat × List Nat)
  | [], off, acc => some (off, acc, [])
  | c :: rest, off, acc =>
    match hexVal c with
    | none => some (off, acc, c :: rest)
    | some v =>
      let acc := (acc <<< 4) + v
      if off > 3 then none
      else if acc > 0xFFFF then none
      else scanHex rest (off + 1) acc

/-- State of the main loop of `parseIPv6` when it ends without error: the
address buffer, the fill index, the position of the ellipsis (`none` for -1)
and the unread text. -/
structure V6State where
  ip : List Nat
  i : Nat
  ellipsis : Option Nat
  rest : List Nat
deriving DecidableEq

/-- The main loop of `parseIPv6` (`for i < 16`); each round stores at least
two bytes, so eight rounds of fuel cover it.  `none` is an error. -/
def parseIPv6Loop : Nat → List Nat → List Nat → Nat → Option Nat → Option V6State
  | 0, s, ip, i, ellipsis => some ⟨ip, i, ellipsis, s⟩
  | fuel + 1, s, ip, i, ellipsis =>
    if ¬ i < 16 then some ⟨ip, i, ellipsis, s⟩
    else
      match scanHex s 0 0 with
      | none => none
      | some (off, acc, rest) =>
        if off = 0 then none
        else if rest.head? = some 46 then
          if ellipsis.isNone ∧ i ≠ 12 then none
          else if i + 4 > 16 then none
          else
            match parseIPv4Loop s.length s 0 0 0 0 0 [0, 0, 0, 0] with
            | none => none
            | some f => some ⟨ip.take i ++ f ++ ip.drop (i + 4), i + 4, ellipsis, []⟩
        else
          let ip := (ip.set i (acc >>> 8 % 256)).set (i + 1) (acc % 256)
          let i := i + 2
          match rest with
          | [] => some ⟨ip, i, ellipsis, []⟩
          | c :: rest1 =>
            if c ≠ 58 then none
            else
              match rest1 with
              | [] => none
              | c1 :: rest2 =>
                if c1 = 58 then
                  if ellipsis.isSome then none
                  else
                    match rest2 with
                    | [] => some ⟨ip, i, some i, []⟩
                    | _ => parseIPv6Loop fuel rest2 ip i (some i)
                else parseIPv6Loop fuel (c1 :: rest2) ip i ellipsis

/-- Expansion of the ellipsis at the end of `parseIPv6`: the bytes from
`ellipsis` up to `i` move to the end and the gap is cleared. -/
def expandEllipsis (ip : List Nat) (i ellipsis : Nat) : List Nat :=
  ip.take ellipsis ++ List.replicate (16 - i) 0 ++ (ip.drop ellipsis).take (i - ellipsis)

/-- Go `netip.parseIPv6` for text without a zone: the sixteen bytes of the
address. -/
def parseIPv6 (s : List Nat) : Option (List Nat) :=
  let start : Option Nat × List Nat :=
    match s with
    | 58 :: 58 :: rest => (some 0, rest)
    | _ => (none, s)
  if start.1.isSome ∧ start.2 = [] then some (List.replicate 16 0)
  else
    match parseIPv6Loop 8 start.2 (List.replicate 16 0) 0 start.1 with
    | none => none
    | some st =>
      if st.rest ≠ [] then none
      else if st.i < 16 then
        match st.ellipsis with
        | none => none
        | some e => some (expandEllipsis st.ip st.i e)
      else if st.ellipsis.isSome then none
      else some st.ip

/-- The dispatch of `netip.ParseAddr` on the first of '.', ':' and '%' in the
text, with the 16-byte form `Addr.As16` gives the result. -/
def parseAddrScan (s : List Nat) : List Nat → Option (List Nat)
  | [] => none
  | c :: rest =>
    if c = 46 then (parseIPv4 s).map (fun f => [0, 0, 0, 0, 0, 0, 0, 0, 0, 0, 0xff, 0xff] ++ f)
    else if c = 58 then parseIPv6 s
    else if c = 37 then none
    else parseAddrScan s rest

/-- Go `net.ParseIP`: the 16-byte address, `none` for nil.  Text with a zone
(a '%') is rejected. -/
def ParseIP (s : List Nat) : Option (List Nat) :=
  if s.contains 37 then none else parseAddrScan s s

/-- Go `IP.To4` on a 16-byte address. -/
def IPTo4 (ip : List Nat) : Option (List Nat) :=
  if ip.length = 4 then some ip
  else if ip.length = 16 ∧ (ip.take 10).all (fun b => b == 0) ∧ ip.getD 10 0 = 0xff
      ∧ ip.getD 11 0 = 0xff then some (ip.drop 12)
  else none

/-- Go `net.IPv4`. -/
def IPv4 (a b c d : Nat) : List Nat := [0, 0, 0, 0, 0, 0, 0, 0, 0, 0, 0xff, 0xff, a, b, c, d]

/-- Go `IP.To16`. -/
def IPTo16 (ip : List Nat) : Option (List Nat) :=
  if ip.length = 4 then some (IPv4 (ip.getD 0 0) (ip.getD 1 0) (ip.getD 2 0) (ip.getD 3 0))
  else if ip.length = 16 then some ip
  else none

/-- The digit characters of `netip`. -/
def hexDigit (d : Nat) : Nat := if d < 10 then 48 + d else 87 + d

/-- Go `netip` hexadecimal rendering of one 16-bit group. -/
def appendHex (x : Nat) : List Nat :=
  (if x ≥ 0x1000 then [hexDigit (x >>> 12)] else []) ++
  (if x ≥ 0x100 then [hexDigit (x >>> 8 &&& 0xf)] else []) ++
  (if x ≥ 0x10 then [hexDigit (x >>> 4 &&& 0xf)] else []) ++ [hexDigit (x &&& 0xf)]

/-- The eight 16-bit groups of a 16-byte address. -/
def v6groups (ip : List Nat) : List Nat :=
  (List.range 8).map (fun k => ip.getD (2 * k) 0 * 256 + ip.getD (2 * k + 1) 0)

/-- The inner loop of `appendTo6`: the end of the run of zero groups that
starts at `j`. -/
def zeroRunEnd (g : List Nat) : Nat → Nat → Nat
  | 0, j => j
  | fuel + 1, j => if j < 8 ∧ g.getD j 0 = 0 then zeroRunEnd g fuel (j + 1) else j

/-- The first loop of `appendTo6`: the longest run of at least two zero
groups, the leftmost on a tie; (255, 255) when there is none. -/
def findZeroRun (g : List Nat) : Nat × Nat :=
  (List.range 8).foldl (fun (z : Nat × Nat) i =>
    let j := zeroRunEnd g 8 i
    let l := j - i
    if l ≥ 2 ∧ l > (z.2 + 256 - z.1) % 256 then (i, j) else z) (255, 255)

/-- The second loop of `appendTo6` from index `i` on. -/
def emit6 (g : List Nat) (zeroStart zeroEnd : Nat) : Nat → Nat → List Nat
  | 0, _ => []
  | fuel + 1, i =>
    if ¬ i < 8 then []
    else if i = zeroStart then
      [58, 58] ++ (if zeroEnd ≥ 8 then []
        else appendHex (g.getD zeroEnd 0) ++ emit6 g zeroStart zeroEnd fuel (zeroEnd + 1))
    else
      (if i > 0 then [58] else []) ++ appendHex (g.getD i 0)
        ++ emit6 g zeroStart zeroEnd fuel (i + 1)

/-- Go `Addr.string6`. -/
def string6 (ip : List Nat) : List Nat :=
  let g := v6groups ip
  emit6 g (findZeroRun g).1 (findZeroRun g).2 8 0

/-- Go `IP.String` of a 16-byte address: dotted decimal when `To4` succeeds,
else the IPv6 text. -/
def IPString (ip : List Nat) : List Nat :=
  match IPTo4 ip with
  | some p4 => ipv4String (p4.getD 0 0) (p4.getD 1 0) (p4.getD 2 0) (p4.getD 3 0)
  | none => string6 ip

/-! ## Address conversion (addr_res.go) -/

/-- GoInet_pton: return value, state, and the memory at `dst` afterwards. -/
def GoInet_pton (w : World) (family : Int) (src dst : Option (List Nat)) :
    Int × World × Option (List Nat) :=
  match src, dst with
  | some _, some mem =>
    let s := goStringFromPtr src
    match ParseIP s with
    | none => (0, w, dst)
    | some ip =>
      if family = AF_INET then
        match IPTo4 ip with
        | none => (0, w, dst)
        | some ip4 => (1, w, some (ip4 ++ mem.drop 4))
      else if family = AF_INET6 then
        match IPTo16 ip with
        | none => (0, w, dst)
        | some ip6 => (1, w, some (ip6 ++ mem.drop 16))
      else (-1, setLastError w WSAEFAULT, dst)
  | _, _ => (-1, setLastError w WSAEFAULT, dst)

/-- Go `binary.BigEndian.Uint32(b)`. -/
def beUint32 (b : List Nat) : Nat :=
  b.getD 3 0 ||| (b.getD 2 0 <<< 8) ||| (b.getD 1 0 <<< 16) ||| (b.getD 0 0 <<< 24)

/-- Go `binary.BigEndian.PutUint32` into a fresh 4-byte slice. -/
def bePutUint32 (v : Nat) : List Nat :=
  [v >>> 24 % 256, v >>> 16 % 256, v >>> 8 % 256, v % 256]

/-- GoInet_addr: the `uint32` returned.  `net.ParseIP(s).To4()` is nil when
either step gives nil. -/
def GoInet_addr (cp : Option (List Nat)) : Nat :=
  match (ParseIP (goStringFromPtr cp)).bind IPTo4 with
  | none => 0xFFFFFFFF
  | some ip => beUint32 ip

/-- GoInet_ntoa: the contents of the 16-byte static buffer `staticInetNtoa`
afterwards; the function returns a pointer to that buffer. -/
def GoInet_ntoa (staticInetNtoa : List Nat) (inp : Nat) : List Nat :=
  let s := IPString (bePutUint32 inp)
  goStore (goCopy staticInetNtoa s) s.length 0

/-! ## Raw sockets: the synthesised IPv4 header (tx_std.go) -/

/-- A `netip.Addr` as synthesizeIPv4Header observes it: the zero Addr (not
valid), an IPv4 address with its four bytes, or an IPv6 address. -/
inductive NetipAddr where
  | zero
  | ip4 (a b c d : Nat)
  | ip6 (bytes : List Nat)
deriving DecidableEq

/-- The result of an `int` computation (64 bits, wrapping). -/
def i64 (x : Int) : Int := (x + 2 ^ 63) % 2 ^ 64 - 2 ^ 63

/-- Go `byte(x)` on an `int`. -/
def byteOfInt (x : Int) : Nat := (x % 256).toNat

/-- The loop `for i := 0; i < 20; i += 2 { sum += uint32(hdr[i])<<8 | uint32(hdr[i+1]) }`
over the bytes that remain. -/
def sumWords : List Nat → Nat → Nat
  | a :: b :: rest, sum => sumWords rest (u32 (sum + (u32 (a <<< 8) ||| b)))
  | _, sum => sum

/-- The loop `for sum > 0xffff { sum = (sum >> 16) + (sum & 0xffff) }` on a
`uint32`, with a bound on the number of rounds; `none` when the bound is
reached while the condition still holds. -/
def foldCarries : Nat → Nat → Option Nat
  | 0, sum => if sum > 0xffff then none else some sum
  | fuel + 1, sum =>
    if sum > 0xffff then foldCarries fuel (u32 ((sum >>> 16) + (sum &&& 0xffff)))
    else some sum

/-- The four bytes `copy(hdr[..], addr.As4())` stores, guarded by
`addr.IsValid() && addr.Is4()`; the header bytes stay zero otherwise. -/
def headerAddr (addr : NetipAddr) : List Nat :=
  match addr with
  | NetipAddr.ip4 a b c d => [a, b, c, d]
  | _ => [0, 0, 0, 0]

/-- synthesizeIPv4Header.  Two rounds of the carry loop bring any `uint32`
below 0x10000, so `none` does not occur. -/
def synthesizeIPv4Header (src dst : NetipAddr) (payloadLen : Int) : Option (List Nat) :=
  let totalLen := i64 (20 + payloadLen)
  let hdr := [0x45, 0x00, byteOfInt (totalLen >>> (8 : Nat)), byteOfInt totalLen, 0, 0, 0, 0, 64, 1,
    0, 0] ++ headerAddr src ++ headerAddr dst
  match foldCarries 2 (sumWords hdr 0) with
  | none => none
  | some sum =>
    let checksum := 0xFFFF ^^^ u16 sum
    some ((hdr.set 10 (checksum >>> 8 % 256)).set 11 (checksum % 256))

/-! ## Scatter/gather transfer (tx_extd.go) -/

def WSA_IO_PENDING : Int := 997
def WSA_IO_INCOMPLETE : Int := 996

/-- A wsaBuf: the Len field and the memory its Buf pointer designates (at
least Len bytes for a valid WSABUF). -/
structure wsaBuf where
  Len : Nat
  Buf : List Nat
deriving DecidableEq

/-- A non-nil `lpOverlapped`: its address, which is the tracking key, and the
HEvent field of the structure (0 for nil). -/
structure wsaOverlapped where
  addr : Nat
  HEvent : Nat
deriving DecidableEq

/-- gatherBuffers: `lpBuffers` is the WSABUF array at the pointer, of which
the first `count` entries are used.  (The first loop of the source only
computes the capacity of the output slice.) -/
def gatherBuffers (lpBuffers : List wsaBuf) (count : Nat) : List Nat :=
  (lpBuffers.take count).foldl (fun out b => out ++ b.Buf.take b.Len) []

/-- The loop of scatterBuffers over the entries that remain, `off` bytes of
`data` having been stored: the final `off` and the entries afterwards. -/
def scatterLoop (data : List Nat) : List wsaBuf → Nat → Nat × List wsaBuf
  | [], off => (off, [])
  | b :: rest, off =>
    let n := min (b.Buf.take b.Len).length (data.drop off).length
    let stored : wsaBuf :=
      { b with Buf := goCopy (b.Buf.take b.Len) (data.drop off) ++ b.Buf.drop b.Len }
    if off + n ≥ data.length then (off + n, stored :: rest)
    else ((scatterLoop data rest (off + n)).1, stored :: (scatterLoop data rest (off + n)).2)

/-- scatterBuffers: the `uint32` returned and the WSABUF array afterwards. -/
def scatterBuffers (lpBuffers : List wsaBuf) (count : Nat) (data : List Nat) :
    Nat × List wsaBuf :=
  (u32 (scatterLoop data (lpBuffers.take count) 0).1,
   (scatterLoop data (lpBuffers.take count) 0).2 ++ lpBuffers.drop count)

/-- GoWSASend: return value, state, and `*lpNumberOfBytesSent` afterwards.
`write data` is the outcome of `st.Conn.Write(data)`: the count and the
error.  With a non-nil `lpOverlapped` the result is the state at the return of
the call, the goroutine that performs the write still pending.  `dwFlags` and
`lpCompletionRoutine` are not used by the function. -/
def GoWSASend (w : World) (s : Nat) (lpBuffers : Option (List wsaBuf)) (dwBufferCount : Nat)
    (lpNumberOfBytesSent : Option Nat) (lpOverlapped : Option wsaOverlapped)
    (write : List Nat → Nat × Option GoError) : Int × World × Option Nat :=
  match (w.registry.Get s).bind (fun st => st.Conn) with
  | none => (-1, setLastError w WSAENOTSOCK, lpNumberOfBytesSent)
  | some _ =>
    match lpBuffers with
    | none => (-1, setLastError w WSAEINVAL, lpNumberOfBytesSent)
    | some bufs =>
      if dwBufferCount = 0 then (-1, setLastError w WSAEINVAL, lpNumberOfBytesSent)
      else
        match lpOverlapped with
        | some ov =>
          (-1, setLastError
            { w with registry := w.registry.SetOverlappedResult ov.addr ⟨0, 0, false, 0⟩ }
            WSA_IO_PENDING, lpNumberOfBytesSent)
        | none =>
          match (write (gatherBuffers bufs dwBufferCount)).2 with
          | some e => (-1, setLastError w (mapError (some e)), lpNumberOfBytesSent)
          | none =>
            (0, w, lpNumberOfBytesSent.map
              (fun _ => u32 (write (gatherBuffers bufs dwBufferCount)).1))

/-- The loop `for i := range bufs { totalCap += int(bufs[i].Len) }`. -/
def totalCap (bufs : List wsaBuf) : Nat := bufs.foldl (fun t b => t + b.Len) 0

/-- GoWSARecv: return value, state, the WSABUF array and `*lpNumberOfBytesRecvd`
afterwards.  `read cap` is the outcome of `st.Conn.Read(tmp)` on a buffer of
`cap` bytes: the bytes delivered (their number is the count returned) and the
error.  With a non-nil `lpOverlapped` the result is the state at the return of
the call.  `lpFlags` and `lpCompletionRoutine` are not used by the function. -/
def GoWSARecv (w : World) (s : Nat) (lpBuffers : Option (List wsaBuf)) (dwBufferCount : Nat)
    (lpNumberOfBytesRecvd : Option Nat) (lpOverlapped : Option wsaOverlapped)
    (read : Nat → List Nat × Option GoError) :
    Int × World × Option (List wsaBuf) × Option Nat :=
  match (w.registry.Get s).bind (fun st => st.Conn) with
  | none => (-1, setLastError w WSAENOTSOCK, lpBuffers, lpNumberOfBytesRecvd)
  | some _ =>
    match lpBuffers with
    | none => (-1, setLastError w WSAEINVAL, lpBuffers, lpNumberOfBytesRecvd)
    | some bufs =>
      if dwBufferCount = 0 then (-1, setLastError w WSAEINVAL, lpBuffers, lpNumberOfBytesRecvd)
      else
        match lpOverlapped with
        | some ov =>
          (-1, setLastError
            { w with registry := w.registry.SetOverlappedResult ov.addr ⟨0, 0, false, 0⟩ }
            WSA_IO_PENDING, lpBuffers, lpNumberOfBytesRecvd)
        | none =>
          let cap := totalCap (bufs.take dwBufferCount)
          let tmp := goCopy (List.replicate cap 0) (read cap).1
          let n := (read cap).1.length
          if (read cap).2.isSome ∧ n = 0 then
            (-1, setLastError w (mapError (read cap).2), lpBuffers, lpNumberOfBytesRecvd)
          else
            (0, w,
             some (if n > 0 then (scatterBuffers bufs dwBufferCount (tmp.take n)).2 else bufs),
             lpNumberOfBytesRecvd.map (fun _ => u32 n))

/-! ## Overlapped results (status_error.go) -/

/-- How a call that may wait ends. -/
inductive Call (α : Type) where
  | returned (a : α)
  | blocked
  | panicked
deriving DecidableEq

/-- GoWSAGetOverlappedResult: return value, state, `*lpcbTransfer` and
`*lpdwFlags` afterwards.  The receive `<-c` on the event of the overlapped
structure takes the signal when the event is set and blocks when it is not.
The socket argument `s` is not used by the function. -/
def GoWSAGetOverlappedResult (w : World) (lpOverlapped : Option wsaOverlapped)
    (lpcbTransfer : Option Nat) (fWait : Int) (lpdwFlags : Option Nat) :
    Call (Int × World × Option Nat × Option Nat) :=
  match lpOverlapped with
  | none => Call.returned (0, setLastError w WSAEINVAL, lpcbTransfer, lpdwFlags)
  | some ov =>
    let waited : Option World :=
      if fWait ≠ 0 ∧ ov.HEvent ≠ 0 then
        match w.registry.GetEvent ov.HEvent with
        | some true =>
          some { w with registry :=
            { w.registry with events := mapSet w.registry.events ov.HEvent false } }
        | some false => none
        | none => some w
      else some w
    match waited with
    | none => Call.blocked
    | some w1 =>
      let w2 : World := { w1 with registry := (w1.registry.GetOverlappedResult ov.addr).2 }
      match (w1.registry.GetOverlappedResult ov.addr).1 with
      | none => Call.returned (1, w2, lpcbTransfer.map (fun _ => 0), lpdwFlags)
      | some result =>
        let cb := lpcbTransfer.map (fun _ => result.BytesTransferred)
        let fl := lpdwFlags.map (fun _ => result.Flags)
        if ¬ result.Complete then
          Call.returned (0, setLastError w2 WSA_IO_INCOMPLETE, cb, fl)
        else if result.Error ≠ 0 then
          Call.returned (0, setLastError w2 result.Error, cb, fl)
        else Call.returned (1, w2, cb, fl)

/-! ## Lifecycle (lifecycle.go, stack.go) -/

/-- The fields of wsaData that GoWSAStartup writes. -/
structure wsaData where
  wVersion : Nat
  wHighVersion : Nat
  szDescription : List Nat
  szSystemStatus : List Nat
  iMaxSockets : Nat
  iMaxUdpDg : Nat
deriving DecidableEq

/-- A call GoWSACleanup makes when the last reference goes. -/
inductive TeardownCall where
  | PurgeAll
  | CloseStack
deriving DecidableEq

/-- The state lifecycle.go works on: the package state of the other files, the
counter `wsaRefCount` (an `int` that moves by one per call), the flag
`stackInitialized` of stack.go, and the log of the teardown calls made so
far. -/
structure Lifecycle where
  world : World
  wsaRefCount : Int
  stackInitialized : Bool
  teardown : List TeardownCall
deriving DecidableEq

/-- The state at program start. -/
def Lifecycle.init (le : Bool) : Lifecycle :=
  { world := World.init le, wsaRefCount := 0, stackInitialized := false, teardown := [] }

/-- InitializeStack as far as `stackInitialized` goes; `initOk` tells whether
loading the configuration and bringing the device up succeed. -/
def InitializeStack (stackInitialized initOk : Bool) : Bool :=
  if stackInitialized then true else initOk

/-- GoWSAStartup: return value, state, and the WSADATA at `lpWSAData`
afterwards. -/
def GoWSAStartup (L : Lifecycle) (wVersionRequested : Nat) (lpWSAData : Option wsaData)
    (initOk : Bool) : Int × Lifecycle × Option wsaData :=
  (0,
   { L with wsaRefCount := L.wsaRefCount + 1,
            stackInitialized := InitializeStack L.stackInitialized initOk },
   lpWSAData.map (fun data =>
     { data with wVersion := wVersionRequested, wHighVersion := 0x0202,
                 szDescription := goCopy data.szDescription (goBytes "Go-Winsock Bridge"),
                 szSystemStatus := goCopy data.szSystemStatus (goBytes "Running"),
                 iMaxSockets := 32767, iMaxUdpDg := 65467 }))

/-- The teardown of GoWSACleanup: `registry.PurgeAll()` and `CloseStack()`. -/
def runTeardown (L : Lifecycle) : Lifecycle :=
  { L with world := { L.world with registry := L.world.registry.PurgeAll.1,
                                   trace := L.world.trace ++ L.world.registry.PurgeAll.2 },
           stackInitialized := false,
           teardown := L.teardown ++ [TeardownCall.PurgeAll, TeardownCall.CloseStack] }

/-- GoWSACleanup. -/
def GoWSACleanup (L : Lifecycle) : Int × Lifecycle :=
  if L.wsaRefCount > 0 then
    if L.wsaRefCount - 1 = 0 then (0, runTeardown { L with wsaRefCount := L.wsaRefCount - 1 })
    else (0, { L with wsaRefCount := L.wsaRefCount - 1 })
  else (0, L)

/-! ## select and WSAPoll (io_multplx.go) -/

/-- The struct fd_set: Count and the Array of 64 socket handles. -/
structure fd_set where
  Count : Nat
  Array : List Nat
deriving DecidableEq

/-- The struct timeval. -/
structure timeval where
  Sec : Int
  Usec : Int
deriving DecidableEq

/-- checkReadReady; `ready` is the current readiness set of the socket's
endpoint, so that `st.Endpoint.Readiness(mask)` is `ready &&& mask`. -/
def checkReadReady (st : SocketState) (ready : Nat) : Bool :=
  if st.Endpoint then
    decide ((ready &&& (EventIn ||| EventErr ||| EventHUp))
      &&& (EventIn ||| EventErr ||| EventHUp) ≠ 0)
  else if st.Listener.isSome then true
  else false

/-- checkWriteReady. -/
def checkWriteReady (st : SocketState) (ready : Nat) : Bool :=
  if st.Endpoint then
    decide ((ready &&& (EventOut ||| EventErr ||| EventHUp))
      &&& (EventOut ||| EventErr ||| EventHUp) ≠ 0)
  else if st.Conn.isNone then false
  else true

/-- One loop of the closure checkReadiness of GoSelect,
`for i := uint32(0); i < fs.Count; i++`, from index `i` with `n` rounds to go:
the handles collected and the ready count.  `none` is the panic of an index
outside the 64-entry array.  `ready h` is the readiness set of the endpoint of
socket `h`. -/
def selectScan (w : World) (check : SocketState → Nat → Bool) (ready : Nat → Nat)
    (fs : fd_set) : Nat → Nat → List Nat → Int → Option (List Nat × Int)
  | 0, _, res, readyCount => some (res, readyCount)
  | n + 1, i, res, readyCount =>
    match fs.Array.get? i with
    | none => none
    | some h =>
      match w.registry.Get h with
      | some st =>
        if check st (ready h) then selectScan w check ready fs n (i + 1) (res ++ [h]) (readyCount + 1)
        else selectScan w check ready fs n (i + 1) res readyCount
      | none => selectScan w check ready fs n (i + 1) res readyCount

/-- The closure checkReadiness of GoSelect: the ready count, the read
results and the write results; the count of `exceptfds` is cleared by the
caller of this function in the model. -/
def selectCheckReadiness (w : World) (readfds writefds : Option fd_set) (ready : Nat → Nat) :
    Option (Int × List Nat × List Nat) :=
  let r := match readfds with
    | some rs => selectScan w checkReadReady ready rs rs.Count 0 [] 0
    | none => some ([], 0)
  match r with
  | none => none
  | some (readRes, c1) =>
    let wr := match writefds with
      | some ws => selectScan w checkWriteReady ready ws ws.Count 0 [] c1
      | none => some ([], c1)
    match wr with
    | none => none
    | some (writeRes, c2) => some (c2, readRes, writeRes)

/-- The write-back `fs.Count = uint32(len(res)); fs.Array[i] = res[i]`. -/
def storeResult (fds : Option fd_set) (res : List Nat) : Option fd_set :=
  fds.map (fun fs => { Count := res.length, Array := res ++ fs.Array.drop res.length })

/-- GoSelect: return value and the three sets afterwards.  `ready` is the
readiness of the endpoints at the first probe, `ready2` at the probe after the
wait, and `woken` tells whether the notification channel is signalled during
an infinite wait.  The waiter entries the function registers are unregistered
again before it returns; `nfds` is not used. -/
def GoSelect (w : World) (readfds writefds exceptfds : Option fd_set)
    (timeout : Option timeval) (ready ready2 : Nat → Nat) (woken : Bool) :
    Call (Int × Option fd_set × Option fd_set × Option fd_set) :=
  let waitTime : Int :=
    match timeout with
    | some tv => tv.Sec * 1000000000 + tv.Usec * 1000
    | none => 0
  let infinite := timeout.isNone
  let cleared := exceptfds.map (fun es => { es with Count := 0 })
  match selectCheckReadiness w readfds writefds ready with
  | none => Call.panicked
  | some (readyCount, readRes, writeRes) =>
    if readyCount > 0 ∨ (¬ infinite ∧ waitTime = 0) then
      Call.returned (readyCount, storeResult readfds readRes, storeResult writefds writeRes,
        cleared)
    else if infinite ∧ ¬ woken then Call.blocked
    else
      match selectCheckReadiness w readfds writefds ready2 with
      | none => Call.panicked
      | some (readyCount, readRes, writeRes) =>
        Call.returned (readyCount, storeResult readfds readRes,
          storeResult writefds writeRes, cleared)

def POLLPRI : Nat := 0x0400
def MSG_PEEK : Nat := 0x2
def WSAENOTCONN : Int := 10057

/-- The connection of a socket as GoRecv uses it.  `σ` is the type of the
states of the connection; `read c cap` is `Conn.Read` on a buffer of `cap`
bytes in state `c`: the bytes delivered (their number is the count returned),
the error, and the state afterwards.  `hasRemote` tells whether `RemoteAddr()`
is non-nil and `pingAddr` is its address when it is a `*netstack.PingAddr`.
The read deadline GoRecv sets before it reads is part of what decides the
outcome of the read. -/
structure RecvConn (σ : Type) where
  hasRemote : Bool
  pingAddr : Option NetipAddr
  read : σ → Nat → List Nat × Option GoError × σ

/-- isConnected. -/
def isConnected {σ : Type} (st : SocketState) (conn : RecvConn σ) : Bool :=
  if st.Conn.isNone then false
  else if ¬ conn.hasRemote then false
  else
    match conn.pingAddr with
    | some a => decide (a ≠ NetipAddr.zero)
    | none => true

/-- The error code GoRecv and its siblings store for a failed transfer. -/
def transferError (st : SocketState) (err : Option GoError) : Int :=
  match err with
  | some e =>
    if e.isNetError ∧ e.timeout ∧ st.IsNonBlocking then WSAEWOULDBLOCK else mapError (some e)
  | none => mapError none

/-- The read of GoRecv into `window`, the part of the caller's buffer that is
still free: the window afterwards, the count `rn`, the error, and the state of
the connection.  For a raw socket the read goes into a scratch buffer of `len`
bytes and, when it succeeds with data, a synthesised IPv4 header and the
datagram are copied into the window. -/
def recvRead {σ : Type} (st : SocketState) (conn : RecvConn σ) (c : σ) (len : Nat)
    (window : List Nat) : Option (List Nat × Nat × Option GoError × σ) :=
  if st.Type_ = SocketType.TypeRaw then
    let r := conn.read c len
    let icmpData := goCopy (List.replicate len 0) r.1
    let rn := r.1.length
    if r.2.1.isNone ∧ rn > 0 then
      match synthesizeIPv4Header (conn.pingAddr.getD NetipAddr.zero) (NetipAddr.ip4 0 0 0 0) rn with
      | none => none
      | some hdr =>
        let copied := min window.length hdr.length
        let w1 := goCopy window hdr
        let copied2 := min (window.length - copied) rn
        some (w1.take copied ++ goCopy (w1.drop copied) (icmpData.take rn), copied + copied2,
          r.2.1, r.2.2)
    else some (window, rn, r.2.1, r.2.2)
  else
    let r := conn.read c window.length
    some (goCopy window r.1, r.1.length, r.2.1, r.2.2)

/-- The socket state with `st.PeekBuf = pb`. -/
def setPeekBuf (st : SocketState) (pb : List Nat) : SocketState := { st with PeekBuf := pb }

/-- The package state in which the socket state that handle `s` designates is
`st` (the functions work on the state through the pointer the registry
holds). -/
def putSocket (w : World) (s : Nat) (st : SocketState) : World :=
  { w with registry := { w.registry with sockets := mapSet w.registry.sockets s st } }

/-- The part of GoRecv from the setting of the read deadline on: `pb` is the
peek buffer, `n` the number of bytes already served from it and `data1` the
caller's buffer at that point. -/
def recvTail {σ : Type} (w : World) (s : Nat) (st : SocketState) (pb : List Nat)
    (buf : Option (List Nat)) (len : Int) (peek : Bool) (n : Nat) (data1 : List Nat)
    (conn : RecvConn σ) (c : σ) : Option (Int × World × Option (List Nat) × σ) :=
  match recvRead st conn c len.toNat (data1.drop n) with
  | none => none
  | some (window, rn, err, c1) =>
    let pb2 := if rn > 0 ∧ peek = true then pb ++ window.take rn else pb
    let n2 := if rn > 0 then n + rn else n
    let w2 := putSocket w s (setPeekBuf st pb2)
    let out := buf.map (fun m => data1.take n ++ window ++ m.drop len.toNat)
    if err.isSome ∧ n2 = 0 then some (-1, setLastError w2 (transferError st err), out, c1)
    else some (n2, w2, out, c1)

/-- GoRecv: return value, state, the memory at `buf` and the state of the
connection afterwards.  `none` is a panic (a negative `len`, or a nil `buf`
with a positive `len`). -/
def GoRecv {σ : Type} (w : World) (s : Nat) (buf : Option (List Nat)) (len : Int) (flags : Nat)
    (conn : RecvConn σ) (c : σ) : Option (Int × World × Option (List Nat) × σ) :=
  match w.registry.Get s with
  | none => some (-1, setLastError w WSAENOTSOCK, buf, c)
  | some st =>
    if ¬ isConnected st conn then some (-1, setLastError w WSAENOTCONN, buf, c)
    else if len < 0 ∨ (buf.isNone ∧ len > 0) then none
    else
      let data := (buf.getD []).take len.toNat
      let peek := decide (flags &&& MSG_PEEK ≠ 0)
      if st.PeekBuf.length > 0 then
        let n := min data.length st.PeekBuf.length
        let data1 := goCopy data st.PeekBuf
        let pb := if peek = true then st.PeekBuf else st.PeekBuf.drop n
        if (n : Int) ≥ len ∨ peek = true then
          some (n, putSocket w s (setPeekBuf st pb),
            buf.map (fun m => data1 ++ m.drop len.toNat), c)
        else recvTail w s st pb buf len peek n data1 conn c
      else recvTail w s st st.PeekBuf buf len peek 0 data conn c

/-- GoWSAGetLastError of status_error.go. -/
def GoWSAGetLastError (w : World) : Int := w.lastError

/-- GoWSASetLastError of status_error.go. -/
def GoWSASetLastError (w : World) (iError : Int) : World := setLastError w iError

/-! ## Bind (conn_basic.go) -/

/-- Outcomes of the transport and library calls of one GoBind call: `listen`
is the result of whichever of ListenUDP and ListenPing is reached, and `ready`
the readiness set of the new endpoint when UpdateWaiterQueue probes it. -/
structure BindEnv where
  stackOk : Bool
  resolveUDPOk : Bool
  splitHostPortOk : Bool
  parseAddrOk : Bool
  listen : Except GoError Conn
  ready : Nat

/-- The socket state with `st.BoundAddr = addr`. -/
def setBoundAddr (st : SocketState) (addr : List Nat) : SocketState :=
  { st with BoundAddr := addr }

/-- A failing return of GoBind after the socket state has been written to:
the state that handle `s` designates is `st`. -/
def bindFail (w : World) (s : Nat) (st : SocketState) (errCode : Int) : Int × World :=
  (-1, setLastError (putSocket w s st) errCode)

/-- The tail shared by the datagram and raw branches of GoBind: close the
connection the socket holds, open the listener, install it and refresh the
waiter. -/
def bindListen (w : World) (s : Nat) (st : SocketState) (env : BindEnv) : Int × World :=
  let closes := match st.Conn with
    | some c => [Effect.ConnClose c.id]
    | none => []
  let w1 := { w with trace := w.trace ++ closes }
  match env.listen with
  | Except.error e => bindFail w1 s st (mapError (some e))
  | Except.ok conn =>
    let r := UpdateWaiterQueue { st with Conn := some conn } w1.registry.events env.ready
    (0, { w1 with registry := { w1.registry with sockets := mapSet w1.registry.sockets s r.1,
                                                 events := r.2 } })

/-- GoBind. -/
def GoBind (w : World) (s : Nat) (name : Option SockAddrIn) (_namelen : Int) (env : BindEnv) :
    Int × World :=
  match w.registry.Get s with
  | none => (-1, setLastError w WSAENOTSOCK)
  | some st =>
    if st.BoundAddr ≠ [] then (-1, setLastError w WSAEINVAL)
    else
      match parseSockAddrIn name with
      | none => (-1, setLastError w WSAEINVAL)
      | some addr =>
        if st.Type_ = SocketType.TypeUDP then
          if ¬ env.stackOk then bindFail w s (setBoundAddr st addr) WSAEHOSTUNREACH
          else if ¬ env.resolveUDPOk then bindFail w s (setBoundAddr st addr) WSAEINVAL
          else bindListen w s (setBoundAddr st addr) env
        else if st.Type_ = SocketType.TypeRaw then
          if ¬ env.stackOk then bindFail w s (setBoundAddr st addr) WSAEHOSTUNREACH
          else if st.Protocol ≠ 1 then bindFail w s (setBoundAddr st addr) WSAEPROTONOSUPPORT
          else if ¬ env.splitHostPortOk then bindFail w s (setBoundAddr st addr) WSAEINVAL
          else if ¬ env.parseAddrOk then bindFail w s (setBoundAddr st addr) WSAEINVAL
          else bindListen w s (setBoundAddr st addr) env
        else (0, putSocket w s (setBoundAddr st addr))

/-! ## Transfers with an address (tx_extd.go) -/

/-- The fields of WSAMSG: `Name` is the memory at the address pointer,
`Buffers` the WSABUF array at the buffer pointer. -/
structure wsaMsg where
  Name : Option (List Nat)
  Namelen : Int
  Buffers : Option (List wsaBuf)
  BufferCnt : Nat
  Control : wsaBuf
  Flags : Nat
deriving DecidableEq

/-- GoWSASendTo: return value, state and `*lpNumberOfBytesSent` afterwards;
`none` is a panic.  `sendto data len` is the outcome of the call
`GoSendto(s, &data[0], len, dwFlags, lpTo, iTolen)`: the value returned and the
state afterwards.  The expression `&data[0]` indexes the gathered slice, which
is out of range when the slice is empty. -/
def GoWSASendTo (w : World) (lpBuffers : Option (List wsaBuf)) (dwBufferCount : Nat)
    (lpNumberOfBytesSent : Option Nat) (sendto : World → List Nat → Int → Int × World) :
    Option (Int × World × Option Nat) :=
  match lpBuffers with
  | none => some (-1, setLastError w WSAEINVAL, lpNumberOfBytesSent)
  | some bufs =>
    if dwBufferCount = 0 then some (-1, setLastError w WSAEINVAL, lpNumberOfBytesSent)
    else
      let data := gatherBuffers bufs dwBufferCount
      if data.length = 0 then none
      else
        let r := sendto w data (i32 (u32 data.length))
        if r.1 ≠ -1 then some (0, r.2, lpNumberOfBytesSent.map (fun _ => ofInt32 r.1))
        else some (-1, r.2, lpNumberOfBytesSent)

/-- The part GoWSARecvFrom and GoWSARecvMsg share: a temporary buffer of
`cap` bytes and the call of GoRecvfrom on `&tmp[0]`.  `recvfrom cap` is the
outcome of GoRecvfrom on a buffer of `cap` bytes: the value returned, the
bytes it stored, the length it left in `*fromlen` and the state afterwards.
The result is the value returned, `tmp`, that length and the state; `none` is
the panic of `&tmp[0]` on an empty buffer. -/
def recvIntoTmp (w : World) (cap : Nat)
    (recvfrom : World → Nat → Int × List Nat × Int × World) :
    Option (Int × List Nat × Int × World) :=
  if cap = 0 then none
  else
    some ((recvfrom w cap).1, goCopy (List.replicate cap 0) (recvfrom w cap).2.1,
      (recvfrom w cap).2.2.1, (recvfrom w cap).2.2.2)

/-- GoWSARecvFrom: return value, state, the WSABUF array and
`*lpNumberOfBytesRecvd` afterwards; `none` is a panic (of `&tmp[0]`, or of the
slice `tmp[:n]` when `n` exceeds the buffer). -/
def GoWSARecvFrom (w : World) (lpBuffers : Option (List wsaBuf)) (dwBufferCount : Nat)
    (lpNumberOfBytesRecvd : Option Nat)
    (recvfrom : World → Nat → Int × List Nat × Int × World) :
    Option (Int × World × Option (List wsaBuf) × Option Nat) :=
  match lpBuffers with
  | none => some (-1, setLastError w WSAEINVAL, lpBuffers, lpNumberOfBytesRecvd)
  | some bufs =>
    if dwBufferCount = 0 then some (-1, setLastError w WSAEINVAL, lpBuffers, lpNumberOfBytesRecvd)
    else
      match recvIntoTmp w (totalCap (bufs.take dwBufferCount)) recvfrom with
      | none => none
      | some (n, tmp, _, w1) =>
        if n = -1 then some (-1, w1, lpBuffers, lpNumberOfBytesRecvd)
        else if n > 0 ∧ n > tmp.length then none
        else
          some (0, w1,
            some (if n > 0 then (scatterBuffers bufs dwBufferCount (tmp.take n.toNat)).2
              else bufs),
            lpNumberOfBytesRecvd.map (fun _ => ofInt32 n))

/-- GoWSASendMsg: return value, state and `*lpdwBytesSent` afterwards; `none`
is a panic.  `write` is the outcome of the write GoWSASend makes on the
path without a destination. -/
def GoWSASendMsg (w : World) (s : Nat) (lpMsg : Option wsaMsg) (lpdwBytesSent : Option Nat)
    (lpOverlapped : Option wsaOverlapped) (sendto : World → List Nat → Int → Int × World)
    (write : List Nat → Nat × Option GoError) : Option (Int × World × Option Nat) :=
  match lpMsg with
  | none => some (-1, setLastError w WSAEFAULT, lpdwBytesSent)
  | some msg =>
    match msg.Buffers with
    | none => some (-1, setLastError w WSAEINVAL, lpdwBytesSent)
    | some bufs =>
      if msg.BufferCnt = 0 then some (-1, setLastError w WSAEINVAL, lpdwBytesSent)
      else if msg.Name.isSome ∧ msg.Namelen > 0 then
        let data := gatherBuffers bufs msg.BufferCnt
        if data.length = 0 then none
        else
          let r := sendto w data (i32 (u32 data.length))
          if r.1 ≠ -1 then some (0, r.2, lpdwBytesSent.map (fun _ => ofInt32 r.1))
          else some (-1, r.2, lpdwBytesSent)
      else some (GoWSASend w s (some bufs) msg.BufferCnt lpdwBytesSent lpOverlapped write)

/-- GoWSARecvMsg: return value, state, the WSAMSG and `*lpdwBytesReceived`
afterwards; `none` is a panic (of `&tmp[0]`, or of the slice `tmp[:n]`).
`read` is the outcome of the read GoWSARecv makes on the path without a source address. -/
def GoWSARecvMsg (w : World) (s : Nat) (lpMsg : Option wsaMsg) (lpdwBytesReceived : Option Nat)
    (lpOverlapped : Option wsaOverlapped)
    (recvfrom : World → Nat → Int × List Nat × Int × World)
    (read : Nat → List Nat × Option GoError) :
    Option (Int × World × Option wsaMsg × Option Nat) :=
  match lpMsg with
  | none => some (-1, setLastError w WSAEFAULT, lpMsg, lpdwBytesReceived)
  | some msg =>
    match msg.Buffers with
    | none => some (-1, setLastError w WSAEINVAL, lpMsg, lpdwBytesReceived)
    | some bufs =>
      if msg.BufferCnt = 0 then some (-1, setLastError w WSAEINVAL, lpMsg, lpdwBytesReceived)
      else if msg.Name.isSome then
        match recvIntoTmp w (totalCap (bufs.take msg.BufferCnt)) recvfrom with
        | none => none
        | some (n, tmp, namelen, w1) =>
          if n = -1 then some (-1, w1, lpMsg, lpdwBytesReceived)
          else if n < 0 ∨ n > tmp.length then none
          else
            some (0, w1,
              some { msg with
                Namelen := namelen,
                Buffers := some (scatterBuffers bufs msg.BufferCnt (tmp.take n.toNat)).2,
                Control := { msg.Control with Len := 0 } },
              lpdwBytesReceived.map (fun _ => ofInt32 n))
      else
        let r := GoWSARecv w s (some bufs) msg.BufferCnt lpdwBytesReceived lpOverlapped read
        some (r.1, r.2.1,
          some { msg with Buffers := r.2.2.1, Flags := 0,
                          Control := { msg.Control with Len := 0 } },
          r.2.2.2)

/-! ## Host lookup by address (name_res.go) -/

def WSAEAFNOSUPPORT : Int := 10047
def EAI_MEMORY : Int := 8
def EAI_NONAME : Int := 11001
def EAI_AGAIN : Int := 11002
def EAI_FAIL : Int := 11003
def EAI_SERVICE : Int := 10109

/-- The static hostent and the buffers its pointers designate.  `Name` points
at `staticHostName` and `Aliases` at the one-entry array `staticHostAliases`;
`staticHostAddrs` is the array `[16][4]byte` as the 64 bytes it occupies, row
`i` at offset `4 * i`; an entry `some i` of `staticHostAddrPtrs` is the
pointer `&staticHostAddrs[i][0]`; `addrListSet` tells whether `AddrList`
points at `staticHostAddrPtrs`.  `Addrtype` and `Length` are the `int16`
fields. -/
structure HostStatics where
  staticHostName : List Nat
  staticHostAliases : Option Nat
  staticHostAddrs : List Nat
  staticHostAddrPtrs : List (Option Nat)
  Addrtype : Int
  Length : Int
  addrListSet : Bool
deriving DecidableEq

/-- The static buffers at program start. -/
def HostStatics.init : HostStatics :=
  { staticHostName := List.replicate 256 0, staticHostAliases := none,
    staticHostAddrs := List.replicate 64 0, staticHostAddrPtrs := List.replicate 17 none,
    Addrtype := 0, Length := 0, addrListSet := false }

/-- Conversion to `int16`. -/
def i16 (x : Int) : Int := (x + 2 ^ 15) % 2 ^ 16 - 2 ^ 15

/-- `copy(staticHostAddrs[row][:], src)`: at most four bytes go into the
row. -/
def copyHostAddrRow (addrs : List Nat) (row : Nat) (src : List Nat) : List Nat :=
  addrs.take (4 * row) ++ goCopy ((addrs.drop (4 * row)).take 4) src ++
    addrs.drop (4 * row + 4)

/-- GoGethostbyaddr: whether the returned pointer is non-nil (it is then the
static hostent), the state and the static buffers afterwards.  `lookupPTR ip`
is the outcome of the reverse lookup: the name, or `none` for an error.  The
outer `none` is the panic of a terminator written past `staticHostName`. -/
def GoGethostbyaddr (w : World) (hs : HostStatics) (addr : Option (List Nat))
    (addrLen addrType : Int) (lookupPTR : List Nat → Option (List Nat)) :
    Option (Bool × World × HostStatics) :=
  match addr with
  | none => some (false, setLastError w WSAEINVAL, hs)
  | some mem =>
    let ipOpt : Option (List Nat) :=
      if addrType = AF_INET ∧ addrLen = 4 then
        some (IPv4 (mem.getD 0 0) (mem.getD 1 0) (mem.getD 2 0) (mem.getD 3 0))
      else if addrType = AF_INET6 ∧ addrLen = 16 then
        some ((List.range 16).map (fun i => mem.getD i 0))
      else none
    match ipOpt with
    | none => some (false, setLastError w WSAEAFNOSUPPORT, hs)
    | some ip =>
      match lookupPTR ip with
      | none => some (false, setLastError w EAI_NONAME, hs)
      | some hostname =>
        if hostname = [] then some (false, setLastError w EAI_NONAME, hs)
        else if hostname.length ≥ hs.staticHostName.length then none
        else
          let src := if addrType = AF_INET then (IPTo4 ip).getD [] else (IPTo16 ip).getD []
          some (true, w,
            { staticHostName := goStore (goCopy hs.staticHostName hostname) hostname.length 0,
              staticHostAliases := none,
              staticHostAddrs := copyHostAddrRow hs.staticHostAddrs 0 src,
              staticHostAddrPtrs := (hs.staticHostAddrPtrs.set 0 (some 0)).set 1 none,
              Addrtype := i16 addrType, Length := i16 addrLen, addrListSet := true })

/-! ## getaddrinfo (name_res.go) -/

def SOCK_STREAM : Int := 1
def SOCK_DGRAM : Int := 2
def IPPROTO_UDP : Int := 17
def AI_PASSIVE : Nat := 0x0001
def AI_CANONNAME : Nat := 0x0002
def AI_NUMERICHOST : Nat := 0x0004
def AI_NUMERICSERV : Nat := 0x0008

/-- htons16: the two bytes of a `uint16` exchanged. -/
def htons16 (v : Nat) : Nat := u16 ((u16 v >>> 8) ||| (u16 v <<< 8))

/-- The digits of Go `strconv.Atoi`: the value of a string of decimal digits,
`none` when a character is not a digit. -/
def atoiDigits : List Nat → Nat → Option Nat
  | [], acc => some acc
  | c :: cs, acc => if 48 ≤ c ∧ c ≤ 57 then atoiDigits cs (acc * 10 + (c - 48)) else none

/-- Go `strconv.Atoi` (standard library): an optional sign followed by one or
more decimal digits, the value within the range of `int`; `none` is an
error. -/
def Atoi (s : List Nat) : Option Int :=
  let neg := s.head? = some 45
  let body := if s.head? = some 45 ∨ s.head? = some 43 then s.drop 1 else s
  if body = [] then none
  else
    match atoiDigits body 0 with
    | none => none
    | some n =>
      if neg then (if n ≤ 2 ^ 63 then some (-(n : Int)) else none)
      else (if n < 2 ^ 63 then some (n : Int) else none)

/-- Go `strings.TrimSuffix(s, ".")`. -/
def trimSuffixDot (s : List Nat) : List Nat :=
  if s.getLast? = some 46 then s.dropLast else s

/-- CSockaddrIn. -/
structure CSockaddrIn where
  Family : Nat
  Port : Nat
  Addr : List Nat
  Zero : List Nat
deriving DecidableEq

/-- CSockaddrIn6. -/
structure CSockaddrIn6 where
  Family : Nat
  Port : Nat
  Flowinfo : Nat
  Addr : List Nat
  ScopeID : Nat
deriving DecidableEq

/-- A pointer into one of the two companion arrays of an allocation:
`&alloc.addrs4[i]` or `&alloc.addrs6[i]`. -/
inductive AddrPtr where
  | in4 (i : Nat)
  | in6 (i : Nat)
deriving DecidableEq

/-- CAddrInfo.  `Flags` is the bit pattern of the `int32` field; `Canonname`
is the buffer the pointer designates; `Next` is the index in `alloc.nodes` of
the node pointed at. -/
structure CAddrInfo where
  Flags : Nat
  Family : Int
  Socktype : Int
  Protocol : Int
  Addrlen : Nat
  Canonname : Option (List Nat)
  Addr : Option AddrPtr
  Next : Option Nat
deriving DecidableEq

/-- The arrays of addrInfoAlloc that a result chain lives in. -/
structure addrInfoAlloc where
  nodes : List CAddrInfo
  addrs4 : List CSockaddrIn
  addrs6 : List CSockaddrIn6
deriving DecidableEq

/-- Outcomes of the library and transport calls of one GoGetaddrinfo call:
`lookupPort proto svc` stands for `net.LookupPort`, `stackOk` tells whether
GetStack succeeds and `lookupHost name` stands for `LookupContextHost`. -/
structure ResolveEnv where
  lookupPort : List Nat → List Nat → Option Int
  stackOk : Bool
  lookupHost : List Nat → Option (List (List Nat))

/-- The hints GoGetaddrinfo reads: (hFlags, hFamily, hSocktype, hProtocol),
all zero for a nil pointer. -/
def hintFields (hints : Option CAddrInfo) : Nat × Int × Int × Int :=
  match hints with
  | some h => (h.Flags, h.Family, h.Socktype, h.Protocol)
  | none => (0, 0, 0, 0)

/-- The service step of GoGetaddrinfo: the port, or the error code
returned. -/
def servicePort (service : Option (List Nat)) (hFlags : Nat) (hSocktype : Int)
    (env : ResolveEnv) : Except Int Int :=
  match service with
  | none => Except.ok 0
  | some _ =>
    let svc := goStringFromPtr service
    match Atoi svc with
    | some p => Except.ok p
    | none =>
      if hFlags &&& AI_NUMERICSERV ≠ 0 then Except.error EAI_SERVICE
      else
        match env.lookupPort (if hSocktype = SOCK_DGRAM then goBytes "udp" else goBytes "tcp")
            svc with
        | none => Except.error EAI_SERVICE
        | some p => Except.ok p

/-- The addresses of GoGetaddrinfo before the family filter, or the error
code returned. -/
def resolveNode (node : Option (List Nat)) (hFlags : Nat) (hFamily : Int) (env : ResolveEnv) :
    Except Int (List (List Nat)) :=
  match node with
  | none =>
    if hFlags &&& AI_PASSIVE ≠ 0 then
      Except.ok ((if hFamily = 0 ∨ hFamily = AF_INET then [IPv4 0 0 0 0] else []) ++
        (if hFamily = 0 ∨ hFamily = AF_INET6 then [List.replicate 16 0] else []))
    else
      Except.ok ((if hFamily = 0 ∨ hFamily = AF_INET then [IPv4 127 0 0 1] else []) ++
        (if hFamily = 0 ∨ hFamily = AF_INET6 then [List.replicate 15 0 ++ [1]] else []))
  | some _ =>
    let nodeName := goStringFromPtr node
    match ParseIP nodeName with
    | some ip => Except.ok [ip]
    | none =>
      if hFlags &&& AI_NUMERICHOST ≠ 0 then Except.error EAI_NONAME
      else if ¬ env.stackOk then Except.error EAI_AGAIN
      else
        match env.lookupHost nodeName with
        | none => Except.error EAI_NONAME
        | some resolved => Except.ok (resolved.filterMap ParseIP)

/-- The family filter of GoGetaddrinfo. -/
def filterFamily (hFamily : Int) (ips : List (List Nat)) : List (List Nat) :=
  if hFamily ≠ 0 then
    ips.filter (fun ip =>
      (hFamily = AF_INET ∧ (IPTo4 ip).isSome) ∨ (hFamily = AF_INET6 ∧ (IPTo4 ip).isNone))
  else ips

/-- The addresses GoGetaddrinfo builds nodes for, or the error code
returned. -/
def resolveIPs (node : Option (List Nat)) (hFlags : Nat) (hFamily : Int) (env : ResolveEnv) :
    Except Int (List (List Nat)) :=
  match resolveNode node hFlags hFamily env with
  | Except.error e => Except.error e
  | Except.ok ips =>
    if (filterFamily hFamily ips).length = 0 then Except.error EAI_NONAME
    else Except.ok (filterFamily hFamily ips)

/-- The (socktype, protocol) pairs of GoGetaddrinfo. -/
def hintPairs (hSocktype hProtocol : Int) : List (Int × Int) :=
  if hSocktype ≠ 0 then
    [(hSocktype,
      if hProtocol = 0 then
        (if hSocktype = SOCK_STREAM then (IPPROTO_TCP : Int)
         else if hSocktype = SOCK_DGRAM then IPPROTO_UDP else hProtocol)
      else hProtocol)]
  else [(SOCK_STREAM, (IPPROTO_TCP : Int)), (SOCK_DGRAM, IPPROTO_UDP)]

/-- One pass of the inner loop of GoGetaddrinfo.  The source allocates the
three arrays at their final sizes and fills them front to back with the
counters `idx`, `i4` and `i6`; here the arrays grow, the counters being their
lengths. -/
def addNode (hFlags netPort totalNodes : Nat) (ip : List Nat) (alloc : addrInfoAlloc)
    (pair : Int × Int) : addrInfoAlloc :=
  let next := if alloc.nodes.length + 1 < totalNodes then some (alloc.nodes.length + 1) else none
  match IPTo4 ip with
  | some ip4 =>
    { alloc with
      nodes := alloc.nodes ++
        [{ Flags := hFlags, Family := AF_INET, Socktype := pair.1, Protocol := pair.2,
           Addrlen := 16, Canonname := none, Addr := some (AddrPtr.in4 alloc.addrs4.length),
           Next := next }],
      addrs4 := alloc.addrs4 ++
        [{ Family := 2, Port := netPort, Addr := goCopy [0, 0, 0, 0] ip4,
           Zero := List.replicate 8 0 }] }
  | none =>
    { alloc with
      nodes := alloc.nodes ++
        [{ Flags := hFlags, Family := AF_INET6, Socktype := pair.1, Protocol := pair.2,
           Addrlen := 28, Canonname := none, Addr := some (AddrPtr.in6 alloc.addrs6.length),
           Next := next }],
      addrs6 := alloc.addrs6 ++
        [{ Family := 23, Port := netPort, Flowinfo := 0,
           Addr := goCopy (List.replicate 16 0) ((IPTo16 ip).getD []), ScopeID := 0 }] }

/-- The two nested loops of GoGetaddrinfo. -/
def buildChain (hFlags netPort : Nat) (ips : List (List Nat)) (pairs : List (Int × Int)) :
    addrInfoAlloc :=
  ips.foldl (fun alloc ip => pairs.foldl (addNode hFlags netPort (ips.length * pairs.length) ip)
    alloc) { nodes := [], addrs4 := [], addrs6 := [] }

/-- The AI_CANONNAME step: the canonical name goes on the first node. -/
def setCanonname (alloc : addrInfoAlloc) (node : Option (List Nat)) (hFlags : Nat) :
    addrInfoAlloc :=
  if hFlags &&& AI_CANONNAME ≠ 0 ∧ node.isSome then
    match alloc.nodes with
    | first :: rest =>
      { alloc with
        nodes := { first with Canonname := some (trimSuffixDot (goStringFromPtr node) ++ [0]) }
          :: rest }
    | [] => alloc
  else alloc

/-- GoGetaddrinfo: the value returned and the cell `*res` afterwards.  `res`
is `none` for a nil pointer and otherwise holds what `*res` held; a non-nil
`*res` is the pointer to node 0 of the allocation given.  The bookkeeping of
`aiAllocs`, which keeps the allocation alive until GoFreeaddrinfo, is left
out. -/
def GoGetaddrinfo (node service : Option (List Nat)) (hints : Option CAddrInfo)
    (res : Option (Option addrInfoAlloc)) (env : ResolveEnv) :
    Int × Option (Option addrInfoAlloc) :=
  match res with
  | none => (EAI_FAIL, none)
  | some _ =>
    let h := hintFields hints
    match servicePort service h.1 h.2.2.1 env with
    | Except.error e => (e, some none)
    | Except.ok port =>
      match resolveIPs node h.1 h.2.1 env with
      | Except.error e => (e, some none)
      | Except.ok ips =>
        (0, some (some (setCanonname
          (buildChain h.1 (htons16 (port % 65536).toNat) ips (hintPairs h.2.2.1 h.2.2.2))
          node h.1)))

/-! ## getnameinfo (name_res.go) -/

def NI_NUMERICHOST : Nat := 0x02
def NI_NAMEREQD : Nat := 0x04
def NI_NUMERICSERV : Nat := 0x08
def NI_DGRAM : Nat := 0x10

/-- The memory at `sa` as GoGetnameinfo reads it: the `uint16` at offset 0,
the `uint16` at offset 2 (the Port field of both layouts), the four bytes at
offset 4 (CSockaddrIn.Addr) and the sixteen bytes at offset 8
(CSockaddrIn6.Addr). -/
structure NameinfoSockaddr where
  family : Nat
  port : Nat
  addr4 : List Nat
  addr6 : List Nat
deriving DecidableEq

/-- The three statements that fill a text buffer of `len` bytes at `buf`:
`out := unsafe.Slice(buf, len); copy(out, s); out[len(s)] = 0`. -/
def writeCString (buf : List Nat) (len : Nat) (s : List Nat) : List Nat :=
  goStore (goCopy (buf.take len) s) s.length 0 ++ buf.drop len

/-- The host part of GoGetnameinfo: the memory at `host` afterwards, or the
error code returned.  `lookupPTR ip` is the outcome of the reverse lookup: the
name, or `none` for an error. -/
def nameinfoHost (ip : List Nat) (host : Option (List Nat)) (hostlen flags : Nat)
    (lookupPTR : List Nat → Option (List Nat)) : Except Int (Option (List Nat)) :=
  match host with
  | none => Except.ok host
  | some buf =>
    if hostlen = 0 then Except.ok host
    else
      let hostStr : Option (List Nat) :=
        if flags &&& NI_NUMERICHOST ≠ 0 then some (IPString ip)
        else
          match lookupPTR ip with
          | some ptr =>
            if ptr ≠ [] then some ptr
            else if flags &&& NI_NAMEREQD = 0 then some (IPString ip) else none
          | none => if flags &&& NI_NAMEREQD = 0 then some (IPString ip) else none
      match hostStr with
      | none => Except.error EAI_NONAME
      | some s =>
        if u32 (s.length + 1) > hostlen then Except.error EAI_MEMORY
        else Except.ok (some (writeCString buf hostlen s))

/-- The text GoGetnameinfo writes for the port. -/
def nameinfoServText (port flags : Nat) : List Nat :=
  if flags &&& NI_NUMERICSERV ≠ 0 then itoa port
  else
    match servTable.find? (fun e =>
        e.Port = port ∧
        stringsToLower e.Proto = (if flags &&& NI_DGRAM ≠ 0 then goBytes "udp" else goBytes "tcp")) with
    | some e => e.Name
    | none => itoa port

/-- The service part of GoGetnameinfo: the memory at `serv` afterwards, or the
error code returned. -/
def nameinfoServ (port : Nat) (serv : Option (List Nat)) (servlen flags : Nat) :
    Except Int (Option (List Nat)) :=
  match serv with
  | none => Except.ok serv
  | some buf =>
    if servlen = 0 then Except.ok serv
    else if u32 ((nameinfoServText port flags).length + 1) > servlen then Except.error EAI_MEMORY
    else Except.ok (some (writeCString buf servlen (nameinfoServText port flags)))

/-- The two parts of GoGetnameinfo for the address `ip` and the port
`port`. -/
def nameinfoFill (ip : List Nat) (port : Nat) (host : Option (List Nat)) (hostlen : Nat)
    (serv : Option (List Nat)) (servlen flags : Nat)
    (lookupPTR : List Nat → Option (List Nat)) : Int × Option (List Nat) × Option (List Nat) :=
  match nameinfoHost ip host hostlen flags lookupPTR with
  | Except.error e => (e, host, serv)
  | Except.ok host1 =>
    match nameinfoServ port serv servlen flags with
    | Except.error e => (e, host1, serv)
    | Except.ok serv1 => (0, host1, serv1)

/-- GoGetnameinfo: the value returned and the memory at `host` and at `serv`
afterwards.  `flags` is the bit pattern of the `int32` argument; `salen` is not
used by the function. -/
def GoGetnameinfo (sa : Option NameinfoSockaddr) (host : Option (List Nat)) (hostlen : Nat)
    (serv : Option (List Nat)) (servlen flags : Nat)
    (lookupPTR : List Nat → Option (List Nat)) : Int × Option (List Nat) × Option (List Nat) :=
  match sa with
  | none => (EAI_FAIL, host, serv)
  | some a =>
    if a.family = 2 then
      nameinfoFill
        (IPv4 (a.addr4.getD 0 0) (a.addr4.getD 1 0) (a.addr4.getD 2 0) (a.addr4.getD 3 0))
        (htons16 a.port) host hostlen serv servlen flags lookupPTR
    else if a.family = 23 then
      nameinfoFill (goCopy (List.replicate 16 0) a.addr6) (htons16 a.port) host hostlen serv
        servlen flags lookupPTR
    else (EAI_FAIL, host, serv)

/-! ## Scenarios and specification-side definitions -/

/-- A socket address 10.0.0.1:80. -/
def sampleAddr : SockAddrIn :=
  { family := 2, port0 := 0, port1 := 80, a0 := 10, a1 := 0, a2 := 0, a3 := 1 }

/-- A transport on which dialling succeeds with a stream connection. -/
def dialOkEnv : ConnectEnv :=
  { stackOk := true, resolveUDPOk := true, splitHostPortOk := true, parseAddrOk := true,
    dial := Except.ok { id := 1, isTCPConn := true, isUDPConn := false, hasWq := true,
                        hasEp := true },
    ready := 0 }

/-- The state after `socket(AF_INET, SOCK_STREAM, IPPROTO_TCP)` followed by
`setsockopt(s, SOL_SOCKET, SO_RCVTIMEO, 5000)` (bytes 88 13 00 00). -/
def worldRcvTimeoSet : World :=
  (GoSetsockopt (GoSocket (World.init true) 2 1 6).2 1001 SOL_SOCKET SO_RCVTIMEO
    (some [0x88, 0x13, 0, 0]) 4).2

/-- Socket 1001 connected over a stream connection, and event object 1002. -/
def worldConnectedWithEvent : World :=
  (GoWSACreateEvent
    (GoConnect (GoSocket (World.init true) 2 1 6).2 1001 (some sampleAddr) 16 dialOkEnv).2).2

/-- The state after `WSAEventSelect(1001, 1002, FD_READ)` on a writable, not
yet readable endpoint. -/
def worldSelectRead : World :=
  (GoWSAEventSelect worldConnectedWithEvent 1001 1002 FD_READ EventOut).2

/-- The fired-event bits a readiness mask translates to: EventIn gives
FD_READ, or FD_ACCEPT on a listener; EventOut gives FD_WRITE; EventErr or
EventHUp give FD_CLOSE. -/
def translatedBits (listener : Bool) (mask : Nat) : Nat :=
  (if mask &&& EventIn ≠ 0 then (if listener then FD_ACCEPT else FD_READ) else 0) |||
  (if mask &&& EventOut ≠ 0 then FD_WRITE else 0) |||
  (if mask &&& EventErr ≠ 0 ∨ mask &&& EventHUp ≠ 0 then FD_CLOSE else 0)

/-- The readiness mask of the notification GoWSAEventSelect delivers itself,
if it delivers one. -/
def eventSelectInitial (st : SocketState) (hEventObject lNetworkEvents ready : Nat) :
    Option Nat :=
  if lNetworkEvents ≠ 0 ∧ hEventObject ≠ 0 ∧ st.WaiterQueue ∧ waiterMaskOf lNetworkEvents ≠ 0 then
    if st.Endpoint then
      (if ready &&& waiterMaskOf lNetworkEvents ≠ 0 then some (ready &&& waiterMaskOf lNetworkEvents)
       else none)
    else if st.Listener.isSome then some EventIn
    else none
  else none

/-- One event object, handle 1001, in the signalled state. -/
def worldSignalled : World :=
  (GoWSASetEvent (GoWSACreateEvent (World.init true)).2 1001).2

/-- The operations that change the registry: the two socket calls of
sock_mgmt.go and the state-changing methods of socketRegistry (`register` is
Register on an arbitrary state, as GoAccept uses it; `purgeAll` is PurgeAll,
which the last WSACleanup runs). -/
inductive RegOp where
  | socket (af typ protocol : Int)
  | register (st : SocketState)
  | closesocket (s : Nat)
  | createEvent
  | closeEvent (hEvent : Nat)
  | purgeAll
  | setLastError (handle : Nat) (errCode : Int)
  | setOverlapped (key : Nat) (result : OverlappedResult)
  | getOverlapped (key : Nat)
deriving DecidableEq

/-- The state after one registry operation. -/
def RegOp.run (w : World) : RegOp → World
  | RegOp.socket af typ protocol => (GoSocket w af typ protocol).2
  | RegOp.register st => { w with registry := (w.registry.Register st).2 }
  | RegOp.closesocket s => (GoClosesocket w s).2
  | RegOp.createEvent => (GoWSACreateEvent w).2
  | RegOp.closeEvent hEvent => (GoWSACloseEvent w hEvent).2
  | RegOp.purgeAll =>
    { w with registry := w.registry.PurgeAll.1, trace := w.trace ++ w.registry.PurgeAll.2 }
  | RegOp.setLastError handle errCode =>
    { w with registry := w.registry.SetLastError handle errCode }
  | RegOp.setOverlapped key result =>
    { w with registry := w.registry.SetOverlappedResult key result }
  | RegOp.getOverlapped key => { w with registry := (w.registry.GetOverlappedResult key).2 }

/-- The state after a sequence of registry operations. -/
def runOps (w : World) (ops : List RegOp) : World := ops.foldl RegOp.run w

/-- The handle an operation returns, for the operations that issue one. -/
def RegOp.issues (w : World) : RegOp → Option Nat
  | RegOp.socket af typ protocol => some (GoSocket w af typ protocol).1
  | RegOp.register st => some (w.registry.Register st).1
  | RegOp.createEvent => some (GoWSACreateEvent w).1
  | _ => none

/-- The handles issued during a sequence of operations, in order of issue. -/
def issuedHandles (w : World) : List RegOp → List Nat
  | [] => []
  | op :: ops =>
    (match op.issues w with
     | some h => [h]
     | none => []) ++ issuedHandles (op.run w) ops

/-- The socket kind GoSocket derives from the `type` argument: 2 is
SOCK_DGRAM, 3 is SOCK_RAW, anything else is treated as a stream. -/
def sockTypeOf (typ : Int) : SocketType :=
  if typ = 2 then SocketType.TypeUDP else if typ = 3 then SocketType.TypeRaw
  else SocketType.TypeTCP

/-- The creation-time attributes of a socket state. -/
def createdAs (st : SocketState) (af typ protocol : Int) : Prop :=
  st.AddressFamily = af ∧ st.Protocol = protocol ∧ st.Type_ = sockTypeOf typ

/-- The static buffers have the sizes of their array types. -/
def ServStatics.wellSized (st : ServStatics) : Prop :=
  st.staticServName.length = 64 ∧ st.staticServAlias.length = 64 ∧
  st.staticServProto.length = 16

/-- The table entry for https. -/
def httpsEntry : servEntry := ⟨goBytes "https", [], 443, goBytes "tcp"⟩

/-- The message fragments of the claim's reference definition, each with its
code, in the order mapError tests them. -/
def listedFragments : List (List Nat × Int) :=
  [(goBytes "connection refused", 10061), (goBytes "connection reset", 10054),
   (goBytes "no route to host", 10065), (goBytes "network is unreachable", 10065),
   (goBytes "address already in use", 10048), (goBytes "address not available", 10049),
   (goBytes "message too long", 10040), (goBytes "broken pipe", 10054),
   (goBytes "protocol not supported", 10043), (goBytes "operation not supported", 10045),
   (goBytes "i/o timeout", 10060), (goBytes "would block", 10035)]

/-- The fragments of the reference definition together with
"host is unreachable", which mapError tests as well, in the order of the
tests. -/
def testedFragments : List (List Nat × Int) :=
  [(goBytes "connection refused", 10061), (goBytes "connection reset", 10054),
   (goBytes "host is unreachable", 10065),
   (goBytes "no route to host", 10065), (goBytes "network is unreachable", 10065),
   (goBytes "address already in use", 10048), (goBytes "address not available", 10049),
   (goBytes "message too long", 10040), (goBytes "broken pipe", 10054),
   (goBytes "protocol not supported", 10043), (goBytes "operation not supported", 10045),
   (goBytes "i/o timeout", 10060), (goBytes "would block", 10035)]

/-- An error without the timeout trait that is not the closed-connection
sentinel, with the message "dial: host is unreachable (would block)". -/
def unreachableWouldBlock : GoError :=
  { isNetError := false, timeout := false, isErrClosed := false,
    msg := goBytes "dial: host is unreachable (would block)" }

/-- The big-endian 16-bit words of a byte string. -/
def beWords : List Nat → List Nat
  | a :: b :: rest => (a * 256 + b) :: beWords rest
  | _ => []

/-- One's-complement addition of 16-bit words: the carry out of bit 15 is
added back in at bit 0 (end-around carry). -/
def onesAdd (a b : Nat) : Nat := (a + b) % 65536 + (a + b) / 65536

/-- The one's-complement sum of a list of 16-bit words. -/
def onesSum (ws : List Nat) : Nat := ws.foldl onesAdd 0

/-- The bytes of an address are bytes. -/
def NetipAddr.wellFormed (addr : NetipAddr) : Prop :=
  match addr with
  | NetipAddr.ip4 a b c d => a < 256 ∧ b < 256 ∧ c < 256 ∧ d < 256
  | _ => True

/-- The concatenation of the buffers of a WSABUF array, each taken to its Len,
in array order. -/
def contents (bufs : List wsaBuf) : List Nat := bufs.flatMap (fun b => b.Buf.take b.Len)

/-- The sum of the Len fields of a WSABUF array. -/
def sumLen (bufs : List wsaBuf) : Nat := (bufs.map (fun b => b.Len)).sum

/-- A valid WSABUF: the memory at Buf holds at least Len bytes. -/
def wsaBuf.valid (b : wsaBuf) : Prop := b.Len ≤ b.Buf.length

instance (b : wsaBuf) : Decidable b.valid := by
  unfold wsaBuf.valid
  infer_instance

/-- A buffer of 2 GiB. -/
def twoGiB : wsaBuf := { Len := 2147483648, Buf := List.replicate 2147483648 0 }

/-- An endpoint whose Write accepts all bytes offered. -/
def writeAll (data : List Nat) : Nat × Option GoError := (data.length, none)

/-- Four GiB of received data. -/
def fourGiBData : List Nat := List.replicate 4294967296 1

/-- An endpoint that delivers "hello" to any read. -/
def readHello (_ : Nat) : List Nat × Option GoError := (goBytes "hello", none)

/-- The state in which the overlapped operation keyed 4096 has completed with
5 bytes, flags 0 and no error. -/
def worldOverlappedDone : World :=
  { World.init true with
    registry := registry0.SetOverlappedResult 4096 ⟨5, 0, true, 0⟩ }

/-- The state after a sequence of GoWSAStartup calls, one per entry of `args`
(version requested, WSADATA pointer, outcome of the stack initialisation). -/
def startups (L : Lifecycle) (args : List (Nat × Option wsaData × Bool)) : Lifecycle :=
  args.foldl (fun L a => (GoWSAStartup L a.1 a.2.1 a.2.2).2.1) L

/-- The state after `k` GoWSACleanup calls. -/
def cleanups (L : Lifecycle) : Nat → Lifecycle
  | 0 => L
  | k + 1 => (GoWSACleanup (cleanups L k)).2

/-- The handles of a set that are registered and pass the readiness check,
in their order in the set. -/
def readyHandles (w : World) (check : SocketState → Nat → Bool) (ready : Nat → Nat)
    (fs : fd_set) : List Nat :=
  (fs.Array.take fs.Count).filter (fun h =>
    match w.registry.Get h with
    | some st => check st (ready h)
    | none => false)

/-- The handles a set holds: the first Count entries of its Array. -/
def fd_set.handles (fs : fd_set) : List Nat := fs.Array.take fs.Count

/-- Read-ready, stated on the socket record and the readiness set of its
endpoint without the probe of the code: a socket with a transport endpoint is
read-ready when the endpoint is readable, in error or hung up (in/err/hup); a
socket without one is read-ready when it is a listener. -/
def readReady (st : SocketState) (ready : Nat) : Bool :=
  if st.Endpoint then
    decide (ready &&& EventIn ≠ 0) || decide (ready &&& EventErr ≠ 0)
      || decide (ready &&& EventHUp ≠ 0)
  else st.Listener.isSome

/-- Write-ready: a socket with a transport endpoint is write-ready when the
endpoint is writable, in error or hung up (out/err/hup); a socket without one
is write-ready when it has a connection. -/
def writeReady (st : SocketState) (ready : Nat) : Bool :=
  if st.Endpoint then
    decide (ready &&& EventOut ≠ 0) || decide (ready &&& EventErr ≠ 0)
      || decide (ready &&& EventHUp ≠ 0)
  else st.Conn.isSome

/-- Handle `h` is registered and read-ready; `ready h` is the readiness set
of its endpoint. -/
def selectReadReady (w : World) (ready : Nat → Nat) (h : Nat) : Bool :=
  match w.registry.Get h with
  | some st => readReady st (ready h)
  | none => false

/-- Handle `h` is registered and write-ready. -/
def selectWriteReady (w : World) (ready : Nat → Nat) (h : Nat) : Bool :=
  match w.registry.Get h with
  | some st => writeReady st (ready h)
  | none => false

/-- The handles of a set passed to select; a nil set holds none. -/
def setHandles (fds : Option fd_set) : List Nat :=
  match fds with
  | some fs => fs.handles
  | none => []

/-- The Count of a set passed to select; 0 for a nil set. -/
def setCount (fds : Option fd_set) : Nat :=
  match fds with
  | some fs => fs.Count
  | none => 0

/-- The registered, read-ready handles of a set, in their order in the set. -/
def readReadyHandles (w : World) (ready : Nat → Nat) (fds : Option fd_set) : List Nat :=
  (setHandles fds).filter (selectReadReady w ready)

/-- The registered, write-ready handles of a set, in their order in the set. -/
def writeReadyHandles (w : World) (ready : Nat → Nat) (fds : Option fd_set) : List Nat :=
  (setHandles fds).filter (selectWriteReady w ready)

/-- A read set holding the connected socket 1001 and the unknown handle 555. -/
def sampleReadSet : fd_set := { Count := 2, Array := [1001, 555] ++ List.replicate 62 0 }

/-- A write set holding the connected socket 1001. -/
def sampleWriteSet : fd_set := { Count := 1, Array := [1001] ++ List.replicate 63 0 }

/-- Every endpoint writable and not readable. -/
def readyWritable (_ : Nat) : Nat := EventOut

/-- Every endpoint readable and not writable. -/
def readyReadable (_ : Nat) : Nat := EventIn

/-- A stream endpoint as a connection: its state is the list of bytes not yet
read; a Read hands over the next bytes, at most `k` of them and no more than
the buffer holds, together with the error `err`. -/
def streamConn (k : Nat) (err : Option GoError) : RecvConn (List Nat) :=
  { hasRemote := true, pingAddr := none,
    read := fun stream cap => (stream.take (min k cap), err, stream.drop (min k cap)) }

/-- One call of GoRecv in an interleaving: the caller's buffer (its length is
the `len` argument), the flags, and what the endpoint does if it is read. -/
structure RecvCall where
  buf : List Nat
  flags : Nat
  k : Nat
  err : Option GoError

/-- Whether a call has MSG_PEEK set. -/
def RecvCall.peek (c : RecvCall) : Bool := decide (c.flags &&& MSG_PEEK ≠ 0)

/-- The package state together with the unread bytes of the endpoint. -/
structure RecvState where
  w : World
  stream : List Nat

/-- What the caller of GoRecv sees: whether it peeked, the length of its
buffer, the value returned, and the bytes returned (the first `n` bytes of the
buffer; none when the call fails). -/
structure RecvResult where
  peek : Bool
  len : Nat
  n : Int
  bytes : List Nat

/-- One GoRecv on socket `s` over the stream endpoint. -/
def recvCall (s : Nat) (S : RecvState) (c : RecvCall) : RecvState × RecvResult :=
  match GoRecv S.w s (some c.buf) c.buf.length c.flags (streamConn c.k c.err) S.stream with
  | some r =>
    ({ w := r.2.1, stream := r.2.2.2 },
     { peek := c.peek, len := c.buf.length, n := r.1, bytes := (r.2.2.1.getD []).take r.1.toNat })
  | none => (S, { peek := c.peek, len := c.buf.length, n := -1, bytes := [] })

/-- A sequence of GoRecv calls on socket `s`: the final state and the results
in order. -/
def recvRun (s : Nat) (S : RecvState) : List RecvCall → RecvState × List RecvResult
  | [] => (S, [])
  | c :: cs => ((recvRun s (recvCall s S c).1 cs).1, (recvCall s S c).2 :: (recvRun s (recvCall s S c).1 cs).2)

/-- The concatenation of the results of the non-peek calls. -/
def delivered (rs : List RecvResult) : List Nat :=
  (rs.filter (fun r => ! r.peek)).flatMap (fun r => r.bytes)

/-- The peek buffer of socket `s`. -/
def peekBufOf (w : World) (s : Nat) : List Nat :=
  match w.registry.Get s with
  | some st => st.PeekBuf
  | none => []

/-- Socket `s` is a connected stream socket. -/
def StreamSocket (w : World) (s : Nat) : Prop :=
  ∃ st, w.registry.Get s = some st ∧ st.Conn.isSome = true ∧ st.Type_ = SocketType.TypeTCP

/-- One startup, then socket 1001 and event object 1002 are created. -/
def lifecycleSocketAndEvent : Lifecycle :=
  { (GoWSAStartup (Lifecycle.init true) 0x0202 none true).2.1 with
    world := (GoWSACreateEvent (GoSocket (World.init true) 2 1 6).2).2 }

/-- A transport that is not available: GetStack fails. -/
def bindEnvNoStack : BindEnv :=
  { stackOk := false, resolveUDPOk := true, splitHostPortOk := true, parseAddrOk := true,
    listen := Except.ok { id := 2, isTCPConn := false, isUDPConn := true, hasWq := true,
                          hasEp := true },
    ready := 0 }

/-- A transport on which every step of a bind succeeds. -/
def bindEnvOk : BindEnv :=
  { stackOk := true, resolveUDPOk := true, splitHostPortOk := true, parseAddrOk := true,
    listen := Except.ok { id := 2, isTCPConn := false, isUDPConn := true, hasWq := true,
                          hasEp := true },
    ready := 0 }

/-- The state after `socket(AF_INET, SOCK_DGRAM, IPPROTO_UDP)`: socket 1001. -/
def worldDatagramSocket : World := (GoSocket (World.init true) 2 2 17).2

/-- A sockaddr of family AF_INET6 (23). -/
def sampleAddr6 : SockAddrIn :=
  { family := 23, port0 := 0, port1 := 80, a0 := 0, a1 := 0, a2 := 0, a3 := 0 }

/-- The state after `n` calls of GoWSASetEvent on `hEvent`. -/
def setEventTimes (w : World) (hEvent : Nat) : Nat → World
  | 0 => w
  | n + 1 => (GoWSASetEvent (setEventTimes w hEvent n) hEvent).2

/-- A WSABUF array of one buffer of length 0. -/
def oneEmptyBuffer : List wsaBuf := [{ Len := 0, Buf := [] }]

/-- A WSAMSG that names an address and carries one buffer of length 0. -/
def msgEmptyBuffer : wsaMsg :=
  { Name := some (List.replicate 16 0), Namelen := 16, Buffers := some oneEmptyBuffer,
    BufferCnt := 1, Control := { Len := 0, Buf := [] }, Flags := 0 }

/-- The bytes a caller reads through entry `i` of the address list of the
static hostent: `Length` bytes from the address the entry points at. -/
def hostentAddr (hs : HostStatics) (i : Nat) : Option (List Nat) :=
  match hs.staticHostAddrPtrs.getD i none with
  | some row => some ((hs.staticHostAddrs.drop (4 * row)).take hs.Length.toNat)
  | none => none

/-- The address 2001:db8::1. -/
def sampleV6Bytes : List Nat := [0x20, 0x01, 0x0d, 0xb8, 0, 0, 0, 0, 0, 0, 0, 0, 0, 0, 0, 1]

/-- A reverse lookup that finds the name "host.example". -/
def ptrFound (_ : List Nat) : Option (List Nat) := some (goBytes "host.example")

/-- The (address, pair) combinations a result chain has a node for, in chain
order: for each address in turn, each pair in turn. -/
def chainEntries (ips : List (List Nat)) (pairs : List (Int × Int)) :
    List (List Nat × (Int × Int)) :=
  ips.flatMap (fun ip => pairs.map (fun p => (ip, p)))

/-- The sockaddr_in a node's address pointer designates, if it points into
`addrs4`. -/
def sockaddr4Of (alloc : addrInfoAlloc) (nd : CAddrInfo) : Option CSockaddrIn :=
  match nd.Addr with
  | some (AddrPtr.in4 i) => alloc.addrs4[i]?
  | _ => none

/-- The sockaddr_in6 a node's address pointer designates, if it points into
`addrs6`. -/
def sockaddr6Of (alloc : addrInfoAlloc) (nd : CAddrInfo) : Option CSockaddrIn6 :=
  match nd.Addr with
  | some (AddrPtr.in6 i) => alloc.addrs6[i]?
  | _ => none

/-- What a caller reads at a node, the canonical name apart: flags, family,
socktype, protocol, addrlen, the index of the next node, and the sockaddr
behind the address pointer. -/
structure NodeView where
  Flags : Nat
  Family : Int
  Socktype : Int
  Protocol : Int
  Addrlen : Nat
  Next : Option Nat
  sa4 : Option CSockaddrIn
  sa6 : Option CSockaddrIn6
deriving DecidableEq

/-- The view of a node of an allocation. -/
def nodeView (alloc : addrInfoAlloc) (nd : CAddrInfo) : NodeView :=
  { Flags := nd.Flags, Family := nd.Family, Socktype := nd.Socktype, Protocol := nd.Protocol,
    Addrlen := nd.Addrlen, Next := nd.Next, sa4 := sockaddr4Of alloc nd,
    sa6 := sockaddr6Of alloc nd }

/-- The view node `j` of a chain of `total` nodes is to have for the address
`e.1` and the pair `e.2`. -/
def expectedView (hFlags netPort total j : Nat) (e : List Nat × (Int × Int)) : NodeView :=
  match IPTo4 e.1 with
  | some ip4 =>
    { Flags := hFlags, Family := 2, Socktype := e.2.1, Protocol := e.2.2, Addrlen := 16,
      Next := if j + 1 < total then some (j + 1) else none,
      sa4 := some { Family := 2, Port := netPort, Addr := ip4, Zero := List.replicate 8 0 },
      sa6 := none }
  | none =>
    { Flags := hFlags, Family := 23, Socktype := e.2.1, Protocol := e.2.2, Addrlen := 28,
      Next := if j + 1 < total then some (j + 1) else none,
      sa4 := none,
      sa6 := some { Family := 23, Port := netPort, Flowinfo := 0, Addr := e.1, ScopeID := 0 } }

/-- The expected views of the nodes from index `j` on. -/
def expectedViews (hFlags netPort total : Nat) : Nat → List (List Nat × (Int × Int)) →
    List NodeView
  | _, [] => []
  | j, e :: es => expectedView hFlags netPort total j e :: expectedViews hFlags netPort total (j + 1) es

/-- Every address pointer of the allocation points inside its array. -/
def allocWF (alloc : addrInfoAlloc) : Prop :=
  ∀ nd ∈ alloc.nodes,
    (∀ i, nd.Addr = some (AddrPtr.in4 i) → i < alloc.addrs4.length) ∧
    (∀ i, nd.Addr = some (AddrPtr.in6 i) → i < alloc.addrs6.length)

/-- What the claim says of node `j` of a chain of `len` nodes, built for the
address `ip` and the pair `pair`, the port field being `netPort`. -/
def NodeSpec (alloc : addrInfoAlloc) (netPort len j : Nat) (nd : CAddrInfo) (ip : List Nat)
    (pair : Int × Int) : Prop :=
  nd.Socktype = pair.1 ∧ nd.Protocol = pair.2 ∧
  nd.Next = (if j + 1 < len then some (j + 1) else none) ∧
  ((nd.Family = 2 ∧ nd.Addrlen = 16 ∧
      ∃ ip4, IPTo4 ip = some ip4 ∧
        sockaddr4Of alloc nd
          = some { Family := 2, Port := netPort, Addr := ip4, Zero := List.replicate 8 0 }) ∨
   (nd.Family = 23 ∧ nd.Addrlen = 28 ∧ IPTo4 ip = none ∧
      sockaddr6Of alloc nd
        = some { Family := 23, Port := netPort, Flowinfo := 0, Addr := ip, ScopeID := 0 }))

/-- The chain of an allocation has one node for each combination of an
address of `ips` and a pair of `pairs`, in order, each as NodeSpec says. -/
def ChainSpec (alloc : addrInfoAlloc) (netPort : Nat) (ips : List (List Nat))
    (pairs : List (Int × Int)) : Prop :=
  alloc.nodes.length = ips.length * pairs.length ∧
  ∀ j, j < alloc.nodes.length →
    ∃ nd ip pair, alloc.nodes[j]? = some nd ∧ (chainEntries ips pairs)[j]? = some (ip, pair) ∧
      NodeSpec alloc netPort alloc.nodes.length j nd ip pair

/-- An environment in which nothing can be looked up. -/
def resolveEnvNone : ResolveEnv :=
  { lookupPort := fun _ _ => none, stackOk := false, lookupHost := fun _ => none }

/-- Hints that carry AI_NUMERICSERV only. -/
def numericServHints : CAddrInfo :=
  { Flags := AI_NUMERICSERV, Family := 0, Socktype := 0, Protocol := 0, Addrlen := 0,
    Canonname := none, Addr := none, Next := none }

/-- The addresses the claim gives for a null node: the wildcard pair with
AI_PASSIVE and the loopback pair without, cut down to the IPv4 member for
family AF_INET and to the IPv6 member for AF_INET6. -/
def nullNodeAddrs (passive : Bool) (hFamily : Int) : List (List Nat) :=
  let both := if passive then [IPv4 0 0 0 0, List.replicate 16 0]
    else [IPv4 127 0 0 1, List.replicate 15 0 ++ [1]]
  if hFamily = AF_INET then both.take 1
  else if hFamily = AF_INET6 then both.drop 1
  else both

/-- A text with its terminator does not fit a requested buffer of `len`
bytes (a length of 0 requests nothing). -/
def tooSmall (len : Nat) (s : List Nat) : Prop := 0 < len ∧ len < s.length + 1

/-- A buffer of `len` bytes after the text `s` and its NUL have been written
at its start; untouched when `len` is 0. -/
def textIn (buf : List Nat) (len : Nat) (s : List Nat) : List Nat :=
  if len = 0 then buf else s ++ 0 :: buf.drop (s.length + 1)

/-- What the claim says of a GoGetnameinfo result `r` for the texts `hostStr`
and `svcStr`: EAI_MEMORY exactly when a requested text does not fit, and
otherwise 0 with both texts written. -/
def NameinfoSpec (r : Int × Option (List Nat) × Option (List Nat)) (hbuf : List Nat)
    (hostlen : Nat) (hostStr sbuf : List Nat) (servlen : Nat) (svcStr : List Nat) : Prop :=
  (r.1 = EAI_MEMORY ↔ tooSmall hostlen hostStr ∨ tooSmall servlen svcStr) ∧
  (¬ (tooSmall hostlen hostStr ∨ tooSmall servlen svcStr) →
    r = (0, some (textIn hbuf hostlen hostStr), some (textIn sbuf servlen svcStr)))

/-- The table scan of GoGetnameinfo for the port `p`: the first entry with
that port and the protocol the flags select, udp with NI_DGRAM and tcp
without. -/
def servFindByPort (p flags : Nat) : Option servEntry :=
  servTable.find? (fun e =>
    e.Port = p ∧
    stringsToLower e.Proto = (if flags &&& NI_DGRAM ≠ 0 then goBytes "udp" else goBytes "tcp"))

/-! # Verified properties -/

/-! ## Lemmas on maps -/

theorem mapGet_mapSet_same {α : Type} (m : List (Nat × α)) (k : Nat) (v : α) :
    mapGet (mapSet m k v) k = some v := by
  induction m with
  | nil => simp [mapSet, mapGet]
  | cons kv rest ih =>
    obtain ⟨k', v'⟩ := kv
    by_cases h : k' = k
    · simp [mapSet, mapGet, h]
    · simp [mapSet, mapGet, h, ih]

theorem mapGet_mapSet_ne {α : Type} (m : List (Nat × α)) (k k' : Nat) (v : α) (h : k ≠ k') :
    mapGet (mapSet m k v) k' = mapGet m k' := by
  induction m with
  | nil => simp [mapSet, mapGet, h]
  | cons kv rest ih =>
    obtain ⟨k0, v0⟩ := kv
    by_cases h0 : k0 = k
    · subst h0; simp [mapSet, mapGet, h]
    · by_cases h1 : k0 = k'
      · subst h1; simp [mapSet, mapGet, h0]
      · simp [mapSet, mapGet, h0, h1, ih]

theorem mapGet_mapDel_same {α : Type} (m : List (Nat × α)) (k : Nat) :
    mapGet (mapDel m k) k = none := by
  induction m with
  | nil => simp [mapDel, mapGet]
  | cons kv rest ih =>
    obtain ⟨k0, v0⟩ := kv
    by_cases h0 : k0 = k
    · simp [mapDel, h0, ih]
    · simp [mapDel, mapGet, h0, ih]

theorem mapGet_mapDel_ne {α : Type} (m : List (Nat × α)) (k k' : Nat) (h : k ≠ k') :
    mapGet (mapDel m k) k' = mapGet m k' := by
  induction m with
  | nil => simp [mapDel, mapGet]
  | cons kv rest ih =>
    obtain ⟨k0, v0⟩ := kv
    by_cases h0 : k0 = k
    · subst h0; simp [mapDel, mapGet, h, ih]
    · by_cases h1 : k0 = k'
      · subst h1; simp [mapDel, mapGet, h0]
      · simp [mapDel, mapGet, h0, h1, ih]

/-! ## C1: options re-applied on connect -/

/-- C1 (evaluation at the failing input): a stream socket stores
(SOL_SOCKET, SO_RCVTIMEO) -> 5000 ms and then connects successfully.  The
stored key unpacks to level 0xFFFFFFFF (that is -1) instead of SOL_SOCKET,
GoConnect returns 0 and makes no call on the new connection, whereas
applySockOpt with the stored level, name and value sets the read deadline. -/
theorem C1_connect_drops_sol_socket_option :
    (GoSocket (World.init true) 2 1 6).1 = 1001 ∧
    (worldRcvTimeoSet.registry.Get 1001).map (fun st => st.Options)
      = some [(OptKey SOL_SOCKET SO_RCVTIMEO, [0x88, 0x13, 0, 0])] ∧
    sar32 (OptKey SOL_SOCKET SO_RCVTIMEO) 16 = 0xFFFFFFFF ∧
    sar32 (OptKey SOL_SOCKET SO_RCVTIMEO) 16 ≠ SOL_SOCKET ∧
    OptKey SOL_SOCKET SO_RCVTIMEO &&& 0xFFFF = SO_RCVTIMEO ∧
    (GoConnect worldRcvTimeoSet 1001 (some sampleAddr) 16 dialOkEnv).1 = 0 ∧
    (GoConnect worldRcvTimeoSet 1001 (some sampleAddr) 16 dialOkEnv).2.trace = [] ∧
    ((GoConnect worldRcvTimeoSet 1001 (some sampleAddr) 16 dialOkEnv).2.registry.Get 1001).map
      (fun st => applySockOpt true st SOL_SOCKET SO_RCVTIMEO [0x88, 0x13, 0, 0])
      = some [Effect.SetReadDeadline 5000] := by
  decide

/-! ## C2: setsockopt / getsockopt round trip -/

theorem goCopy_zeros_take (v : List Nat) :
    goCopy (List.replicate v.length 0) (v.take v.length) = v := by
  simp [goCopy]

theorem goCopy_fits (out v : List Nat) (h : v.length ≤ out.length) :
    goCopy out v = v ++ out.drop v.length := by
  simp [goCopy, List.take_of_length_le h]

/-- C2: on a registered socket, for every option other than
(SOL_SOCKET, SO_ERROR) and (SOL_SOCKET, SO_TYPE) and every non-empty value
`v`, GoSetsockopt returns 0 and a following GoGetsockopt with `*optlen = n`,
`n >= len(v)`, into a buffer of at least `n` bytes returns 0, sets
`*optlen = len(v)` and writes exactly `v` at the start of the buffer, leaving
the rest of the buffer and the package state as they were. -/
theorem C2_setsockopt_getsockopt_roundtrip (w : World) (s level optname : Nat)
    (st : SocketState) (v out : List Nat) (n : Int)
    (hreg : w.registry.Get s = some st)
    (hopt : ¬ (level = SOL_SOCKET ∧ (optname = SO_ERROR ∨ optname = SO_TYPE)))
    (hv : v ≠ [])
    (hn : (v.length : Int) ≤ n)
    (hout : n ≤ (out.length : Int)) :
    (GoSetsockopt w s level optname (some v) v.length).1 = 0 ∧
    GoGetsockopt (GoSetsockopt w s level optname (some v) v.length).2 s level optname
        (some out) (some n)
      = some ⟨0, (GoSetsockopt w s level optname (some v) v.length).2,
              some (v ++ out.drop v.length), some (v.length : Int)⟩ := by
  have hlen : 0 < v.length := List.length_pos.mpr hv
  have hpos : ¬ ((v.length : Int) ≤ 0) := by omega
  have hvo : v.length ≤ out.length := by omega
  have h1 : ¬ (level = SOL_SOCKET ∧ optname = SO_ERROR) := fun h => hopt ⟨h.1, Or.inl h.2⟩
  have h2 : ¬ (level = SOL_SOCKET ∧ optname = SO_TYPE) := fun h => hopt ⟨h.1, Or.inr h.2⟩
  unfold socketRegistry.Get at hreg
  simp only [GoSetsockopt, socketRegistry.Get, hreg, hpos, if_false, Int.toNat_ofNat,
    goCopy_zeros_take]
  refine ⟨trivial, ?_⟩
  simp only [GoGetsockopt, socketRegistry.Get, mapGet_mapSet_same, h1, h2, if_false]
  by_cases hgt : n > (v.length : Int)
  · simp [hgt, goCopy_fits out v hvo]
  · have hnv : n = (v.length : Int) := by omega
    subst hnv
    simp [goCopy_fits out v hvo]

/-- C2 instance: TCP_NODELAY set to 1 on a fresh socket and read back into a
buffer of eight bytes. -/
theorem C2_setsockopt_getsockopt_roundtrip_witness :
    (GoSetsockopt (GoSocket (World.init true) 2 1 6).2 1001 IPPROTO_TCP TCP_NODELAY
        (some [1, 0, 0, 0]) ([1, 0, 0, 0] : List Nat).length).1 = 0 ∧
    GoGetsockopt (GoSetsockopt (GoSocket (World.init true) 2 1 6).2 1001 IPPROTO_TCP TCP_NODELAY
        (some [1, 0, 0, 0]) ([1, 0, 0, 0] : List Nat).length).2 1001 IPPROTO_TCP TCP_NODELAY
        (some [9, 9, 9, 9, 9, 9, 9, 9]) (some 8)
      = some ⟨0, (GoSetsockopt (GoSocket (World.init true) 2 1 6).2 1001 IPPROTO_TCP TCP_NODELAY
                (some [1, 0, 0, 0]) ([1, 0, 0, 0] : List Nat).length).2,
              some ([1, 0, 0, 0] ++ ([9, 9, 9, 9, 9, 9, 9, 9] : List Nat).drop
                ([1, 0, 0, 0] : List Nat).length),
              some (([1, 0, 0, 0] : List Nat).length : Int)⟩ :=
  C2_setsockopt_getsockopt_roundtrip (GoSocket (World.init true) 2 1 6).2 1001 IPPROTO_TCP
    TCP_NODELAY
    { Handle := 1001, Conn := none, Listener := none, Type_ := SocketType.TypeTCP,
      AddressFamily := 2, Protocol := 6, IsNonBlocking := false, LastErrorCode := 0,
      BoundAddr := [], Options := [], PeekBuf := [], EventHandle := 0, NetworkEvents := 0,
      FiredEvents := 0, WaiterQueue := false, WaiterEntry := none, Endpoint := false }
    [1, 0, 0, 0] [9, 9, 9, 9, 9, 9, 9, 9] 8
    (by decide) (by decide) (by decide) (by decide) (by decide)

/-! ## C3: fired events and the requested mask -/

/-- C3 (evaluation at the failing input): with the requested mask FD_READ,
one EventIn notification leaves FiredEvents = FD_READ, and a second one
leaves FiredEvents = FD_WRITE, a bit outside the mask, which
GoWSAEnumNetworkEvents then reports. -/
theorem C3_two_notifications_leave_mask :
    (worldSelectRead.registry.Get 1001).map (fun st => (st.NetworkEvents, st.FiredEvents))
      = some (FD_READ, 0) ∧
    ((deliverNotify worldSelectRead 1001 EventIn).registry.Get 1001).map
      (fun st => st.FiredEvents) = some FD_READ ∧
    ((deliverNotify (deliverNotify worldSelectRead 1001 EventIn) 1001 EventIn).registry.Get
      1001).map (fun st => st.FiredEvents) = some FD_WRITE ∧
    FD_WRITE &&& FD_READ = 0 ∧
    (GoWSAEnumNetworkEvents (deliverNotify (deliverNotify worldSelectRead 1001 EventIn) 1001
      EventIn) 1001 1002 (some ⟨0, List.replicate 10 0⟩)).2.2
      = some ⟨FD_WRITE, List.replicate 10 0⟩ := by
  decide

/-! ## C4: WSAEnumNetworkEvents after one notification -/

/-- C4 (evaluation at the failing input): socket 1001 selects FD_WRITE on a
writable endpoint, which records FD_WRITE, and then selects FD_READ: the
second GoWSAEventSelect replaces the mask and leaves FiredEvents as it was, so
the socket holds the fired bit FD_WRITE outside its mask FD_READ.  After the
single following EventIn notification, whose translated bits are b = FD_READ,
a subset of the mask, GoWSAEnumNetworkEvents returns 0 and reports
FD_READ|FD_WRITE, not b. -/
theorem C4_stale_bits_reported :
    (GoWSAEventSelect worldConnectedWithEvent 1001 1002 FD_WRITE EventOut).1 = 0 ∧
    (GoWSAEventSelect (GoWSAEventSelect worldConnectedWithEvent 1001 1002 FD_WRITE EventOut).2
      1001 1002 FD_READ EventOut).1 = 0 ∧
    ((GoWSAEventSelect (GoWSAEventSelect worldConnectedWithEvent 1001 1002 FD_WRITE EventOut).2
      1001 1002 FD_READ EventOut).2.registry.Get 1001).map
        (fun st => (st.NetworkEvents, st.FiredEvents)) = some (FD_READ, FD_WRITE) ∧
    FD_WRITE &&& FD_READ = 0 ∧
    ((GoWSAEventSelect worldConnectedWithEvent 1001 1002 FD_WRITE EventOut).2.registry.Get
      1001).bind (fun st => eventSelectInitial st 1002 FD_READ EventOut) = none ∧
    translatedBits false EventIn = FD_READ ∧
    (GoWSAEnumNetworkEvents
      (deliverNotify
        (GoWSAEventSelect (GoWSAEventSelect worldConnectedWithEvent 1001 1002 FD_WRITE EventOut).2
          1001 1002 FD_READ EventOut).2 1001 EventIn)
      1001 1002 (some ⟨0, List.replicate 10 0⟩)).1 = 0 ∧
    (GoWSAEnumNetworkEvents
      (deliverNotify
        (GoWSAEventSelect (GoWSAEventSelect worldConnectedWithEvent 1001 1002 FD_WRITE EventOut).2
          1001 1002 FD_READ EventOut).2 1001 EventIn)
      1001 1002 (some ⟨0, List.replicate 10 0⟩)).2.2
      = some ⟨FD_READ ||| FD_WRITE, List.replicate 10 0⟩ ∧
    FD_READ ||| FD_WRITE ≠ FD_READ := by
  decide

theorem translatedBits_lt (listener : Bool) (m : Nat) : translatedBits listener m < 2 ^ 32 := by
  unfold translatedBits
  cases listener <;> split_ifs <;> decide


theorem notifyEvent_fired (st : SocketState) (events : List (Nat × Bool)) (m : Nat) :
    (st.NotifyEvent events m).1 =
      if translatedBits st.Listener.isSome m &&& st.NetworkEvents ≠ 0 then
        { st with
          FiredEvents := u32 (st.FiredEvents + (translatedBits st.Listener.isSome m &&& st.NetworkEvents)) }
      else st := by
  unfold SocketState.NotifyEvent translatedBits
  by_cases hIn : m &&& EventIn ≠ 0 <;> by_cases hOut : m &&& EventOut ≠ 0 <;>
    by_cases hErr : (m &&& EventErr ≠ 0 ∨ m &&& EventHUp ≠ 0) <;>
    cases hl : st.Listener.isSome <;>
    simp only [hIn, hOut, hErr, if_true, if_false, Nat.zero_or, Nat.or_zero, Bool.false_eq_true] <;>
    split_ifs <;> rfl

/-- A notification whose translated bits are non-zero and requested, arriving
at a socket without pending fired events, leaves exactly those bits. -/
theorem notifyEvent_from_zero (st : SocketState) (events : List (Nat × Bool)) (m : Nat)
    (h0 : st.FiredEvents = 0)
    (hb : translatedBits st.Listener.isSome m ≠ 0)
    (hsub : translatedBits st.Listener.isSome m &&& st.NetworkEvents
      = translatedBits st.Listener.isSome m) :
    (st.NotifyEvent events m).1
      = { st with FiredEvents := translatedBits st.Listener.isSome m } := by
  rw [notifyEvent_fired, hsub, if_pos hb, h0, Nat.zero_add]
  simp only [u32, Nat.mod_eq_of_lt (translatedBits_lt _ _)]

theorem get_after_set (w : World) (s : Nat) (st : SocketState) (ev : List (Nat × Bool)) :
    ({ w with registry := { w.registry with sockets := mapSet w.registry.sockets s st,
                                              events := ev } } : World).registry.Get s
      = some st := by
  simp [socketRegistry.Get, mapGet_mapSet_same]

theorem deliverNotify_get (w : World) (s m : Nat) (st : SocketState)
    (h : w.registry.Get s = some st) :
    (deliverNotify w s m).registry.Get s = some (st.NotifyEvent w.registry.events m).1 := by
  simp only [deliverNotify, h]
  exact get_after_set _ _ _ _

theorem enum_of_get (w : World) (s e : Nat) (st : SocketState) (out : wsaNetworkEvents)
    (h : w.registry.Get s = some st) :
    (GoWSAEnumNetworkEvents w s e (some out)).1 = 0 ∧
    (GoWSAEnumNetworkEvents w s e (some out)).2.2
      = some ⟨st.FiredEvents, List.replicate 10 0⟩ ∧
    (GoWSAEnumNetworkEvents w s e (some out)).2.1.registry.Get s
      = some { st with FiredEvents := 0 } := by
  simp only [GoWSAEnumNetworkEvents, h]
  exact ⟨trivial, rfl, get_after_set _ _ _ _⟩

theorem registerWaiter_eq (st : SocketState) (events : List (Nat × Bool)) (l e ready : Nat) :
    ∃ st0 : SocketState, st0.NetworkEvents = st.NetworkEvents ∧ st0.Listener = st.Listener ∧
      st0.FiredEvents = st.FiredEvents ∧
      registerWaiter st events l e ready =
        (match eventSelectInitial st e l ready with
         | none => (st0, events)
         | some m0 => st0.NotifyEvent events m0) := by
  unfold registerWaiter eventSelectInitial
  by_cases hc : l ≠ 0 ∧ e ≠ 0 ∧ st.WaiterQueue = true
  · by_cases hm : waiterMaskOf l ≠ 0
    · refine ⟨{ st with WaiterEntry := some (waiterMaskOf l) }, rfl, rfl, rfl, ?_⟩
      have hc' : l ≠ 0 ∧ e ≠ 0 ∧ st.WaiterQueue = true ∧ waiterMaskOf l ≠ 0 :=
        ⟨hc.1, hc.2.1, hc.2.2, hm⟩
      rw [if_pos hc, if_pos hc']
      dsimp only
      rw [if_pos hm]
      unfold initialNotify
      dsimp only
      by_cases hep : st.Endpoint = true
      · rw [if_pos hep, if_pos hep]
        by_cases hr : ready &&& waiterMaskOf l ≠ 0
        · rw [if_pos hr, if_pos hr]
        · rw [if_neg hr, if_neg hr]
      · rw [if_neg hep, if_neg hep]
        by_cases hl : st.Listener.isSome = true
        · rw [if_pos hl, if_pos hl]
        · rw [if_neg hl, if_neg hl]
    · refine ⟨st, rfl, rfl, rfl, ?_⟩
      have hc' : ¬ (l ≠ 0 ∧ e ≠ 0 ∧ st.WaiterQueue = true ∧ waiterMaskOf l ≠ 0) :=
        fun h => hm h.2.2.2
      rw [if_pos hc, if_neg hc']
      dsimp only
      rw [if_neg hm]
  · refine ⟨st, rfl, rfl, rfl, ?_⟩
    have hc' : ¬ (l ≠ 0 ∧ e ≠ 0 ∧ st.WaiterQueue = true ∧ waiterMaskOf l ≠ 0) :=
      fun h => hc ⟨h.1, h.2.1, h.2.2.1⟩
    rw [if_neg hc, if_neg hc']


theorem unregisterWaiter_fields (st : SocketState) :
    (unregisterWaiter st).WaiterQueue = st.WaiterQueue ∧
    (unregisterWaiter st).Endpoint = st.Endpoint ∧
    (unregisterWaiter st).Listener = st.Listener ∧
    (unregisterWaiter st).FiredEvents = st.FiredEvents := by
  unfold unregisterWaiter
  split_ifs <;> exact ⟨rfl, rfl, rfl, rfl⟩

theorem eventSelectInitial_congr (st st' : SocketState) (e l ready : Nat)
    (hq : st'.WaiterQueue = st.WaiterQueue) (hep : st'.Endpoint = st.Endpoint)
    (hl : st'.Listener = st.Listener) :
    eventSelectInitial st' e l ready = eventSelectInitial st e l ready := by
  unfold eventSelectInitial
  rw [hq, hep, hl]

/-- The socket state a successful GoWSAEventSelect leaves behind: the mask is
stored, and FiredEvents changes only through the initial notification. -/
theorem eventSelect_post (w : World) (s e l ready : Nat) (st : SocketState)
    (hreg : w.registry.Get s = some st)
    (hsel : (GoWSAEventSelect w s e l ready).1 = 0) :
    ∃ st0 : SocketState, st0.NetworkEvents = l ∧ st0.Listener = st.Listener ∧
      st0.FiredEvents = st.FiredEvents ∧
      (GoWSAEventSelect w s e l ready).2.registry.Get s =
        some (match eventSelectInitial st e l ready with
              | none => st0
              | some m0 => (st0.NotifyEvent w.registry.events m0).1) := by
  unfold GoWSAEventSelect at hsel ⊢
  simp only [hreg] at hsel ⊢
  by_cases hbad : e ≠ 0 ∧ (w.registry.GetEvent e).isNone = true
  · rw [if_pos hbad] at hsel
    simp at hsel
  · rw [if_neg hbad]
    obtain ⟨hq, hep, hl, hf⟩ := unregisterWaiter_fields st
    obtain ⟨st0, h1, h2, h3, heq⟩ := registerWaiter_eq
      { unregisterWaiter st with EventHandle := e, NetworkEvents := l, IsNonBlocking := true }
      w.registry.events l e ready
    rw [eventSelectInitial_congr st
      { unregisterWaiter st with EventHandle := e, NetworkEvents := l, IsNonBlocking := true }
      e l ready hq hep hl] at heq
    refine ⟨st0, h1, h2.trans hl, h3.trans hf, ?_⟩
    change ({ w with registry := { w.registry with
        sockets := mapSet w.registry.sockets s (registerWaiter
          { unregisterWaiter st with EventHandle := e, NetworkEvents := l, IsNonBlocking := true }
          w.registry.events l e ready).1,
        events := (registerWaiter
          { unregisterWaiter st with EventHandle := e, NetworkEvents := l, IsNonBlocking := true }
          w.registry.events l e ready).2 } } : World).registry.Get s = _
    rw [get_after_set, heq]
    cases eventSelectInitial st e l ready <;> rfl

/-- What GoWSAEnumNetworkEvents reports on a socket that has no fired events
pending when WSAEventSelect(s, e, mask) succeeds: exactly one readiness
notification with mask `m` reaches the socket, either the initial one that
GoWSAEventSelect delivers itself or one delivered afterwards, and its
translated bits b are non-zero and contained in the mask.  Then
GoWSAEnumNetworkEvents returns 0 with NetworkEvents = b and all ten error
codes 0, and an immediately following call returns 0 with NetworkEvents = 0. -/
theorem enum_single_notification_nothing_pending (w w2 : World) (s e l ready m : Nat)
    (st : SocketState) (out out2 : wsaNetworkEvents)
    (hreg : w.registry.Get s = some st)
    (hfired : st.FiredEvents = 0)
    (hsel : (GoWSAEventSelect w s e l ready).1 = 0)
    (hone : (eventSelectInitial st e l ready = none ∧
              w2 = deliverNotify (GoWSAEventSelect w s e l ready).2 s m) ∨
            (eventSelectInitial st e l ready = some m ∧
              w2 = (GoWSAEventSelect w s e l ready).2))
    (hb : translatedBits st.Listener.isSome m ≠ 0)
    (hsub : translatedBits st.Listener.isSome m &&& l = translatedBits st.Listener.isSome m) :
    (GoWSAEnumNetworkEvents w2 s e (some out)).1 = 0 ∧
    (GoWSAEnumNetworkEvents w2 s e (some out)).2.2
      = some ⟨translatedBits st.Listener.isSome m, List.replicate 10 0⟩ ∧
    (GoWSAEnumNetworkEvents (GoWSAEnumNetworkEvents w2 s e (some out)).2.1 s e (some out2)).1 = 0 ∧
    (GoWSAEnumNetworkEvents (GoWSAEnumNetworkEvents w2 s e (some out)).2.1 s e (some out2)).2.2
      = some ⟨0, List.replicate 10 0⟩ := by
  obtain ⟨st0, h1, h2, h3, hget⟩ := eventSelect_post w s e l ready st hreg hsel
  have hz : st0.FiredEvents = 0 := h3.trans hfired
  have hb0 : translatedBits st0.Listener.isSome m ≠ 0 := by rw [h2]; exact hb
  have hsub0 : translatedBits st0.Listener.isSome m &&& st0.NetworkEvents
      = translatedBits st0.Listener.isSome m := by rw [h2, h1]; exact hsub
  have hget2 : ∃ ev, w2.registry.Get s = some (st0.NotifyEvent ev m).1 := by
    rcases hone with ⟨hnone, hw⟩ | ⟨hsome, hw⟩
    · rw [hnone] at hget
      exact ⟨_, by rw [hw]; exact deliverNotify_get _ _ _ _ hget⟩
    · rw [hsome] at hget
      exact ⟨_, by rw [hw]; exact hget⟩
  obtain ⟨ev, hw2⟩ := hget2
  rw [notifyEvent_from_zero st0 ev m hz hb0 hsub0, h2] at hw2
  obtain ⟨e1, e2, e3⟩ := enum_of_get w2 s e _ out hw2
  obtain ⟨f1, f2, _⟩ := enum_of_get _ s e _ out2 e3
  exact ⟨e1, e2, f1, f2⟩


/-- Socket 1001, connected and with nothing pending, selects FD_READ with
event 1002 on an endpoint that is writable only; one EventIn notification
follows. -/
theorem enum_single_notification_nothing_pending_example :
    (GoWSAEnumNetworkEvents
      (deliverNotify (GoWSAEventSelect worldConnectedWithEvent 1001 1002 FD_READ EventOut).2
        1001 EventIn) 1001 1002 (some ⟨7, []⟩)).1 = 0 ∧
    (GoWSAEnumNetworkEvents
      (deliverNotify (GoWSAEventSelect worldConnectedWithEvent 1001 1002 FD_READ EventOut).2
        1001 EventIn) 1001 1002 (some ⟨7, []⟩)).2.2
      = some ⟨translatedBits false EventIn, List.replicate 10 0⟩ ∧
    (GoWSAEnumNetworkEvents (GoWSAEnumNetworkEvents
      (deliverNotify (GoWSAEventSelect worldConnectedWithEvent 1001 1002 FD_READ EventOut).2
        1001 EventIn) 1001 1002 (some ⟨7, []⟩)).2.1 1001 1002 (some ⟨7, []⟩)).1 = 0 ∧
    (GoWSAEnumNetworkEvents (GoWSAEnumNetworkEvents
      (deliverNotify (GoWSAEventSelect worldConnectedWithEvent 1001 1002 FD_READ EventOut).2
        1001 EventIn) 1001 1002 (some ⟨7, []⟩)).2.1 1001 1002 (some ⟨7, []⟩)).2.2
      = some ⟨0, List.replicate 10 0⟩ :=
  enum_single_notification_nothing_pending worldConnectedWithEvent
    (deliverNotify (GoWSAEventSelect worldConnectedWithEvent 1001 1002 FD_READ EventOut).2
      1001 EventIn)
    1001 1002 FD_READ EventOut EventIn
    { Handle := 1001,
      Conn := some { id := 1, isTCPConn := true, isUDPConn := false, hasWq := true, hasEp := true },
      Listener := none, Type_ := SocketType.TypeTCP,
      AddressFamily := 2, Protocol := 6, IsNonBlocking := false, LastErrorCode := 0,
      BoundAddr := [], Options := [], PeekBuf := [], EventHandle := 0, NetworkEvents := 0,
      FiredEvents := 0, WaiterQueue := true, WaiterEntry := none, Endpoint := true }
    ⟨7, []⟩ ⟨7, []⟩
    (by decide) (by decide) (by decide) (Or.inl ⟨by decide, rfl⟩) (by decide) (by decide)

/-! ## C5: index returned by WSAWaitForMultipleEvents -/

/-- C5 (evaluation at the failing input): the caller waits without timeout on
the array [555, 1001], where 555 is no event object and 1001 is signalled.
The case list holds the single receive on 1001, so `reflect.Select` can only
return index 0, and the function returns 0, the position of the unregistered
handle, instead of 1, the position of the signalled event. -/
theorem C5_wait_returns_case_index :
    worldSignalled.registry.GetEvent 555 = none ∧
    worldSignalled.registry.GetEvent 1001 = some true ∧
    waitCases worldSignalled.registry [555, 1001] 0xFFFFFFFF = [SelectCase.chan 1001] ∧
    selectAdmits worldSignalled.registry
      (waitCases worldSignalled.registry [555, 1001] 0xFFFFFFFF) 0 = true ∧
    (GoWSAWaitForMultipleEvents worldSignalled 2 (some [555, 1001]) 0 0xFFFFFFFF 0 0 true).1 = 0 ∧
    ([555, 1001] : List Nat).get? 0 = some 555 ∧
    ([555, 1001] : List Nat).get? 1 = some 1001 := by
  decide

/-! ## C6: lifetime of a socket handle in the registry -/

/-- C6 (counterexample): a socket is created and the registry is purged (as
the last WSACleanup does); GoClosesocket has not been called, yet Get no
longer finds the handle. -/
theorem C6_purge_counterexample :
    (GoSocket (World.init true) 2 1 6).1 = 1001 ∧
    (∀ op ∈ [RegOp.purgeAll], op ≠ RegOp.closesocket 1001) ∧
    (runOps (GoSocket (World.init true) 2 1 6).2 [RegOp.purgeAll]).registry.Get 1001 = none := by
  decide

theorem GoSocket_eq_register (w : World) (af typ protocol : Int) :
    ∃ st' : SocketState, GoSocket w af typ protocol
      = ((w.registry.Register st').1, { w with registry := (w.registry.Register st').2 }) := by
  unfold GoSocket
  exact ⟨_, rfl⟩

theorem register_preserves_get (r : socketRegistry) (st' : SocketState) (h : Nat)
    (hget : ∃ st, r.Get h = some st ∧ st.Handle = h) :
    ∃ st, (r.Register st').2.Get h = some st ∧ st.Handle = h := by
  obtain ⟨st, hst, hh⟩ := hget
  unfold socketRegistry.Get at hst
  simp only [socketRegistry.Register, socketRegistry.Get]
  by_cases hk : u64 (r.NextHandle + 1) = h
  · subst hk
    exact ⟨_, mapGet_mapSet_same _ _ _, rfl⟩
  · exact ⟨st, by rw [mapGet_mapSet_ne _ _ _ _ hk]; exact hst, hh⟩

theorem run_preserves_get (w : World) (op : RegOp) (h : Nat)
    (hop : op ≠ RegOp.closesocket h ∧ op ≠ RegOp.purgeAll)
    (hget : ∃ st, w.registry.Get h = some st ∧ st.Handle = h) :
    ∃ st, (op.run w).registry.Get h = some st ∧ st.Handle = h := by
  have hget' := hget
  obtain ⟨st, hst, hh⟩ := hget
  unfold socketRegistry.Get at hst
  cases op with
  | socket af typ protocol =>
    obtain ⟨st', hs⟩ := GoSocket_eq_register w af typ protocol
    simp only [RegOp.run, hs]
    exact register_preserves_get w.registry st' h hget'
  | register st' => exact register_preserves_get w.registry st' h hget'
  | closesocket s =>
    have hs : s ≠ h := fun e => hop.1 (by rw [e])
    simp only [RegOp.run, GoClosesocket, socketRegistry.Get, socketRegistry.Unregister]
    cases hg : mapGet w.registry.sockets s with
    | none => exact ⟨st, hst, hh⟩
    | some st' => exact ⟨st, by simp only [mapGet_mapDel_ne _ _ _ hs]; exact hst, hh⟩
  | createEvent => exact ⟨st, hst, hh⟩
  | closeEvent e => exact ⟨st, hst, hh⟩
  | purgeAll => exact absurd rfl hop.2
  | setLastError k c =>
    simp only [RegOp.run, socketRegistry.SetLastError, socketRegistry.Get]
    cases hg : mapGet w.registry.sockets k with
    | none => exact ⟨st, hst, hh⟩
    | some st' =>
      by_cases hk : k = h
      · subst hk
        rw [hst] at hg
        cases hg
        exact ⟨_, mapGet_mapSet_same _ _ _, hh⟩
      · exact ⟨st, by simp only [mapGet_mapSet_ne _ _ _ _ hk]; exact hst, hh⟩
  | setOverlapped k r => exact ⟨st, hst, hh⟩
  | getOverlapped k =>
    simp only [RegOp.run, socketRegistry.GetOverlappedResult, socketRegistry.Get]
    cases mapGet w.registry.overlapped k <;> exact ⟨st, hst, hh⟩

theorem runOps_preserves_get (ops : List RegOp) (w : World) (h : Nat)
    (hops : ∀ op ∈ ops, op ≠ RegOp.closesocket h ∧ op ≠ RegOp.purgeAll)
    (hget : ∃ st, w.registry.Get h = some st ∧ st.Handle = h) :
    ∃ st, (runOps w ops).registry.Get h = some st ∧ st.Handle = h := by
  induction ops generalizing w with
  | nil => exact hget
  | cons op rest ih =>
    exact ih (op.run w) (fun o ho => hops o (List.mem_cons_of_mem _ ho))
      (run_preserves_get w op h (hops op (List.mem_cons_self _ _)) hget)

theorem GoSocket_get (w : World) (af typ protocol : Int) :
    ∃ st, (GoSocket w af typ protocol).2.registry.Get (GoSocket w af typ protocol).1 = some st ∧
      st.Handle = (GoSocket w af typ protocol).1 := by
  obtain ⟨st', hs⟩ := GoSocket_eq_register w af typ protocol
  rw [hs]
  exact ⟨_, mapGet_mapSet_same _ _ _, rfl⟩

theorem closesocket_missing (w : World) (h : Nat) (hget : w.registry.Get h = none) :
    (GoClosesocket w h).1 = -1 := by
  simp only [GoClosesocket, hget]

theorem closesocket_found (w : World) (h : Nat) (st : SocketState)
    (hget : w.registry.Get h = some st) :
    (GoClosesocket w h).1 = 0 ∧ (GoClosesocket w h).2.registry.Get h = none ∧
    (GoClosesocket (GoClosesocket w h).2 h).1 = -1 := by
  have hdel : (GoClosesocket w h).2.registry.Get h = none := by
    unfold socketRegistry.Get at hget
    simp only [GoClosesocket, socketRegistry.Get, socketRegistry.Unregister, hget]
    exact mapGet_mapDel_same _ _
  exact ⟨by simp only [GoClosesocket, hget], hdel, closesocket_missing _ _ hdel⟩

theorem run_nextHandle (w : World) (op : RegOp) :
    (op.run w).registry.NextHandle = w.registry.NextHandle ∨
    (op.run w).registry.NextHandle = u64 (w.registry.NextHandle + 1) := by
  cases op with
  | socket af typ protocol =>
    obtain ⟨st', hs⟩ := GoSocket_eq_register w af typ protocol
    simp only [RegOp.run, hs]
    exact Or.inr rfl
  | register st' => exact Or.inr rfl
  | closesocket s =>
    simp only [RegOp.run, GoClosesocket, socketRegistry.Unregister, socketRegistry.Get]
    cases mapGet w.registry.sockets s <;> exact Or.inl rfl
  | createEvent => exact Or.inr rfl
  | closeEvent e => exact Or.inl rfl
  | purgeAll => exact Or.inl rfl
  | setLastError k c =>
    simp only [RegOp.run, socketRegistry.SetLastError, socketRegistry.Get]
    cases mapGet w.registry.sockets k <;> exact Or.inl rfl
  | setOverlapped k r => exact Or.inl rfl
  | getOverlapped k =>
    simp only [RegOp.run, socketRegistry.GetOverlappedResult]
    cases mapGet w.registry.overlapped k <;> exact Or.inl rfl

theorem run_preserves_created (w : World) (op : RegOp) (h : Nat) (af typ protocol : Int)
    (hop : op ≠ RegOp.closesocket h ∧ op ≠ RegOp.purgeAll)
    (hnext : h ≤ w.registry.NextHandle) (hwrap : w.registry.NextHandle + 1 < 2 ^ 64)
    (hget : ∃ st, w.registry.Get h = some st ∧ createdAs st af typ protocol) :
    ∃ st, (op.run w).registry.Get h = some st ∧ createdAs st af typ protocol := by
  obtain ⟨st, hst, hc⟩ := hget
  have hne : u64 (w.registry.NextHandle + 1) ≠ h := by
    unfold u64
    rw [Nat.mod_eq_of_lt hwrap]
    omega
  unfold socketRegistry.Get at hst
  cases op with
  | socket af' typ' protocol' =>
    obtain ⟨st', hs⟩ := GoSocket_eq_register w af' typ' protocol'
    simp only [RegOp.run, hs, socketRegistry.Register, socketRegistry.Get]
    exact ⟨st, by rw [mapGet_mapSet_ne _ _ _ _ hne]; exact hst, hc⟩
  | register st' =>
    simp only [RegOp.run, socketRegistry.Register, socketRegistry.Get]
    exact ⟨st, by rw [mapGet_mapSet_ne _ _ _ _ hne]; exact hst, hc⟩
  | closesocket s =>
    have hs : s ≠ h := fun e => hop.1 (by rw [e])
    simp only [RegOp.run, GoClosesocket, socketRegistry.Get, socketRegistry.Unregister]
    cases hg : mapGet w.registry.sockets s with
    | none => exact ⟨st, hst, hc⟩
    | some st' => exact ⟨st, by simp only [mapGet_mapDel_ne _ _ _ hs]; exact hst, hc⟩
  | createEvent => exact ⟨st, hst, hc⟩
  | closeEvent e => exact ⟨st, hst, hc⟩
  | purgeAll => exact absurd rfl hop.2
  | setLastError k c =>
    simp only [RegOp.run, socketRegistry.SetLastError, socketRegistry.Get]
    cases hg : mapGet w.registry.sockets k with
    | none => exact ⟨st, hst, hc⟩
    | some st' =>
      by_cases hk : k = h
      · subst hk
        rw [hst] at hg
        cases hg
        exact ⟨_, mapGet_mapSet_same _ _ _, hc⟩
      · exact ⟨st, by simp only [mapGet_mapSet_ne _ _ _ _ hk]; exact hst, hc⟩
  | setOverlapped k r => exact ⟨st, hst, hc⟩
  | getOverlapped k =>
    simp only [RegOp.run, socketRegistry.GetOverlappedResult, socketRegistry.Get]
    cases mapGet w.registry.overlapped k <;> exact ⟨st, hst, hc⟩

theorem runOps_preserves_created (ops : List RegOp) (w : World) (h : Nat)
    (af typ protocol : Int)
    (hops : ∀ op ∈ ops, op ≠ RegOp.closesocket h ∧ op ≠ RegOp.purgeAll)
    (hnext : h ≤ w.registry.NextHandle)
    (hwrap : w.registry.NextHandle + ops.length < 2 ^ 64)
    (hget : ∃ st, w.registry.Get h = some st ∧ createdAs st af typ protocol) :
    ∃ st, (runOps w ops).registry.Get h = some st ∧ createdAs st af typ protocol := by
  induction ops generalizing w with
  | nil => exact hget
  | cons op rest ih =>
    simp only [List.length_cons] at hwrap
    have h1 : w.registry.NextHandle + 1 < 2 ^ 64 := by omega
    have hstep := run_preserves_created w op h af typ protocol
      (hops op (List.mem_cons_self _ _)) hnext h1 hget
    have hn : h ≤ (op.run w).registry.NextHandle ∧
        (op.run w).registry.NextHandle + rest.length < 2 ^ 64 := by
      rcases run_nextHandle w op with e | e
      · rw [e]; omega
      · rw [e]; unfold u64; rw [Nat.mod_eq_of_lt h1]; omega
    exact ih (op.run w) (fun o ho => hops o (List.mem_cons_of_mem _ ho)) hn.1 hn.2 hstep

theorem GoSocket_created (w : World) (af typ protocol : Int) :
    (GoSocket w af typ protocol).2.registry.NextHandle = (GoSocket w af typ protocol).1 ∧
    ∃ st, (GoSocket w af typ protocol).2.registry.Get (GoSocket w af typ protocol).1 = some st ∧
      createdAs st af typ protocol := by
  refine ⟨?_, ?_⟩
  · obtain ⟨st', hs⟩ := GoSocket_eq_register w af typ protocol
    rw [hs]
    rfl
  · unfold GoSocket createdAs sockTypeOf
    by_cases h2 : typ = 2
    · simp only [h2, if_true]
      exact ⟨_, mapGet_mapSet_same _ _ _, rfl, rfl, rfl⟩
    · by_cases h3 : typ = 3
      · simp only [h2, h3, if_true, if_false]
        exact ⟨_, mapGet_mapSet_same _ _ _, rfl, rfl, rfl⟩
      · simp only [h2, h3, if_false]
        exact ⟨_, mapGet_mapSet_same _ _ _, rfl, rfl, rfl⟩

/-- C6 (amended): after h = GoSocket(af, typ, proto), and through every
sequence of registry operations that contains neither GoClosesocket(h) nor a
purge of the registry, Get(h) finds a socket state carrying handle h, which
(as long as the 64-bit handle counter does not wrap) has the family, kind and
protocol the socket was created with; then GoClosesocket(h) returns 0, after
it Get(h) reports not-found, and a second GoClosesocket(h) returns -1. -/
theorem C6_get_until_close_or_purge (w : World) (af typ protocol : Int) (ops : List RegOp)
    (hops : ∀ op ∈ ops,
      op ≠ RegOp.closesocket (GoSocket w af typ protocol).1 ∧ op ≠ RegOp.purgeAll) :
    (∃ st, (runOps (GoSocket w af typ protocol).2 ops).registry.Get
        (GoSocket w af typ protocol).1 = some st ∧ st.Handle = (GoSocket w af typ protocol).1 ∧
        ((GoSocket w af typ protocol).1 + ops.length < 2 ^ 64 → createdAs st af typ protocol)) ∧
    (GoClosesocket (runOps (GoSocket w af typ protocol).2 ops)
        (GoSocket w af typ protocol).1).1 = 0 ∧
    (GoClosesocket (runOps (GoSocket w af typ protocol).2 ops)
        (GoSocket w af typ protocol).1).2.registry.Get (GoSocket w af typ protocol).1 = none ∧
    (GoClosesocket (GoClosesocket (runOps (GoSocket w af typ protocol).2 ops)
        (GoSocket w af typ protocol).1).2 (GoSocket w af typ protocol).1).1 = -1 := by
  have hfound := runOps_preserves_get ops (GoSocket w af typ protocol).2
    (GoSocket w af typ protocol).1 hops (GoSocket_get w af typ protocol)
  obtain ⟨st, hst, hh⟩ := hfound
  refine ⟨⟨st, hst, hh, ?_⟩, closesocket_found _ _ st hst⟩
  intro hwrap
  obtain ⟨hn, hcr⟩ := GoSocket_created w af typ protocol
  obtain ⟨st2, hst2, hc2⟩ := runOps_preserves_created ops (GoSocket w af typ protocol).2
    (GoSocket w af typ protocol).1 af typ protocol hops (by rw [hn]) (by rw [hn]; exact hwrap) hcr
  rw [hst] at hst2
  cases hst2
  exact hc2

/-- C6 instance: a socket survives the creation and closing of another socket
and of an event object. -/
theorem C6_get_until_close_or_purge_witness :
    (∃ st, (runOps (GoSocket (World.init true) 2 1 6).2
        [RegOp.socket 2 2 17, RegOp.createEvent, RegOp.closesocket 1002,
         RegOp.closeEvent 1003]).registry.Get
        (GoSocket (World.init true) 2 1 6).1 = some st ∧
        st.Handle = (GoSocket (World.init true) 2 1 6).1 ∧
        ((GoSocket (World.init true) 2 1 6).1 +
            [RegOp.socket 2 2 17, RegOp.createEvent, RegOp.closesocket 1002,
             RegOp.closeEvent 1003].length < 2 ^ 64 → createdAs st 2 1 6)) ∧
    (GoClosesocket (runOps (GoSocket (World.init true) 2 1 6).2
        [RegOp.socket 2 2 17, RegOp.createEvent, RegOp.closesocket 1002, RegOp.closeEvent 1003])
        (GoSocket (World.init true) 2 1 6).1).1 = 0 ∧
    (GoClosesocket (runOps (GoSocket (World.init true) 2 1 6).2
        [RegOp.socket 2 2 17, RegOp.createEvent, RegOp.closesocket 1002, RegOp.closeEvent 1003])
        (GoSocket (World.init true) 2 1 6).1).2.registry.Get
        (GoSocket (World.init true) 2 1 6).1 = none ∧
    (GoClosesocket (GoClosesocket (runOps (GoSocket (World.init true) 2 1 6).2
        [RegOp.socket 2 2 17, RegOp.createEvent, RegOp.closesocket 1002, RegOp.closeEvent 1003])
        (GoSocket (World.init true) 2 1 6).1).2 (GoSocket (World.init true) 2 1 6).1).1 = -1 :=
  C6_get_until_close_or_purge (World.init true) 2 1 6
    [RegOp.socket 2 2 17, RegOp.createEvent, RegOp.closesocket 1002, RegOp.closeEvent 1003]
    (by decide)

/-! ## C7: handles are issued in strictly increasing order -/

theorem issues_eq (w : World) (op : RegOp) (h : Nat) (hi : op.issues w = some h) :
    h = u64 (w.registry.NextHandle + 1) ∧ (op.run w).registry.NextHandle = h := by
  cases op with
  | socket af typ protocol =>
    obtain ⟨st', hs⟩ := GoSocket_eq_register w af typ protocol
    simp only [RegOp.issues, RegOp.run, hs, Option.some.injEq] at hi ⊢
    subst hi
    exact ⟨rfl, rfl⟩
  | register st' =>
    simp only [RegOp.issues, Option.some.injEq] at hi
    subst hi
    exact ⟨rfl, rfl⟩
  | createEvent =>
    simp only [RegOp.issues, Option.some.injEq] at hi
    subst hi
    exact ⟨rfl, rfl⟩
  | closesocket s => simp [RegOp.issues] at hi
  | closeEvent e => simp [RegOp.issues] at hi
  | purgeAll => simp [RegOp.issues] at hi
  | setLastError k c => simp [RegOp.issues] at hi
  | setOverlapped k r => simp [RegOp.issues] at hi
  | getOverlapped k => simp [RegOp.issues] at hi

theorem issued_increasing (ops : List RegOp) (w : World)
    (hwrap : w.registry.NextHandle + ops.length < 2 ^ 64) :
    (∀ h ∈ issuedHandles w ops, w.registry.NextHandle < h) ∧
    (issuedHandles w ops).Pairwise (fun a b => a < b) := by
  induction ops generalizing w with
  | nil => simp [issuedHandles]
  | cons op rest ih =>
    simp only [List.length_cons] at hwrap
    have h1 : w.registry.NextHandle + 1 < 2 ^ 64 := by omega
    have hu : u64 (w.registry.NextHandle + 1) = w.registry.NextHandle + 1 := by
      unfold u64; exact Nat.mod_eq_of_lt h1
    have hn : w.registry.NextHandle ≤ (op.run w).registry.NextHandle ∧
        (op.run w).registry.NextHandle + rest.length < 2 ^ 64 := by
      rcases run_nextHandle w op with e | e
      · rw [e]; omega
      · rw [e, hu]; omega
    obtain ⟨ihlt, ihpw⟩ := ih (op.run w) hn.2
    unfold issuedHandles
    cases hi : op.issues w with
    | none =>
      simp only [List.nil_append]
      exact ⟨fun h hh => lt_of_le_of_lt hn.1 (ihlt h hh), ihpw⟩
    | some h0 =>
      obtain ⟨e0, e1⟩ := issues_eq w op h0 hi
      simp only [List.singleton_append, List.mem_cons, List.pairwise_cons]
      refine ⟨?_, ?_, ihpw⟩
      · intro h hh
        rcases hh with rfl | hh
        · rw [e0, hu]; omega
        · exact lt_of_le_of_lt hn.1 (ihlt h hh)
      · intro h hh
        have := ihlt h hh
        rw [e1] at this
        exact this

/-- C7: as long as the 64-bit counter does not wrap, the handles returned by
Register (through GoSocket or directly) and RegisterEvent in the course of
any sequence of registry operations, closes and purges included, are all
greater than the counter's value before the sequence (hence than every handle
issued earlier) and strictly increasing, so none is issued twice; and the
first socket or event handle of a fresh registry is 1001. -/
theorem C7_handles_strictly_increasing (w : World) (ops : List RegOp)
    (hwrap : w.registry.NextHandle + ops.length < 2 ^ 64) :
    (∀ h ∈ issuedHandles w ops, w.registry.NextHandle < h) ∧
    (issuedHandles w ops).Pairwise (fun a b => a < b) ∧
    (issuedHandles w ops).Nodup ∧
    (∀ (le : Bool) (af typ protocol : Int), (GoSocket (World.init le) af typ protocol).1 = 1001) ∧
    (∀ le : Bool, (GoWSACreateEvent (World.init le)).1 = 1001) := by
  obtain ⟨h1, h2⟩ := issued_increasing ops w hwrap
  refine ⟨h1, h2, ?_, ?_, ?_⟩
  · exact h2.imp (fun hab => Nat.ne_of_lt hab)
  · intro le af typ protocol
    obtain ⟨st', hs⟩ := GoSocket_eq_register (World.init le) af typ protocol
    rw [hs]
    rfl
  · intro le
    rfl

/-- C7 instance: two sockets and an event object, with a close and a purge in
between, receive the handles 1001, 1002, 1003. -/
theorem C7_handles_strictly_increasing_witness :
    (∀ h ∈ issuedHandles (World.init true)
      [RegOp.socket 2 1 6, RegOp.closesocket 1001, RegOp.createEvent, RegOp.purgeAll,
       RegOp.socket 2 2 17], (World.init true).registry.NextHandle < h) ∧
    (issuedHandles (World.init true)
      [RegOp.socket 2 1 6, RegOp.closesocket 1001, RegOp.createEvent, RegOp.purgeAll,
       RegOp.socket 2 2 17]).Pairwise (fun a b => a < b) ∧
    (issuedHandles (World.init true)
      [RegOp.socket 2 1 6, RegOp.closesocket 1001, RegOp.createEvent, RegOp.purgeAll,
       RegOp.socket 2 2 17]).Nodup ∧
    (∀ (le : Bool) (af typ protocol : Int), (GoSocket (World.init le) af typ protocol).1 = 1001) ∧
    (∀ le : Bool, (GoWSACreateEvent (World.init le)).1 = 1001) :=
  C7_handles_strictly_increasing (World.init true)
    [RegOp.socket 2 1 6, RegOp.closesocket 1001, RegOp.createEvent, RegOp.purgeAll,
     RegOp.socket 2 2 17] (by decide)

/-! ## C8: byte order conversions -/

theorem ofBytesLE_toBytesLE (n x : Nat) (h : x < 256 ^ n) : ofBytesLE (toBytesLE n x) = x := by
  induction n generalizing x with
  | zero =>
    simp only [pow_zero, Nat.lt_one_iff] at h
    simp [toBytesLE, ofBytesLE, h]
  | succ n ih =>
    have hd : x / 256 < 256 ^ n := by
      rw [Nat.div_lt_iff_lt_mul (by decide)]
      rw [pow_succ] at h
      exact h
    simp only [toBytesLE, ofBytesLE, ih _ hd]
    omega

theorem toBytesLE_ofBytesLE (bs : List Nat) (h : ∀ b ∈ bs, b < 256) :
    toBytesLE bs.length (ofBytesLE bs) = bs := by
  induction bs with
  | nil => rfl
  | cons b rest ih =>
    have hb : b < 256 := h b (List.mem_cons_self _ _)
    have hr := ih (fun c hc => h c (List.mem_cons_of_mem _ hc))
    simp only [List.length_cons, toBytesLE, ofBytesLE]
    have e1 : (b + 256 * ofBytesLE rest) % 256 = b := by omega
    have e2 : (b + 256 * ofBytesLE rest) / 256 = ofBytesLE rest := by omega
    rw [e1, e2, hr]

theorem toBytesLE_length (n x : Nat) : (toBytesLE n x).length = n := by
  induction n generalizing x with
  | zero => rfl
  | succ n ih => simp [toBytesLE, ih]

theorem toBytesLE_lt (n x : Nat) : ∀ b ∈ toBytesLE n x, b < 256 := by
  induction n generalizing x with
  | zero => simp [toBytesLE]
  | succ n ih =>
    intro b hb
    simp only [toBytesLE, List.mem_cons] at hb
    rcases hb with rfl | hb
    · omega
    · exact ih _ b hb

/-- Reversing the `n` bytes of a value twice gives the value back. -/
theorem reverseBytes_involutive (n x : Nat) (h : x < 256 ^ n) :
    ofBytesLE (toBytesLE n (ofBytesLE (toBytesLE n x).reverse)).reverse = x := by
  have hlen : (toBytesLE n x).reverse.length = n := by
    rw [List.length_reverse, toBytesLE_length]
  have hlt : ∀ b ∈ (toBytesLE n x).reverse, b < 256 := by
    intro b hb
    exact toBytesLE_lt n x b (List.mem_reverse.mp hb)
  have := toBytesLE_ofBytesLE (toBytesLE n x).reverse hlt
  rw [hlen] at this
  rw [this, List.reverse_reverse, ofBytesLE_toBytesLE n x h]

/-- C8: for either value of the host-endianness flag and every 16-bit, 32-bit
and 64-bit unsigned x, GoNtohs(GoHtons(x)) = x, GoNtohl(GoHtonl(x)) = x and
GoNtohll(GoHtonll(x)) = x; and GoHtons(0x1234) = 0x3412 on a little-endian
host. -/
theorem C8_ntoh_hton_roundtrip (le : Bool) (x16 x32 x64 : Nat)
    (h16 : x16 < 2 ^ 16) (h32 : x32 < 2 ^ 32) (h64 : x64 < 2 ^ 64) :
    GoNtohs le (GoHtons le x16) = x16 ∧
    GoNtohl le (GoHtonl le x32) = x32 ∧
    GoNtohll le (GoHtonll le x64) = x64 ∧
    GoHtons true 0x1234 = 0x3412 := by
  cases le
  · exact ⟨rfl, rfl, rfl, by decide⟩
  · refine ⟨?_, ?_, ?_, by decide⟩
    · exact reverseBytes_involutive 2 x16 (by simpa using h16)
    · exact reverseBytes_involutive 4 x32 (by simpa using h32)
    · exact reverseBytes_involutive 8 x64 (by simpa using h64)

/-- C8 instance on a little-endian host. -/
theorem C8_ntoh_hton_roundtrip_witness :
    GoNtohs true (GoHtons true 0x1234) = 0x1234 ∧
    GoNtohl true (GoHtonl true 0xC0A801FE) = 0xC0A801FE ∧
    GoNtohll true (GoHtonll true 0x0102030405060708) = 0x0102030405060708 ∧
    GoHtons true 0x1234 = 0x3412 :=
  C8_ntoh_hton_roundtrip true 0x1234 0xC0A801FE 0x0102030405060708
    (by decide) (by decide) (by decide)

/-! ## C9: service table lookups -/

theorem takeWhile_append_zero (name rest : List Nat) (h : ∀ b ∈ name, b ≠ 0) :
    (name ++ 0 :: rest).takeWhile (fun b => b ≠ 0) = name := by
  induction name with
  | nil => simp
  | cons b bs ih =>
    have hb : b ≠ 0 := h b (List.mem_cons_self _ _)
    simp only [List.cons_append, List.takeWhile_cons, hb, ne_eq, not_false_eq_true,
      decide_True, if_true]
    rw [ih (fun c hc => h c (List.mem_cons_of_mem _ hc))]

/-- A name copied into a larger buffer and NUL-terminated reads back as a C
string. -/
theorem cstring_after_fill (buf name : List Nat) (hlen : name.length < buf.length)
    (hnz : ∀ b ∈ name, b ≠ 0) :
    goStringFromPtr (some (goStore (goCopy buf name) name.length 0)) = name := by
  have hle : name.length ≤ buf.length := Nat.le_of_lt hlen
  rw [goCopy_fits buf name hle]
  unfold goStore goStringFromPtr
  have hdrop : buf.drop name.length ≠ [] := by
    intro hnil
    have := congrArg List.length hnil
    simp only [List.length_drop, List.length_nil] at this
    omega
  obtain ⟨c, rest, hcr⟩ := List.exists_cons_of_ne_nil hdrop
  rw [hcr, List.set_append_right _ _ (Nat.le_refl _), Nat.sub_self, List.set_cons_zero]
  exact takeWhile_append_zero name rest hnz

theorem fillServent_spec (st : ServStatics) (e : servEntry)
    (hn : e.Name.length < st.staticServName.length)
    (ha : ∀ a ∈ e.Aliases.head?, a.length < st.staticServAlias.length)
    (hp : e.Proto.length < st.staticServProto.length) :
    ∃ st1, fillServent st e = some st1 ∧
      st1.staticServName = goStore (goCopy st.staticServName e.Name) e.Name.length 0 ∧
      st1.Port = u16 (u16 (u16 e.Port <<< 8) ||| (u16 e.Port >>> 8)) := by
  unfold fillServent
  have hn' : ¬ e.Name.length ≥ st.staticServName.length := by omega
  have hp' : ¬ e.Proto.length ≥ st.staticServProto.length := by omega
  rw [if_neg hn']
  cases hal : e.Aliases with
  | nil =>
    simp only [hp', if_false]
    exact ⟨_, rfl, rfl, rfl⟩
  | cons a rest =>
    have ha' : ¬ a.length ≥ st.staticServAlias.length := by
      have := ha a (by rw [hal]; rfl)
      omega
    simp only [ha', hp', if_false]
    exact ⟨_, rfl, rfl, rfl⟩

theorem servTable_facts : ∀ e ∈ servTable,
    e.Name.length < 64 ∧ (∀ a ∈ e.Aliases.head?, a.length < 64) ∧ e.Proto.length < 16 ∧
    (∀ b ∈ e.Name, b ≠ 0) ∧
    u16 (u16 (u16 e.Port <<< 8) ||| (u16 e.Port >>> 8)) = GoHtons true e.Port ∧
    servFindByName servTable (stringsToLower (goStringFromPtr (some (e.Name ++ [0]))))
      (stringsToLower (goStringFromPtr (some (e.Proto ++ [0])))) = some e ∧
    servTable.find? (fun e' =>
      (stringsToLower (goStringFromPtr (some (e.Proto ++ [0]))) = [] ∨
        stringsToLower e'.Proto = stringsToLower (goStringFromPtr (some (e.Proto ++ [0])))) ∧
      e'.Port = u16 (u16 (u16 (GoHtons true e.Port) <<< 8) ||| (u16 (GoHtons true e.Port) >>> 8)))
      = some e := by
  decide

/-- C9: for every entry (name, port, proto) of servTable and whatever the
static buffers held before, GoGetservbyname(name, proto) returns the static
servent with name `name` and Port = GoHtons(port), and
GoGetservbyport(GoHtons(port), proto) returns the static servent with name
`name`; GoHtons reads the package variable `isLittleEndian` as `init()` set
it. -/
theorem C9_service_table_lookup (e : servEntry) (he : e ∈ servTable)
    (st : ServStatics) (hst : st.wellSized)
    (lookupPort : List Nat → List Nat → Option Int) :
    (∃ st1, GoGetservbyname st (some (e.Name ++ [0])) (some (e.Proto ++ [0])) lookupPort
        = some (true, st1) ∧
      goStringFromPtr (some st1.staticServName) = e.Name ∧
      st1.Port = GoHtons isLittleEndian e.Port) ∧
    (∃ st2, GoGetservbyport st (GoHtons isLittleEndian e.Port) (some (e.Proto ++ [0]))
        = some (true, st2) ∧
      goStringFromPtr (some st2.staticServName) = e.Name) := by
  have hle : isLittleEndian = true := by decide
  rw [hle]
  obtain ⟨f1, f2, f3, f4, f5, f6, f7⟩ := servTable_facts e he
  obtain ⟨s1, s2, s3⟩ := hst
  obtain ⟨st1, hfill, hname, hport⟩ := fillServent_spec st e (by rw [s1]; exact f1)
    (fun a ha => by rw [s2]; exact f2 a ha) (by rw [s3]; exact f3)
  have hcs : goStringFromPtr (some st1.staticServName) = e.Name := by
    rw [hname]
    exact cstring_after_fill _ _ (by rw [s1]; exact f1) f4
  constructor
  · refine ⟨st1, ?_, hcs, by rw [hport, f5]⟩
    simp only [GoGetservbyname, Option.isSome_some, if_true, f6, hfill, Option.map_some']
  · refine ⟨st1, ?_, hcs⟩
    simp only [GoGetservbyport, Option.isSome_some, if_true, f7, hfill, Option.map_some']

/-- C9 instance: the entry ("https", 443, "tcp") and zeroed static buffers;
`init()` finds the host little-endian, the Port field is 0xBB01, and read back
with GoNtohs it is 443. -/
theorem C9_service_table_lookup_witness :
    ((∃ st1, GoGetservbyname ServStatics.init (some (httpsEntry.Name ++ [0]))
        (some (httpsEntry.Proto ++ [0])) (fun _ _ => none) = some (true, st1) ∧
      goStringFromPtr (some st1.staticServName) = httpsEntry.Name ∧
      st1.Port = GoHtons isLittleEndian httpsEntry.Port) ∧
    (∃ st2, GoGetservbyport ServStatics.init (GoHtons isLittleEndian httpsEntry.Port)
        (some (httpsEntry.Proto ++ [0])) = some (true, st2) ∧
      goStringFromPtr (some st2.staticServName) = httpsEntry.Name)) ∧
    isLittleEndian = true ∧
    (GoGetservbyname ServStatics.init (some (goBytes "https" ++ [0]))
      (some (goBytes "tcp" ++ [0])) (fun _ _ => none)).map (fun r => (r.1, r.2.Port))
        = some (true, 0xBB01) ∧
    GoNtohs isLittleEndian 0xBB01 = 443 ∧
    GoNtohs isLittleEndian (GoHtons isLittleEndian httpsEntry.Port) = 443 :=
  ⟨C9_service_table_lookup httpsEntry (by decide) ServStatics.init
    ⟨by decide, by decide, by decide⟩ (fun _ _ => none), by decide, by decide, by decide,
    by decide⟩

/-! ## Lemmas on the parsing and printing of addresses -/

theorem IPString_IPv4 (a b c d : Nat) : IPString (IPv4 a b c d) = ipv4String a b c d := by
  rfl

theorem IPTo16_self (ip : List Nat) (hlen : ip.length = 16) : IPTo16 ip = some ip := by
  unfold IPTo16
  rw [if_neg (by omega), if_pos hlen]

/-! ## C10: the inet_pton / inet_ntop round trip -/

/-- C11 (evaluation at the failing input): on a little-endian host
GoInet_addr("1.2.3.4") returns 0x01020304, whose bytes in memory are
04 03 02 01, while GoHtonl(1*2^24 + 2*2^16 + 3*2^8 + 4) is 0x04030201 and
GoInet_pton(AF_INET, "1.2.3.4") writes 01 02 03 04; GoInet_ntoa of the
returned value writes "1.2.3.4". -/
theorem C11_inet_addr_not_network_order :
    GoInet_addr (some (goBytes "1.2.3.4" ++ [0])) = 0x01020304 ∧
    GoHtonl true (1 * 2 ^ 24 + 2 * 2 ^ 16 + 3 * 2 ^ 8 + 4) = 0x04030201 ∧
    hostBytes32 true (GoInet_addr (some (goBytes "1.2.3.4" ++ [0]))) = [4, 3, 2, 1] ∧
    (GoInet_pton (World.init true) AF_INET (some (goBytes "1.2.3.4" ++ [0]))
      (some [0, 0, 0, 0])).2.2 = some [1, 2, 3, 4] ∧
    (GoInet_ntoa (List.replicate 16 0) (GoInet_addr (some (goBytes "1.2.3.4" ++ [0])))).take 8
      = goBytes "1.2.3.4" ++ [0] := by
  decide

/-! ## C12: the error translation table -/

/-- For an error without the timeout trait that is not the closed-connection
sentinel, mapError returns the code of the first fragment, in the order of the
tests, that the message contains, and 10001 when it contains none. -/
theorem mapError_first_match (e : GoError) (ht : (e.isNetError && e.timeout) = false)
    (hc : e.isErrClosed = false) :
    mapError (some e)
      = ((testedFragments.find? (fun p => stringsContains e.msg p.1)).map Prod.snd).getD 10001 := by
  unfold mapError testedFragments
  simp only [ht, hc, Bool.false_eq_true, if_false]
  cases h1 : stringsContains e.msg (goBytes "connection refused")
  · cases h2 : stringsContains e.msg (goBytes "connection reset")
    · cases h3 : stringsContains e.msg (goBytes "host is unreachable")
      · cases h4 : stringsContains e.msg (goBytes "no route to host")
        · cases h5 : stringsContains e.msg (goBytes "network is unreachable")
          · cases h6 : stringsContains e.msg (goBytes "address already in use")
            · cases h7 : stringsContains e.msg (goBytes "address not available")
              · cases h8 : stringsContains e.msg (goBytes "message too long")
                · cases h9 : stringsContains e.msg (goBytes "broken pipe")
                  · cases h10 : stringsContains e.msg (goBytes "protocol not supported")
                    · cases h11 : stringsContains e.msg (goBytes "operation not supported")
                      · cases h12 : stringsContains e.msg (goBytes "i/o timeout")
                        · cases h13 : stringsContains e.msg (goBytes "would block")
                          · simp [List.find?, h1, h2, h3, h4, h5, h6, h7, h8, h9, h10, h11,
                              h12, h13]
                          · simp [List.find?, h1, h2, h3, h4, h5, h6, h7, h8, h9, h10, h11,
                              h12, h13, WSAEWOULDBLOCK]
                        · simp [List.find?, h1, h2, h3, h4, h5, h6, h7, h8, h9, h10, h11,
                            h12, WSAETIMEDOUT]
                      · simp [List.find?, h1, h2, h3, h4, h5, h6, h7, h8, h9, h10, h11,
                          WSAEOPNOTSUPP]
                    · simp [List.find?, h1, h2, h3, h4, h5, h6, h7, h8, h9, h10,
                        WSAEPROTONOSUPPORT]
                  · simp [List.find?, h1, h2, h3, h4, h5, h6, h7, h8, h9, WSAECONNRESET]
                · simp [List.find?, h1, h2, h3, h4, h5, h6, h7, h8, WSAEMSGSIZE]
              · simp [List.find?, h1, h2, h3, h4, h5, h6, h7]
            · simp [List.find?, h1, h2, h3, h4, h5, h6]
          · simp [List.find?, h1, h2, h3, h4, h5, WSAEHOSTUNREACH]
        · simp [List.find?, h1, h2, h3, h4, WSAEHOSTUNREACH]
      · simp [List.find?, h1, h2, h3, WSAEHOSTUNREACH]
    · simp [List.find?, h1, h2, WSAECONNRESET]
  · simp [List.find?, h1, WSAECONNREFUSED]

/-- The first match of a table in which exactly one entry matches is that
entry. -/
theorem find_unique {α : Type} (l : List α) (c : α → Bool) (p : α) (hp : p ∈ l)
    (hcp : c p = true) (huniq : ∀ q ∈ l, c q = true → q = p) : l.find? c = some p := by
  cases h : l.find? c with
  | none =>
    have := List.find?_eq_none.mp h p hp
    exact absurd hcp this
  | some q =>
    have hq := List.find?_some h
    have hm := List.mem_of_find?_eq_some h
    rw [huniq q hm hq]

/-- C12 (counterexample): the message "dial: host is unreachable (would block)"
contains exactly one of the fragments the claim lists, "would block"
(code 10035), and the error has neither the timeout trait nor the
closed-connection identity; mapError returns 10065. -/
theorem C12_unlisted_fragment_counterexample :
    listedFragments.filter (fun p => stringsContains unreachableWouldBlock.msg p.1)
      = [(goBytes "would block", 10035)] ∧
    (unreachableWouldBlock.isNetError && unreachableWouldBlock.timeout) = false ∧
    unreachableWouldBlock.isErrClosed = false ∧
    mapError (some unreachableWouldBlock) = 10065 := by
  decide

/-- C12 (amended): mapError gives 0 for the nil error; 10060 for an error
with the timeout trait, whatever its message; else 10038 for the
closed-connection sentinel; else, when the message contains exactly one of the
thirteen fragments mapError tests (the twelve of the claim and
"host is unreachable", code 10065), that fragment's code; and 10001 when the
message contains none of them. -/
theorem C12_mapError_reference (e : GoError) :
    mapError none = 0 ∧
    ((e.isNetError && e.timeout) = true → mapError (some e) = 10060) ∧
    ((e.isNetError && e.timeout) = false → e.isErrClosed = true → mapError (some e) = 10038) ∧
    ((e.isNetError && e.timeout) = false → e.isErrClosed = false →
      ∀ p ∈ testedFragments, stringsContains e.msg p.1 = true →
        (∀ q ∈ testedFragments, stringsContains e.msg q.1 = true → q = p) →
        mapError (some e) = p.2) ∧
    ((e.isNetError && e.timeout) = false → e.isErrClosed = false →
      (∀ q ∈ testedFragments, stringsContains e.msg q.1 = false) →
      mapError (some e) = 10001) := by
  refine ⟨rfl, ?_, ?_, ?_, ?_⟩
  · intro ht
    unfold mapError
    simp only [ht, if_true]
    rfl
  · intro ht hc
    unfold mapError
    simp only [ht, hc, Bool.false_eq_true, if_false, if_true]
    rfl
  · intro ht hc p hp hcp huniq
    rw [mapError_first_match e ht hc,
      find_unique testedFragments (fun p => stringsContains e.msg p.1) p hp hcp huniq]
    rfl
  · intro ht hc hnone
    have hf : testedFragments.find? (fun p => stringsContains e.msg p.1) = none := by
      apply List.find?_eq_none.mpr
      intro q hq
      rw [hnone q hq]
      decide
    rw [mapError_first_match e ht hc, hf]
    rfl

/-- C12 instance: a net.Error without timeout whose message is
"dial tcp 10.0.0.1:80: connect: connection refused" maps to 10061. -/
theorem C12_mapError_reference_witness :
    mapError (some ⟨true, false, false,
      goBytes "dial tcp 10.0.0.1:80: connect: connection refused"⟩) = 10061 :=
  (C12_mapError_reference ⟨true, false, false,
      goBytes "dial tcp 10.0.0.1:80: connect: connection refused"⟩).2.2.2.1
    (by decide) (by decide) (goBytes "connection refused", 10061) (by decide) (by decide)
    (by decide)

/-! ## C13: the synthesised IPv4 header -/

theorem word_eq (a b : Nat) (ha : a < 256) (hb : b < 256) :
    u32 (a <<< 8) ||| b = a * 256 + b := by
  have h1 : u32 (a <<< 8) = 2 ^ 8 * a := by
    unfold u32
    rw [Nat.shiftLeft_eq, Nat.mod_eq_of_lt (by omega)]
    omega
  rw [h1, ← Nat.mul_add_lt_is_or (by omega) a]
  omega

/-- Bitwise complement of a 16-bit value. -/
theorem xor_ffff (s : Nat) (hs : s < 65536) : 0xFFFF ^^^ s = 0xFFFF - s := by
  apply Nat.eq_of_testBit_eq
  intro i
  have e : (0xFFFF : Nat) = 2 ^ 16 - 1 := by decide
  have e2 : 0xFFFF - s = 2 ^ 16 - (s + 1) := by omega
  rw [Nat.testBit_xor, e2, Nat.testBit_two_pow_sub_succ (by omega), e,
    Nat.testBit_two_pow_sub_one]
  by_cases hi : i < 16
  · simp [hi]
  · have : s.testBit i = false :=
      Nat.testBit_lt_two_pow (Nat.lt_of_lt_of_le hs (Nat.pow_le_pow_right (show 2 > 0 by decide)
        (show 16 ≤ i by omega)))
    simp [hi, this]

/-- The carry loop on a sum below 2^32: it ends within two rounds, with a
value below 0x10000 that is congruent to the sum modulo 0xFFFF and is zero
only for the sum zero. -/
theorem foldCarries_spec (s : Nat) (hs : s < 2 ^ 32) :
    ∃ c m, foldCarries 2 s = some c ∧ c ≤ 0xFFFF ∧ s = c + 65535 * m ∧ (0 < s → 0 < c) := by
  have e : ∀ y : Nat, y &&& 0xffff = y % 65536 := fun y => Nat.and_pow_two_sub_one_eq_mod y 16
  have sh : ∀ y : Nat, y >>> 16 = y / 65536 := fun y => Nat.shiftRight_eq_div_pow y 16
  by_cases h1 : s > 0xffff
  · rw [foldCarries, if_pos h1, e, sh]
    have hu : u32 (s / 65536 + s % 65536) = s / 65536 + s % 65536 := by
      unfold u32; omega
    rw [hu]
    by_cases h2 : s / 65536 + s % 65536 > 0xffff
    · rw [foldCarries, if_pos h2, e, sh]
      have hu2 : u32 ((s / 65536 + s % 65536) / 65536 + (s / 65536 + s % 65536) % 65536)
          = (s / 65536 + s % 65536) / 65536 + (s / 65536 + s % 65536) % 65536 := by
        unfold u32; omega
      rw [hu2, foldCarries, if_neg (by omega)]
      exact ⟨_, s / 65536 + 1, rfl, by omega, by omega, by omega⟩
    · rw [foldCarries, if_neg h2]
      exact ⟨_, s / 65536, rfl, by omega, by omega, by omega⟩
  · rw [foldCarries, if_neg h1]
    exact ⟨s, 0, rfl, by omega, by omega, by omega⟩

theorem onesAdd_spec (a w : Nat) (ha : a ≤ 65535) (hw : w ≤ 65535) :
    ∃ q, onesAdd a w + 65535 * q = a + w ∧ onesAdd a w ≤ 65535 ∧ (0 < a → 0 < onesAdd a w) := by
  unfold onesAdd
  exact ⟨(a + w) / 65536, by omega, by omega, by omega⟩

/-- Folding one's-complement addition over words keeps the accumulator a
16-bit value congruent to the plain sum modulo 0xFFFF, and positive once it is
positive. -/
theorem onesSum_fold (ws : List Nat) (hw : ∀ w ∈ ws, w ≤ 65535) :
    ∀ a, a ≤ 65535 → ∃ q, ws.foldl onesAdd a + 65535 * q = a + ws.sum ∧
      ws.foldl onesAdd a ≤ 65535 ∧
      (0 < a → 0 < ws.foldl onesAdd a) ∧
      (∀ w t, ws = w :: t → 0 < onesAdd a w → 0 < ws.foldl onesAdd a) := by
  induction ws with
  | nil => intro a ha; exact ⟨0, by simp, by simpa using ha, by simp, by simp⟩
  | cons w t ih =>
    intro a ha
    obtain ⟨q1, e1, b1, p1⟩ := onesAdd_spec a w ha (hw w (List.mem_cons_self _ _))
    obtain ⟨q2, e2, b2, p2, _⟩ := ih (fun x hx => hw x (List.mem_cons_of_mem _ hx)) _ b1
    refine ⟨q1 + q2, ?_, by simpa using b2, ?_, ?_⟩
    · simp only [List.foldl, List.sum_cons]
      omega
    · intro h; simpa using p2 (p1 h)
    · intro w0 t0 hcons h
      simp only [List.cons.injEq] at hcons
      obtain ⟨rfl, rfl⟩ := hcons
      simpa using p2 h

/-- The header with explicit bytes: the carry loop ends, and with the
complement of its result stored in bytes 10 and 11 the one's-complement sum of
the ten words is 0xFFFF. -/
theorem header_checksum (l2 l3 s0 s1 s2 s3 d0 d1 d2 d3 : Nat) (hl2 : l2 < 256) (hl3 : l3 < 256)
    (hs0 : s0 < 256) (hs1 : s1 < 256) (hs2 : s2 < 256) (hs3 : s3 < 256)
    (hd0 : d0 < 256) (hd1 : d1 < 256) (hd2 : d2 < 256) (hd3 : d3 < 256) :
    ∃ c, foldCarries 2 (sumWords [0x45, 0x00, l2, l3, 0, 0, 0, 0, 64, 1, 0, 0,
        s0, s1, s2, s3, d0, d1, d2, d3] 0) = some c ∧
      onesSum (beWords [0x45, 0x00, l2, l3, 0, 0, 0, 0, 64, 1,
        (0xFFFF ^^^ u16 c) >>> 8 % 256, (0xFFFF ^^^ u16 c) % 256,
        s0, s1, s2, s3, d0, d1, d2, d3]) = 0xFFFF := by
  have hS : sumWords [0x45, 0x00, l2, l3, 0, 0, 0, 0, 64, 1, 0, 0,
        s0, s1, s2, s3, d0, d1, d2, d3] 0
      = 0x4500 + (l2 * 256 + l3) + 0x4001 + (s0 * 256 + s1) + (s2 * 256 + s3)
        + (d0 * 256 + d1) + (d2 * 256 + d3) := by
    simp only [sumWords]
    rw [word_eq 0x45 0 (by decide) (by decide), word_eq l2 l3 hl2 hl3,
      word_eq 0 0 (by decide) (by decide), word_eq 64 1 (by decide) (by decide),
      word_eq s0 s1 hs0 hs1, word_eq s2 s3 hs2 hs3, word_eq d0 d1 hd0 hd1,
      word_eq d2 d3 hd2 hd3]
    unfold u32
    omega
  obtain ⟨c, m, hc, hle, hsum, hpos⟩ := foldCarries_spec _
    (show sumWords [0x45, 0x00, l2, l3, 0, 0, 0, 0, 64, 1, 0, 0,
        s0, s1, s2, s3, d0, d1, d2, d3] 0 < 2 ^ 32 by rw [hS]; omega)
  refine ⟨c, hc, ?_⟩
  rw [hS] at hsum hpos
  have hu : u16 c = c := by unfold u16; omega
  rw [hu, xor_ffff c (by omega), Nat.shiftRight_eq_div_pow]
  simp only [beWords, onesSum, List.foldl]
  have hk : (65535 - c) / 2 ^ 8 % 256 * 256 + (65535 - c) % 256 = 65535 - c := by omega
  rw [hk]
  have hw : ∀ w ∈ [69 * 256 + 0, l2 * 256 + l3, 0 * 256 + 0, 0 * 256 + 0, 64 * 256 + 1,
      65535 - c, s0 * 256 + s1, s2 * 256 + s3, d0 * 256 + d1, d2 * 256 + d3], w ≤ 65535 := by
    intro w hmem
    simp only [List.mem_cons, List.mem_singleton, List.mem_nil_iff, or_false] at hmem
    rcases hmem with h | h | h | h | h | h | h | h | h | h <;> omega
  obtain ⟨q, e, b, _, p⟩ := onesSum_fold _ hw 0 (by omega)
  have h1 : 0 < onesAdd 0 (69 * 256 + 0) := by unfold onesAdd; omega
  have hp := p _ _ rfl h1
  simp only [List.foldl, List.sum_cons, List.sum_nil] at e b hp
  clear hw hc hk hu p h1 hS
  omega

theorem byteOfInt_lt (x : Int) : byteOfInt x < 256 := by
  unfold byteOfInt
  omega

theorem headerAddr_bytes (addr : NetipAddr) (h : addr.wellFormed) :
    ∃ a b c d, headerAddr addr = [a, b, c, d] ∧ a < 256 ∧ b < 256 ∧ c < 256 ∧ d < 256 := by
  cases addr with
  | zero => exact ⟨0, 0, 0, 0, rfl, by decide, by decide, by decide, by decide⟩
  | ip4 a b c d => exact ⟨a, b, c, d, rfl, h.1, h.2.1, h.2.2.1, h.2.2.2⟩
  | ip6 bytes => exact ⟨0, 0, 0, 0, rfl, by decide, by decide, by decide, by decide⟩

theorem totalLen_bytes (n : Int) :
    ((byteOfInt (i64 (20 + n) >>> (8 : Nat)) * 256 + byteOfInt (i64 (20 + n)) : Nat) : Int)
      = (20 + n) % 2 ^ 16 := by
  unfold byteOfInt
  rw [Int.shiftRight_eq_div_pow]
  unfold i64
  omega

/-- C13: for every source and destination address and every payload length
`n` (non-negative or not), synthesizeIPv4Header returns 20 bytes with byte 0 = 0x45,
byte 8 = 64, byte 9 = 1, bytes 2..3 the big-endian value of
(20 + n) mod 2^16, and a checksum in bytes 10..11 for which the
one's-complement sum of the ten big-endian words of the header is 0xFFFF. -/
theorem C13_synthesized_header_checksum (src dst : NetipAddr) (n : Int)
    (hsrc : src.wellFormed) (hdst : dst.wellFormed) :
    ∃ hdr, synthesizeIPv4Header src dst n = some hdr ∧ hdr.length = 20 ∧
      hdr.getD 0 0 = 0x45 ∧ hdr.getD 8 0 = 64 ∧ hdr.getD 9 0 = 1 ∧
      ((hdr.getD 2 0 * 256 + hdr.getD 3 0 : Nat) : Int) = (20 + n) % 2 ^ 16 ∧
      (beWords hdr).length = 10 ∧ onesSum (beWords hdr) = 0xFFFF := by
  obtain ⟨s0, s1, s2, s3, hs, hs0, hs1, hs2, hs3⟩ := headerAddr_bytes src hsrc
  obtain ⟨d0, d1, d2, d3, hd, hd0, hd1, hd2, hd3⟩ := headerAddr_bytes dst hdst
  have hlen := totalLen_bytes n
  obtain ⟨c, hc, hsum⟩ := header_checksum (byteOfInt (i64 (20 + n) >>> (8 : Nat)))
    (byteOfInt (i64 (20 + n))) s0 s1 s2 s3 d0 d1 d2 d3 (byteOfInt_lt _) (byteOfInt_lt _)
    hs0 hs1 hs2 hs3 hd0 hd1 hd2 hd3
  unfold synthesizeIPv4Header
  simp only [hs, hd, List.cons_append, List.nil_append, hc, List.set_cons_succ,
    List.set_cons_zero]
  exact ⟨_, rfl, rfl, rfl, rfl, rfl, hlen, rfl, hsum⟩

/-- C13 instance: an echo reply of 8 bytes from 10.0.0.1. -/
theorem C13_synthesized_header_checksum_witness :
    ∃ hdr, synthesizeIPv4Header (NetipAddr.ip4 10 0 0 1) (NetipAddr.ip4 0 0 0 0) 8 = some hdr ∧
      hdr.length = 20 ∧ hdr.getD 0 0 = 0x45 ∧ hdr.getD 8 0 = 64 ∧ hdr.getD 9 0 = 1 ∧
      ((hdr.getD 2 0 * 256 + hdr.getD 3 0 : Nat) : Int) = (20 + 8) % 2 ^ 16 ∧
      (beWords hdr).length = 10 ∧ onesSum (beWords hdr) = 0xFFFF :=
  C13_synthesized_header_checksum (NetipAddr.ip4 10 0 0 1) (NetipAddr.ip4 0 0 0 0) 8
    ⟨by decide, by decide, by decide, by decide⟩
    ⟨by decide, by decide, by decide, by decide⟩

/-! ## C14: gathering buffers and the count WSASend reports -/

theorem contents_cons (b : wsaBuf) (bufs : List wsaBuf) :
    contents (b :: bufs) = b.Buf.take b.Len ++ contents bufs := by
  simp [contents, List.flatMap_cons]

theorem sumLen_cons (b : wsaBuf) (bufs : List wsaBuf) :
    sumLen (b :: bufs) = b.Len + sumLen bufs := by
  simp [sumLen]

theorem gather_fold (bufs : List wsaBuf) : ∀ out : List Nat,
    bufs.foldl (fun out b => out ++ b.Buf.take b.Len) out = out ++ contents bufs := by
  induction bufs with
  | nil => intro out; simp [contents]
  | cons b rest ih =>
    intro out
    rw [List.foldl_cons, ih, contents_cons, List.append_assoc]

/-- The slice gatherBuffers returns is the concatenation of the buffers. -/
theorem gatherBuffers_eq (bufs : List wsaBuf) (count : Nat) :
    gatherBuffers bufs count = contents (bufs.take count) := by
  unfold gatherBuffers
  rw [gather_fold, List.nil_append]

theorem contents_length (bufs : List wsaBuf) (h : ∀ b ∈ bufs, b.valid) :
    (contents bufs).length = sumLen bufs := by
  induction bufs with
  | nil => rfl
  | cons b rest ih =>
    have hb : b.Len ≤ b.Buf.length := h b (List.mem_cons_self _ _)
    rw [contents_cons, sumLen_cons, List.length_append, List.length_take,
      ih (fun x hx => h x (List.mem_cons_of_mem _ hx))]
    omega

/-- Synchronous GoWSASend on a socket with a connection, when the write
reports no error. -/
theorem GoWSASend_sync (w : World) (s : Nat) (bufs : List wsaBuf) (count : Nat)
    (sent : Option Nat) (write : List Nat → Nat × Option GoError) (c : Conn)
    (hc : (w.registry.Get s).bind (fun st => st.Conn) = some c) (hcount : count ≠ 0)
    (herr : (write (gatherBuffers bufs count)).2 = none) :
    GoWSASend w s (some bufs) count sent none write
      = (0, w, sent.map (fun _ => u32 (write (gatherBuffers bufs count)).1)) := by
  unfold GoWSASend
  rw [hc]
  simp only [hcount, if_false, herr]

/-- When synchronous GoWSASend returns 0, the write reported no error. -/
theorem GoWSASend_ok_noerr (w : World) (s : Nat) (bufs : List wsaBuf) (count : Nat)
    (sent : Option Nat) (write : List Nat → Nat × Option GoError)
    (hret : (GoWSASend w s (some bufs) count sent none write).1 = 0) :
    (∃ c, (w.registry.Get s).bind (fun st => st.Conn) = some c) ∧ count ≠ 0 ∧
    (write (gatherBuffers bufs count)).2 = none := by
  unfold GoWSASend at hret
  cases hc : (w.registry.Get s).bind (fun st => st.Conn) with
  | none => rw [hc] at hret; simp at hret
  | some c =>
    rw [hc] at hret
    by_cases h0 : count = 0
    · simp [h0] at hret
    · cases he : (write (gatherBuffers bufs count)).2 with
      | some e => simp [h0, he] at hret
      | none => exact ⟨⟨c, rfl⟩, h0, rfl⟩

/-- The 2 GiB buffer is a valid WSABUF. -/
theorem twoGiB_valid : twoGiB.valid := by
  show 2147483648 ≤ (List.replicate 2147483648 0).length
  rw [List.length_replicate]

/-- C14 (counterexample): two buffers of 2^31 bytes each, sent synchronously
on the connected socket 1001 over an endpoint that accepts all bytes offered:
GoWSASend returns 0 and stores 0 in `*lpNumberOfBytesSent`, while the sum of
the buffer lengths is 2^32. -/
theorem C14_four_gib_counterexample :
    GoWSASend worldConnectedWithEvent 1001 (some [twoGiB, twoGiB]) 2 (some 7) none writeAll
      = (0, worldConnectedWithEvent, some 0) ∧
    sumLen [twoGiB, twoGiB] = 4294967296 := by
  have hs : sumLen [twoGiB, twoGiB] = 4294967296 := rfl
  have hv : ∀ b ∈ List.take 2 [twoGiB, twoGiB], b.valid := by
    intro b hb
    simp only [List.take_succ_cons, List.take_zero, List.mem_cons, List.mem_singleton,
      List.mem_nil_iff, or_false, or_self] at hb
    rw [hb]
    exact twoGiB_valid
  refine ⟨?_, hs⟩
  rw [GoWSASend_sync worldConnectedWithEvent 1001 [twoGiB, twoGiB] 2 (some 7) writeAll
    ⟨1, true, false, true, true⟩ (by decide) (by decide) rfl]
  have hl : (writeAll (gatherBuffers [twoGiB, twoGiB] 2)).1 = 4294967296 := by
    unfold writeAll
    rw [gatherBuffers_eq, contents_length _ hv]
    exact hs
  rw [hl]
  rfl

/-- C14 (amended): gatherBuffers returns the concatenation of the buffers'
contents in array order, of length the sum of the Len fields; and whenever
synchronous GoWSASend returns 0 over an endpoint whose Write accepts all
bytes offered, `*lpNumberOfBytesSent` is that sum reduced modulo 2^32, hence
the sum itself when the sum is below 2^32. -/
theorem C14_gather_and_bytes_sent (w : World) (s : Nat) (bufs : List wsaBuf) (count sent : Nat)
    (write : List Nat → Nat × Option GoError)
    (hvalid : ∀ b ∈ bufs.take count, b.valid)
    (hall : (write (gatherBuffers bufs count)).1 = (gatherBuffers bufs count).length)
    (hret : (GoWSASend w s (some bufs) count (some sent) none write).1 = 0) :
    gatherBuffers bufs count = contents (bufs.take count) ∧
    (gatherBuffers bufs count).length = sumLen (bufs.take count) ∧
    (GoWSASend w s (some bufs) count (some sent) none write).2.2
      = some (sumLen (bufs.take count) % 2 ^ 32) ∧
    (sumLen (bufs.take count) < 2 ^ 32 →
      (GoWSASend w s (some bufs) count (some sent) none write).2.2
        = some (sumLen (bufs.take count))) := by
  have hlen : (gatherBuffers bufs count).length = sumLen (bufs.take count) := by
    rw [gatherBuffers_eq, contents_length _ hvalid]
  obtain ⟨⟨c, hc⟩, h0, herr⟩ := GoWSASend_ok_noerr w s bufs count (some sent) write hret
  have hsend := GoWSASend_sync w s bufs count (some sent) write c hc h0 herr
  rw [hall, hlen] at hsend
  refine ⟨gatherBuffers_eq bufs count, hlen, ?_, ?_⟩
  · rw [hsend]; rfl
  · intro hlt
    rw [hsend]
    simp only [Option.map_some', u32, Nat.mod_eq_of_lt hlt]

/-- C14 instance: "he" and "llo" sent from two buffers on the connected
socket 1001; five bytes are reported. -/
theorem C14_gather_and_bytes_sent_witness :
    gatherBuffers [⟨2, goBytes "he"⟩, ⟨3, goBytes "llo"⟩] 2
      = contents (List.take 2 [⟨2, goBytes "he"⟩, ⟨3, goBytes "llo"⟩]) ∧
    (gatherBuffers [⟨2, goBytes "he"⟩, ⟨3, goBytes "llo"⟩] 2).length
      = sumLen (List.take 2 [⟨2, goBytes "he"⟩, ⟨3, goBytes "llo"⟩]) ∧
    (GoWSASend worldConnectedWithEvent 1001 (some [⟨2, goBytes "he"⟩, ⟨3, goBytes "llo"⟩]) 2
        (some 0) none writeAll).2.2
      = some (sumLen (List.take 2 [⟨2, goBytes "he"⟩, ⟨3, goBytes "llo"⟩]) % 2 ^ 32) ∧
    (sumLen (List.take 2 [⟨2, goBytes "he"⟩, ⟨3, goBytes "llo"⟩]) < 2 ^ 32 →
      (GoWSASend worldConnectedWithEvent 1001 (some [⟨2, goBytes "he"⟩, ⟨3, goBytes "llo"⟩]) 2
          (some 0) none writeAll).2.2
        = some (sumLen (List.take 2 [⟨2, goBytes "he"⟩, ⟨3, goBytes "llo"⟩]))) :=
  C14_gather_and_bytes_sent worldConnectedWithEvent 1001
    [⟨2, goBytes "he"⟩, ⟨3, goBytes "llo"⟩] 2 0 writeAll
    (by decide) (by decide) (by decide)

/-! ## C15: scattering received bytes -/

/-- The loop of scatterBuffers from offset `off`: the offset it ends with, the
contents of the entries afterwards, and the number of entries. -/
theorem scatterLoop_spec (data : List Nat) : ∀ (bufs : List wsaBuf) (off : Nat),
    (∀ b ∈ bufs, b.valid) → off ≤ data.length →
    (scatterLoop data bufs off).1 = off + min (data.length - off) (sumLen bufs) ∧
    contents (scatterLoop data bufs off).2
      = (data.drop off).take (sumLen bufs) ++ (contents bufs).drop (data.length - off) ∧
    (scatterLoop data bufs off).2.length = bufs.length := by
  intro bufs
  induction bufs with
  | nil =>
    intro off _ _
    simp [scatterLoop, sumLen, contents]
  | cons b rest ih =>
    intro off hv hoff
    have hb : b.Len ≤ b.Buf.length := hv b (List.mem_cons_self _ _)
    have hrest : ∀ x ∈ rest, x.valid := fun x hx => hv x (List.mem_cons_of_mem _ hx)
    have hT : (b.Buf.take b.Len).length = b.Len := by
      rw [List.length_take]; omega
    have hR : (data.drop off).length = data.length - off := List.length_drop _ _
    have hstored : (goCopy (b.Buf.take b.Len) (data.drop off) ++ b.Buf.drop b.Len).take b.Len
        = (data.drop off).take b.Len ++ (b.Buf.take b.Len).drop (data.length - off) := by
      unfold goCopy
      rw [hT, hR]
      apply List.take_left'
      simp only [List.length_append, List.length_take, List.length_drop]
      omega
    rw [scatterLoop]
    simp only [hT, hR]
    by_cases hdone : off + min b.Len (data.length - off) ≥ data.length
    · rw [if_pos hdone]
      have hle : data.length - off ≤ b.Len := by omega
      have a1 : (data.drop off).take b.Len = data.drop off :=
        List.take_of_length_le (by rw [hR]; omega)
      have a2 : (data.drop off).take (b.Len + sumLen rest) = data.drop off :=
        List.take_of_length_le (by rw [hR]; omega)
      have a3 : (b.Buf.take b.Len ++ contents rest).drop (data.length - off)
          = (b.Buf.take b.Len).drop (data.length - off) ++ contents rest :=
        List.drop_append_of_le_length (by rw [hT]; omega)
      refine ⟨?_, ?_, ?_⟩
      · show off + min b.Len (data.length - off) = _
        rw [sumLen_cons]; omega
      · show contents (_ :: rest) = _
        rw [contents_cons]
        show (goCopy (b.Buf.take b.Len) (data.drop off) ++ b.Buf.drop b.Len).take b.Len
          ++ contents rest = _
        rw [hstored, contents_cons, sumLen_cons, a1, a2, a3, List.append_assoc]
      · rfl
    · rw [if_neg hdone]
      have hlt : b.Len < data.length - off := by omega
      have hmin : min b.Len (data.length - off) = b.Len := by omega
      obtain ⟨ih1, ih2, ih3⟩ := ih (off + b.Len) hrest (by omega)
      have b1 : (b.Buf.take b.Len).drop (data.length - off) = [] :=
        List.drop_of_length_le (by rw [hT]; omega)
      have b2 : (data.drop off).take (b.Len + sumLen rest)
          = (data.drop off).take b.Len ++ (data.drop (off + b.Len)).take (sumLen rest) := by
        rw [List.take_add, List.drop_drop]
      have b3 : (b.Buf.take b.Len ++ contents rest).drop (data.length - off)
          = (contents rest).drop (data.length - (off + b.Len)) := by
        rw [List.drop_append_eq_append_drop, b1, List.nil_append, hT]
        congr 1
        omega
      rw [hmin]
      refine ⟨?_, ?_, ?_⟩
      · show (scatterLoop data rest (off + b.Len)).1 = _
        rw [ih1, sumLen_cons]; omega
      · show contents (_ :: (scatterLoop data rest (off + b.Len)).2) = _
        rw [contents_cons]
        show (goCopy (b.Buf.take b.Len) (data.drop off) ++ b.Buf.drop b.Len).take b.Len
          ++ contents (scatterLoop data rest (off + b.Len)).2 = _
        rw [hstored, ih2, contents_cons, sumLen_cons, b1, List.append_nil, b2, b3,
          List.append_assoc]
      · show (_ :: (scatterLoop data rest (off + b.Len)).2).length = _
        rw [List.length_cons, ih3, List.length_cons]

theorem totalCap_fold (bufs : List wsaBuf) : ∀ t : Nat,
    bufs.foldl (fun t b => t + b.Len) t = t + sumLen bufs := by
  induction bufs with
  | nil => intro t; simp [sumLen]
  | cons b rest ih =>
    intro t
    rw [List.foldl_cons, ih, sumLen_cons, Nat.add_assoc]

theorem totalCap_eq (bufs : List wsaBuf) : totalCap bufs = sumLen bufs := by
  unfold totalCap
  rw [totalCap_fold, Nat.zero_add]

/-- What scatterBuffers returns and stores, for an array of valid buffers. -/
theorem scatterBuffers_spec (bufs : List wsaBuf) (count : Nat) (data : List Nat)
    (hv : ∀ b ∈ bufs.take count, b.valid) :
    (scatterBuffers bufs count data).1 = u32 (min data.length (sumLen (bufs.take count))) ∧
    contents ((scatterBuffers bufs count data).2.take count)
      = data.take (sumLen (bufs.take count)) ++ (contents (bufs.take count)).drop data.length := by
  obtain ⟨h1, h2, h3⟩ := scatterLoop_spec data (bufs.take count) 0 hv (Nat.zero_le _)
  rw [Nat.zero_add, Nat.sub_zero] at h1
  rw [List.drop_zero, Nat.sub_zero] at h2
  unfold scatterBuffers
  refine ⟨by rw [h1], ?_⟩
  show contents (((scatterLoop data (bufs.take count) 0).2 ++ bufs.drop count).take count) = _
  have htake : ((scatterLoop data (bufs.take count) 0).2 ++ bufs.drop count).take count
      = (scatterLoop data (bufs.take count) 0).2 := by
    by_cases hc : count ≤ bufs.length
    · apply List.take_left'
      rw [h3, List.length_take]; omega
    · rw [List.drop_of_length_le (by omega), List.append_nil]
      apply List.take_of_length_le
      rw [h3, List.length_take]; omega
  rw [htake, h2]

/-- C15 (counterexample): four GiB of data scattered into two buffers of
2^31 bytes each, whose capacity is exactly the length of the data:
scatterBuffers returns 0, not len(data) = 2^32. -/
theorem C15_four_gib_counterexample :
    (scatterBuffers [twoGiB, twoGiB] 2 fourGiBData).1 = 0 ∧
    fourGiBData.length = 4294967296 ∧
    fourGiBData.length ≤ sumLen [twoGiB, twoGiB] := by
  have hl : fourGiBData.length = 4294967296 := by
    unfold fourGiBData
    rw [List.length_replicate]
  have hs : sumLen (List.take 2 [twoGiB, twoGiB]) = 4294967296 := rfl
  have hs2 : sumLen [twoGiB, twoGiB] = 4294967296 := rfl
  have hv : ∀ b ∈ List.take 2 [twoGiB, twoGiB], b.valid := by
    intro b hb
    simp only [List.take_succ_cons, List.take_zero, List.mem_cons, List.mem_singleton,
      List.mem_nil_iff, or_false, or_self] at hb
    rw [hb]
    exact twoGiB_valid
  refine ⟨?_, hl, ?_⟩
  · rw [(scatterBuffers_spec [twoGiB, twoGiB] 2 fourGiBData hv).1, hl, hs]
    rfl
  · rw [hl, hs2]

/-- C15 (amended): for every array of valid buffers and every byte string
`data`, scatterBuffers returns min(len(data), capacity) reduced modulo 2^32;
when `data` is no longer than the capacity the concatenation of the buffers
afterwards is `data` followed by what was there before, and the value
returned is len(data) when that is below 2^32; when `data` is longer, the
buffers hold the first capacity bytes of `data`, and the value returned is the
capacity when that is below 2^32.  When synchronous GoWSARecv returns 0 and
the read delivered `n` bytes (no more than the buffer it was given), the
scatter array begins with those bytes and `*lpNumberOfBytesRecvd` is `n`
modulo 2^32. -/
theorem C15_scatter_prefix_stored (w : World) (s : Nat) (bufs : List wsaBuf) (count : Nat)
    (data : List Nat) (recvd : Nat) (read : Nat → List Nat × Option GoError)
    (hv : ∀ b ∈ bufs.take count, b.valid) :
    (scatterBuffers bufs count data).1
      = min data.length (sumLen (bufs.take count)) % 2 ^ 32 ∧
    (data.length ≤ sumLen (bufs.take count) →
      (data.length < 2 ^ 32 → (scatterBuffers bufs count data).1 = data.length) ∧
      contents ((scatterBuffers bufs count data).2.take count)
        = data ++ (contents (bufs.take count)).drop data.length) ∧
    (sumLen (bufs.take count) < data.length →
      (sumLen (bufs.take count) < 2 ^ 32 →
        (scatterBuffers bufs count data).1 = sumLen (bufs.take count)) ∧
      contents ((scatterBuffers bufs count data).2.take count)
        = data.take (sumLen (bufs.take count))) ∧
    ((GoWSARecv w s (some bufs) count (some recvd) none read).1 = 0 →
      (read (totalCap (bufs.take count))).1.length ≤ totalCap (bufs.take count) →
      ∃ after, (GoWSARecv w s (some bufs) count (some recvd) none read).2.2.1 = some after ∧
        contents (after.take count)
          = (read (totalCap (bufs.take count))).1
            ++ (contents (bufs.take count)).drop (read (totalCap (bufs.take count))).1.length ∧
        (GoWSARecv w s (some bufs) count (some recvd) none read).2.2.2
          = some ((read (totalCap (bufs.take count))).1.length % 2 ^ 32)) := by
  obtain ⟨h1, h2⟩ := scatterBuffers_spec bufs count data hv
  have hclen := contents_length _ hv
  refine ⟨h1, ?_, ?_, ?_⟩
  · intro hle
    refine ⟨?_, ?_⟩
    · intro hlt
      rw [h1, Nat.min_eq_left hle]
      exact Nat.mod_eq_of_lt hlt
    · rw [h2, List.take_of_length_le hle]
  · intro hlt
    refine ⟨?_, ?_⟩
    · intro hlt2
      rw [h1, Nat.min_eq_right (Nat.le_of_lt hlt)]
      exact Nat.mod_eq_of_lt hlt2
    · rw [h2, List.drop_of_length_le (by rw [hclen]; omega), List.append_nil]
  · intro hret hcontract
    unfold GoWSARecv at hret ⊢
    cases hc : (w.registry.Get s).bind (fun st => st.Conn) with
    | none => rw [hc] at hret; simp at hret
    | some c =>
      rw [hc] at hret
      by_cases h0 : count = 0
      · simp [h0] at hret
      · simp only [h0, if_false] at hret ⊢
        by_cases herr : (read (totalCap (bufs.take count))).2.isSome ∧
            (read (totalCap (bufs.take count))).1.length = 0
        · rw [if_pos herr] at hret
          simp at hret
        · rw [if_neg herr]
          have htmp : (goCopy (List.replicate (totalCap (bufs.take count)) 0)
              (read (totalCap (bufs.take count))).1).take
                (read (totalCap (bufs.take count))).1.length
              = (read (totalCap (bufs.take count))).1 := by
            unfold goCopy
            rw [List.length_replicate, List.take_of_length_le hcontract]
            exact List.take_left _ _
          rw [htmp]
          by_cases hn : (read (totalCap (bufs.take count))).1.length > 0
          · rw [if_pos hn]
            obtain ⟨_, g2⟩ := scatterBuffers_spec bufs count
              (read (totalCap (bufs.take count))).1 hv
            refine ⟨_, rfl, ?_, rfl⟩
            rw [g2, List.take_of_length_le (by rw [← totalCap_eq]; exact hcontract)]
          · rw [if_neg hn]
            have hz : (read (totalCap (bufs.take count))).1 = [] :=
              List.eq_nil_of_length_eq_zero (by omega)
            refine ⟨_, rfl, ?_, rfl⟩
            rw [hz, List.nil_append, List.length_nil, List.drop_zero]

/-- C15 instance: "hello" read on the connected socket 1001 into buffers of
2 and 6 bytes. -/
theorem C15_scatter_prefix_stored_witness :
    ∃ after, (GoWSARecv worldConnectedWithEvent 1001
        (some [⟨2, [0, 0]⟩, ⟨6, [0, 0, 0, 0, 0, 0]⟩]) 2 (some 0) none readHello).2.2.1
          = some after ∧
      contents (after.take 2)
        = (readHello (totalCap (List.take 2 [⟨2, [0, 0]⟩, ⟨6, [0, 0, 0, 0, 0, 0]⟩]))).1
          ++ (contents (List.take 2 [⟨2, [0, 0]⟩, ⟨6, [0, 0, 0, 0, 0, 0]⟩])).drop
            (readHello (totalCap (List.take 2 [⟨2, [0, 0]⟩, ⟨6, [0, 0, 0, 0, 0, 0]⟩]))).1.length ∧
      (GoWSARecv worldConnectedWithEvent 1001
        (some [⟨2, [0, 0]⟩, ⟨6, [0, 0, 0, 0, 0, 0]⟩]) 2 (some 0) none readHello).2.2.2
          = some ((readHello
              (totalCap (List.take 2 [⟨2, [0, 0]⟩, ⟨6, [0, 0, 0, 0, 0, 0]⟩]))).1.length
            % 2 ^ 32) :=
  (C15_scatter_prefix_stored worldConnectedWithEvent 1001
    [⟨2, [0, 0]⟩, ⟨6, [0, 0, 0, 0, 0, 0]⟩] 2 [] 0 readHello (by decide)).2.2.2
    (by decide) (by decide)

/-! ## C17: WSAGetOverlappedResult without waiting -/

/-- C17: with a non-nil `lpOverlapped` and `fWait = 0`,
GoWSAGetOverlappedResult returns 1 with `*lpcbTransfer = 0` when the key has
no tracking entry; returns 0 with last-error WSA_IO_INCOMPLETE when the entry
is not complete; returns 0 with last-error = Error when the entry is complete
with a non-zero Error; and otherwise returns 1 with
`*lpcbTransfer = BytesTransferred` and `*lpdwFlags = Flags`, the last-error
cell untouched.  In every case the key has no tracking entry afterwards.  With
`lpOverlapped = nil` it returns 0 with last-error WSAEINVAL. -/
theorem C17_overlapped_result_cases (w : World) (ov : wsaOverlapped) (cb fl : Option Nat)
    (fWait : Int) :
    (mapGet w.registry.overlapped ov.addr = none →
      GoWSAGetOverlappedResult w (some ov) cb 0 fl
        = Call.returned (1, w, cb.map (fun _ => 0), fl)) ∧
    (∀ r, mapGet w.registry.overlapped ov.addr = some r →
      ∃ w1, w1.registry = { w.registry with overlapped := mapDel w.registry.overlapped ov.addr } ∧
        mapGet w1.registry.overlapped ov.addr = none ∧
        (r.Complete = false →
          w1.lastError = WSA_IO_INCOMPLETE ∧
          GoWSAGetOverlappedResult w (some ov) cb 0 fl
            = Call.returned (0, w1, cb.map (fun _ => r.BytesTransferred),
                fl.map (fun _ => r.Flags))) ∧
        (r.Complete = true → r.Error ≠ 0 →
          w1.lastError = r.Error ∧
          GoWSAGetOverlappedResult w (some ov) cb 0 fl
            = Call.returned (0, w1, cb.map (fun _ => r.BytesTransferred),
                fl.map (fun _ => r.Flags))) ∧
        (r.Complete = true → r.Error = 0 →
          w1.lastError = w.lastError ∧
          GoWSAGetOverlappedResult w (some ov) cb 0 fl
            = Call.returned (1, w1, cb.map (fun _ => r.BytesTransferred),
                fl.map (fun _ => r.Flags)))) ∧
    GoWSAGetOverlappedResult w none cb fWait fl
      = Call.returned (0, setLastError w WSAEINVAL, cb, fl) := by
  refine ⟨?_, ?_, rfl⟩
  · intro hnone
    simp [GoWSAGetOverlappedResult, socketRegistry.GetOverlappedResult, hnone]
  · intro r hr
    by_cases hcomp : r.Complete = true
    · by_cases herr : r.Error = 0
      · refine ⟨{ w with registry :=
            { w.registry with overlapped := mapDel w.registry.overlapped ov.addr } },
          rfl, mapGet_mapDel_same _ _, ?_, ?_, ?_⟩
        · intro h; rw [hcomp] at h; exact absurd h (by decide)
        · intro _ h; exact absurd herr h
        · intro _ _
          refine ⟨rfl, ?_⟩
          simp [GoWSAGetOverlappedResult, socketRegistry.GetOverlappedResult, hr, hcomp, herr]
      · refine ⟨setLastError { w with registry :=
            { w.registry with overlapped := mapDel w.registry.overlapped ov.addr } } r.Error,
          rfl, mapGet_mapDel_same _ _, ?_, ?_, ?_⟩
        · intro h; rw [hcomp] at h; exact absurd h (by decide)
        · intro _ _
          refine ⟨rfl, ?_⟩
          simp [GoWSAGetOverlappedResult, socketRegistry.GetOverlappedResult, hr, hcomp, herr]
        · intro _ h; exact absurd h herr
    · have hf : r.Complete = false := by
        cases h : r.Complete
        · rfl
        · exact absurd h hcomp
      refine ⟨setLastError { w with registry :=
          { w.registry with overlapped := mapDel w.registry.overlapped ov.addr } }
          WSA_IO_INCOMPLETE,
        rfl, mapGet_mapDel_same _ _, ?_, ?_, ?_⟩
      · intro _
        refine ⟨rfl, ?_⟩
        simp [GoWSAGetOverlappedResult, socketRegistry.GetOverlappedResult, hr, hf]
      · intro h; exact absurd h hcomp
      · intro h; exact absurd h hcomp

/-- C17 instance: the completed operation keyed 4096 (5 bytes, flags 0, no
error) is reported with return value 1 and removed. -/
theorem C17_overlapped_result_cases_witness :
    ∃ w1, w1.registry = { worldOverlappedDone.registry with
          overlapped := mapDel worldOverlappedDone.registry.overlapped 4096 } ∧
      mapGet w1.registry.overlapped 4096 = none ∧
      w1.lastError = worldOverlappedDone.lastError ∧
      GoWSAGetOverlappedResult worldOverlappedDone (some ⟨4096, 0⟩) (some 99) 0 (some 99)
        = Call.returned (1, w1, some 5, some 0) := by
  obtain ⟨w1, h1, h2, _, _, h5⟩ :=
    (C17_overlapped_result_cases worldOverlappedDone ⟨4096, 0⟩ (some 99) (some 99) 0).2.1
      ⟨5, 0, true, 0⟩ (by decide)
  exact ⟨w1, h1, h2, (h5 rfl rfl).1, (h5 rfl rfl).2⟩

/-! ## C20: balance of WSAStartup and WSACleanup -/

theorem startups_count (args : List (Nat × Option wsaData × Bool)) : ∀ L : Lifecycle,
    (startups L args).wsaRefCount = L.wsaRefCount + args.length ∧
    (startups L args).teardown = L.teardown ∧
    (startups L args).world = L.world := by
  induction args with
  | nil => intro L; simp [startups]
  | cons a rest ih =>
    intro L
    obtain ⟨h1, h2, h3⟩ := ih (GoWSAStartup L a.1 a.2.1 a.2.2).2.1
    unfold startups at h1 h2 h3 ⊢
    rw [List.foldl_cons, h1, h2, h3]
    refine ⟨?_, rfl, rfl⟩
    simp only [GoWSAStartup, List.length_cons]
    push_cast
    omega

/-- From a count of `n`, the first `k < n` cleanups only count down, and the
`n`-th runs the teardown. -/
theorem cleanups_count (L : Lifecycle) (n : Nat) (hn : L.wsaRefCount = n) :
    ∀ k, (k < n → cleanups L k = { L with wsaRefCount := (n : Int) - k }) ∧
      (k = n → 1 ≤ n → cleanups L k = runTeardown { L with wsaRefCount := 0 }) := by
  intro k
  induction k with
  | zero =>
    refine ⟨?_, ?_⟩
    · intro _
      show L = _
      simp [← hn]
    · intro h1 h2; omega
  | succ k ih =>
    refine ⟨?_, ?_⟩
    · intro hk
      have hprev := ih.1 (by omega)
      show (GoWSACleanup (cleanups L k)).2 = _
      rw [hprev]
      have hpos : ((n : Int) - k) > 0 := by omega
      have hne : ¬ ((n : Int) - k - 1 = 0) := by omega
      simp only [GoWSACleanup, hpos, if_true, hne, if_false]
      congr 1
      push_cast
      omega
    · intro hk _
      have hprev := ih.1 (by omega)
      show (GoWSACleanup (cleanups L k)).2 = _
      rw [hprev]
      have hpos : ((n : Int) - k) > 0 := by omega
      have hz : ((n : Int) - k - 1 = 0) := by omega
      simp only [GoWSACleanup, hpos, if_true, hz]

/-- C20: from a reference count of 0, after `N >= 1` calls of GoWSAStartup
the count is `N`; the first `k < N` calls of GoWSACleanup that follow leave
the count at `N - k` and run no teardown; the `N`-th leaves the count at 0 and
runs registry.PurgeAll and CloseStack, once each.  A GoWSACleanup at count 0
changes nothing. -/
theorem C20_startup_cleanup_balance (L : Lifecycle)
    (args : List (Nat × Option wsaData × Bool)) (h0 : L.wsaRefCount = 0)
    (hN : 1 ≤ args.length) :
    (∀ j, j ≤ args.length → (startups L (args.take j)).wsaRefCount = j ∧
       (startups L (args.take j)).teardown = L.teardown) ∧
    (∀ k, k < args.length →
       (cleanups (startups L args) k).wsaRefCount = (args.length : Int) - k ∧
       0 < (cleanups (startups L args) k).wsaRefCount ∧
       (cleanups (startups L args) k).teardown = L.teardown) ∧
    (cleanups (startups L args) args.length).wsaRefCount = 0 ∧
    (cleanups (startups L args) args.length).teardown
      = L.teardown ++ [TeardownCall.PurgeAll, TeardownCall.CloseStack] ∧
    (cleanups (startups L args) args.length).world.registry
      = L.world.registry.PurgeAll.1 ∧
    GoWSACleanup L = (0, L) ∧
    GoWSACleanup (cleanups (startups L args) args.length)
      = (0, cleanups (startups L args) args.length) := by
  obtain ⟨s1, s2, s3⟩ := startups_count args L
  rw [h0, Int.zero_add] at s1
  have hc := cleanups_count (startups L args) args.length s1
  have hfin := (hc args.length).2 rfl hN
  refine ⟨?_, ?_, ?_, ?_, ?_, ?_, ?_⟩
  · intro j hj
    obtain ⟨t1, t2, _⟩ := startups_count (args.take j) L
    rw [t1, t2, h0, List.length_take, Nat.min_eq_left hj]
    exact ⟨by omega, rfl⟩
  · intro k hk
    rw [(hc k).1 hk]
    exact ⟨rfl, by show (0 : Int) < (args.length : Int) - k; omega, s2⟩
  · rw [hfin]; rfl
  · rw [hfin]
    show (startups L args).teardown ++ _ = _
    rw [s2]
  · rw [hfin]
    show (startups L args).world.registry.PurgeAll.1 = _
    rw [s3]
  · simp [GoWSACleanup, h0]
  · rw [hfin]
    simp [GoWSACleanup, runTeardown]

/-- C20 instance: three startups and three cleanups from the state at program
start. -/
theorem C20_startup_cleanup_balance_witness :
    (cleanups (startups (Lifecycle.init true)
      [(0x0202, none, true), (0x0202, none, true), (0x0101, none, false)]) 3).wsaRefCount = 0 ∧
    (cleanups (startups (Lifecycle.init true)
      [(0x0202, none, true), (0x0202, none, true), (0x0101, none, false)]) 3).teardown
      = (Lifecycle.init true).teardown ++ [TeardownCall.PurgeAll, TeardownCall.CloseStack] :=
  ⟨(C20_startup_cleanup_balance (Lifecycle.init true)
      [(0x0202, none, true), (0x0202, none, true), (0x0101, none, false)] rfl
      (by decide)).2.2.1,
   (C20_startup_cleanup_balance (Lifecycle.init true)
      [(0x0202, none, true), (0x0202, none, true), (0x0101, none, false)] rfl
      (by decide)).2.2.2.1⟩

/-! ## C18: the sets select returns -/

/-- The scan loop collects the registered, ready handles of the entries it
visits, in order, and counts them. -/
theorem selectScan_spec (w : World) (check : SocketState → Nat → Bool) (ready : Nat → Nat)
    (fs : fd_set) : ∀ (n i : Nat) (res : List Nat) (c : Int), i + n ≤ fs.Array.length →
    selectScan w check ready fs n i res c
      = some (res ++ ((fs.Array.drop i).take n).filter (fun h =>
            match w.registry.Get h with
            | some st => check st (ready h)
            | none => false),
          c + (((fs.Array.drop i).take n).filter (fun h =>
            match w.registry.Get h with
            | some st => check st (ready h)
            | none => false)).length) := by
  intro n
  induction n with
  | zero => intro i res c _; simp [selectScan]
  | succ n ih =>
    intro i res c hle
    have hi : i < fs.Array.length := by omega
    have hget : fs.Array.get? i = some (fs.Array.get ⟨i, hi⟩) := List.get?_eq_get hi
    have hdrop : fs.Array.drop i = fs.Array.get ⟨i, hi⟩ :: fs.Array.drop (i + 1) :=
      List.drop_eq_getElem_cons hi
    rw [selectScan, hget, hdrop, List.take_succ_cons, List.filter_cons]
    simp only
    cases hreg : w.registry.Get (fs.Array.get ⟨i, hi⟩) with
    | none =>
      simp only [Bool.false_eq_true, if_false]
      exact ih (i + 1) res c (by omega)
    | some st =>
      simp only
      by_cases hck : check st (ready (fs.Array.get ⟨i, hi⟩)) = true
      · rw [if_pos hck, if_pos hck, ih (i + 1) _ _ (by omega)]
        simp only [List.append_assoc, List.singleton_append, List.length_cons]
        congr 2
        push_cast
        omega
      · rw [if_neg hck, if_neg hck]
        exact ih (i + 1) res c (by omega)

/-- Both scans of checkReadiness on well-formed sets. -/
theorem selectCheckReadiness_spec (w : World) (rs ws : fd_set) (ready : Nat → Nat)
    (hr : rs.Count ≤ rs.Array.length) (hw : ws.Count ≤ ws.Array.length) :
    selectCheckReadiness w (some rs) (some ws) ready
      = some (((readyHandles w checkReadReady ready rs).length : Int)
            + (readyHandles w checkWriteReady ready ws).length,
          readyHandles w checkReadReady ready rs, readyHandles w checkWriteReady ready ws) := by
  unfold selectCheckReadiness
  simp only
  rw [selectScan_spec w checkReadReady ready rs rs.Count 0 [] 0 (by omega)]
  simp only
  rw [selectScan_spec w checkWriteReady ready ws ws.Count 0 [] _ (by omega)]
  simp only [List.drop_zero, List.nil_append, Int.zero_add, readyHandles]

theorem storeResult_handles (fs : fd_set) (res : List Nat) :
    ∃ fs', storeResult (some fs) res = some fs' ∧ fs'.handles = res ∧ fs'.Count = res.length :=
  ⟨_, rfl, by simp [fd_set.handles], rfl⟩

/-- Only the low five bits of a readiness set meet a mask below 32. -/
theorem and_low_mask (r m : Nat) (hm : m < 32) : r &&& m = (r % 32) &&& m := by
  apply Nat.eq_of_testBit_eq
  intro i
  rw [Nat.testBit_and, Nat.testBit_and]
  by_cases hi : i < 5
  · have : (r % 2 ^ 5).testBit i = r.testBit i := by
      rw [Nat.testBit_mod_two_pow]; simp [hi]
    rw [show (32 : Nat) = 2 ^ 5 from rfl, this]
  · have h32 : (32 : Nat) ≤ 2 ^ i := by
      calc (32 : Nat) = 2 ^ 5 := rfl
        _ ≤ 2 ^ i := Nat.pow_le_pow_right (by decide) (by omega)
    have : m.testBit i = false := Nat.testBit_lt_two_pow (by omega)
    rw [this]; simp

/-- On five-bit readiness sets the masked probes of checkReadReady and
checkWriteReady are the disjunction of the three single-bit tests. -/
theorem low_masks_decide : ∀ y : Fin 32,
    (decide (((y : Nat) &&& (EventIn ||| EventErr ||| EventHUp))
        &&& (EventIn ||| EventErr ||| EventHUp) ≠ 0)
      = (decide ((y : Nat) &&& EventIn ≠ 0) || decide ((y : Nat) &&& EventErr ≠ 0)
          || decide ((y : Nat) &&& EventHUp ≠ 0))) ∧
    (decide (((y : Nat) &&& (EventOut ||| EventErr ||| EventHUp))
        &&& (EventOut ||| EventErr ||| EventHUp) ≠ 0)
      = (decide ((y : Nat) &&& EventOut ≠ 0) || decide ((y : Nat) &&& EventErr ≠ 0)
          || decide ((y : Nat) &&& EventHUp ≠ 0))) := by
  decide

/-- The probe checkReadReady of the code decides read-readiness. -/
theorem checkReadReady_eq (st : SocketState) (r : Nat) : checkReadReady st r = readReady st r := by
  unfold checkReadReady readReady
  have h := (low_masks_decide ⟨r % 32, Nat.mod_lt _ (by decide)⟩).1
  simp only at h
  rw [and_low_mask r (EventIn ||| EventErr ||| EventHUp) (by decide),
    and_low_mask r EventIn (by decide), and_low_mask r EventErr (by decide),
    and_low_mask r EventHUp (by decide), h]
  cases st.Endpoint
  · cases st.Listener <;> rfl
  · rfl

/-- The probe checkWriteReady of the code decides write-readiness. -/
theorem checkWriteReady_eq (st : SocketState) (r : Nat) :
    checkWriteReady st r = writeReady st r := by
  unfold checkWriteReady writeReady
  have h := (low_masks_decide ⟨r % 32, Nat.mod_lt _ (by decide)⟩).2
  simp only at h
  rw [and_low_mask r (EventOut ||| EventErr ||| EventHUp) (by decide),
    and_low_mask r EventOut (by decide), and_low_mask r EventErr (by decide),
    and_low_mask r EventHUp (by decide), h]
  cases st.Endpoint
  · cases st.Conn <;> rfl
  · rfl


/-- The handles the read scan collects are the registered, read-ready ones. -/
theorem readyHandles_read (w : World) (ready : Nat → Nat) (rs : fd_set) :
    readyHandles w checkReadReady ready rs = readReadyHandles w ready (some rs) := by
  unfold readyHandles readReadyHandles setHandles fd_set.handles
  congr 1
  funext h
  unfold selectReadReady
  cases w.registry.Get h with
  | none => rfl
  | some st => exact checkReadReady_eq st (ready h)

/-- The handles the write scan collects are the registered, write-ready ones. -/
theorem readyHandles_write (w : World) (ready : Nat → Nat) (ws : fd_set) :
    readyHandles w checkWriteReady ready ws = writeReadyHandles w ready (some ws) := by
  unfold readyHandles writeReadyHandles setHandles fd_set.handles
  congr 1
  funext h
  unfold selectWriteReady
  cases w.registry.Get h with
  | none => rfl
  | some st => exact checkWriteReady_eq st (ready h)

/-- Both scans of checkReadiness, for sets that may be nil. -/
theorem selectCheckReadiness_sets (w : World) (readfds writefds : Option fd_set)
    (ready : Nat → Nat)
    (hr : ∀ rs, readfds = some rs → rs.Count ≤ rs.Array.length)
    (hw : ∀ ws, writefds = some ws → ws.Count ≤ ws.Array.length) :
    selectCheckReadiness w readfds writefds ready
      = some (((readReadyHandles w ready readfds).length : Int)
            + (writeReadyHandles w ready writefds).length,
          readReadyHandles w ready readfds, writeReadyHandles w ready writefds) := by
  cases readfds with
  | some rs =>
    cases writefds with
    | some ws =>
      rw [selectCheckReadiness_spec w rs ws ready (hr rs rfl) (hw ws rfl),
        readyHandles_read, readyHandles_write]
    | none =>
      unfold selectCheckReadiness
      simp only
      rw [selectScan_spec w checkReadReady ready rs rs.Count 0 [] 0 (by have := hr rs rfl; omega)]
      simp only [List.drop_zero, List.nil_append, Int.zero_add]
      rw [← readyHandles_read]
      simp [readyHandles, writeReadyHandles, setHandles]
  | none =>
    cases writefds with
    | some ws =>
      unfold selectCheckReadiness
      simp only
      rw [selectScan_spec w checkWriteReady ready ws ws.Count 0 [] 0 (by have := hw ws rfl; omega)]
      simp only [List.drop_zero, List.nil_append, Int.zero_add]
      rw [← readyHandles_write]
      simp [readyHandles, readReadyHandles, setHandles]
    | none =>
      simp [selectCheckReadiness, readReadyHandles, writeReadyHandles, setHandles]

/-- The write-back leaves a nil set nil and makes a non-nil set hold the
results. -/
theorem storeResult_sets (fds : Option fd_set) (res : List Nat) (h : fds = none → res = []) :
    (storeResult fds res).isSome = fds.isSome ∧ setHandles (storeResult fds res) = res ∧
      setCount (storeResult fds res) = res.length := by
  cases fds with
  | none => simp [storeResult, setHandles, setCount, h rfl]
  | some fs => simp [storeResult, setHandles, setCount, fd_set.handles]

theorem readReadyHandles_none (w : World) (ready : Nat → Nat) (fds : Option fd_set)
    (h : fds = none) : readReadyHandles w ready fds = [] := by
  rw [h]; rfl

theorem writeReadyHandles_none (w : World) (ready : Nat → Nat) (fds : Option fd_set)
    (h : fds = none) : writeReadyHandles w ready fds = [] := by
  rw [h]; rfl

/-- C18: for sets whose Count does not exceed their Array (each of readfds,
writefds, exceptfds nil or not) and a fixed readiness state of the endpoints,
whenever GoSelect returns, a nil set is still nil, readfds holds exactly the
handles of the input readfds that are registered and read-ready (endpoint
readable, in error or hung up; without an endpoint: a listener), in their
original order, writefds those of the input writefds that are registered and
write-ready (endpoint writable, in error or hung up; without an endpoint: a
connection), exceptfds has count 0, and the value returned is
readfds.Count + writefds.Count, a nil set counting 0.  It does return unless
the timeout is nil, no handle is ready and the notification channel is never
signalled; and with a timeout of zero the result is that of the first probe,
whatever happens later. -/
theorem C18_select_returns_ready_sets (w : World) (readfds writefds exceptfds : Option fd_set)
    (timeout : Option timeval) (ready : Nat → Nat) (woken : Bool)
    (hr : ∀ rs, readfds = some rs → rs.Count ≤ rs.Array.length)
    (hw : ∀ ws, writefds = some ws → ws.Count ≤ ws.Array.length) :
    (∀ n r1 w1 e1,
      GoSelect w readfds writefds exceptfds timeout ready ready woken
        = Call.returned (n, r1, w1, e1) →
      r1.isSome = readfds.isSome ∧ w1.isSome = writefds.isSome ∧
        e1.isSome = exceptfds.isSome ∧
        setHandles r1 = (setHandles readfds).filter (selectReadReady w ready) ∧
        setHandles w1 = (setHandles writefds).filter (selectWriteReady w ready) ∧
        (∀ es1, e1 = some es1 → es1.Count = 0) ∧
        n = (setCount r1 : Int) + setCount w1) ∧
    (timeout.isSome = true ∨ woken = true ∨
        (setHandles readfds).filter (selectReadReady w ready) ≠ [] ∨
        (setHandles writefds).filter (selectWriteReady w ready) ≠ [] →
      ∃ res, GoSelect w readfds writefds exceptfds timeout ready ready woken
        = Call.returned res) ∧
    (∀ ready2 woken2,
      GoSelect w readfds writefds exceptfds (some ⟨0, 0⟩) ready ready2 woken2
        = Call.returned
            ((((setHandles readfds).filter (selectReadReady w ready)).length : Int)
              + ((setHandles writefds).filter (selectWriteReady w ready)).length,
             storeResult readfds ((setHandles readfds).filter (selectReadReady w ready)),
             storeResult writefds ((setHandles writefds).filter (selectWriteReady w ready)),
             exceptfds.map (fun e => { e with Count := 0 }))) := by
  have hchk := selectCheckReadiness_sets w readfds writefds ready hr hw
  obtain ⟨hrs, hrh, hrc⟩ := storeResult_sets readfds (readReadyHandles w ready readfds)
    (readReadyHandles_none w ready readfds)
  obtain ⟨hws, hwh, hwc⟩ := storeResult_sets writefds (writeReadyHandles w ready writefds)
    (writeReadyHandles_none w ready writefds)
  have hes : ∀ es1, exceptfds.map (fun e => { e with Count := 0 }) = some es1 →
      es1.Count = 0 := by
    intro es1 h
    cases exceptfds with
    | none => simp at h
    | some e =>
      simp only [Option.map_some', Option.some.injEq] at h
      rw [← h]
  have hall : GoSelect w readfds writefds exceptfds timeout ready ready woken
      = Call.returned
          (((readReadyHandles w ready readfds).length : Int)
            + (writeReadyHandles w ready writefds).length,
           storeResult readfds (readReadyHandles w ready readfds),
           storeResult writefds (writeReadyHandles w ready writefds),
           exceptfds.map (fun e => { e with Count := 0 })) ∨
      (GoSelect w readfds writefds exceptfds timeout ready ready woken = Call.blocked ∧
        timeout.isNone = true ∧ woken = false ∧
        ((readReadyHandles w ready readfds).length : Int)
            + (writeReadyHandles w ready writefds).length ≤ 0) := by
    unfold GoSelect
    simp only [hchk]
    split
    · exact Or.inl rfl
    · rename_i hcond
      split
      · rename_i hblk
        refine Or.inr ⟨rfl, hblk.1, by simpa using hblk.2, ?_⟩
        have := not_or.mp hcond
        omega
      · exact Or.inl rfl
  refine ⟨?_, ?_, ?_⟩
  · intro n r1 w1 e1 hret
    rcases hall with h | h
    · rw [h] at hret
      injection hret with hret
      simp only [Prod.mk.injEq] at hret
      obtain ⟨h1, h2, h3, h4⟩ := hret
      subst h2 h3 h4
      refine ⟨hrs, hws, by simp, hrh, hwh, hes, ?_⟩
      rw [← h1, hrc, hwc]
    · rw [h.1] at hret
      exact absurd hret (by simp)
  · intro hsome
    rcases hall with h | h
    · exact ⟨_, h⟩
    · obtain ⟨_, hnone, hwk, hzero⟩ := h
      rcases hsome with h1 | h1 | h1 | h1
      · rw [Option.isNone_iff_eq_none] at hnone
        rw [hnone] at h1
        exact absurd h1 (by simp)
      · rw [hwk] at h1; exact absurd h1 (by simp)
      · have := List.length_pos.mpr h1
        unfold readReadyHandles at hzero
        omega
      · have := List.length_pos.mpr h1
        unfold writeReadyHandles at hzero
        omega
  · intro ready2 woken2
    unfold GoSelect
    simp only [hchk]
    rw [if_pos (Or.inr ⟨by simp, by simp⟩)]
    rfl


/-- C18 instance: select with a zero timeout on the connected socket 1001 and
the unknown handle 555.  With the endpoint writable and not readable the
read set comes back empty and the write set with 1001; with the endpoint
readable and writefds nil the read set comes back holding 1001, writefds is
still nil and the value returned is 1. -/
theorem C18_select_returns_ready_sets_witness :
    GoSelect worldConnectedWithEvent (some sampleReadSet) (some sampleWriteSet) none
        (some ⟨0, 0⟩) readyWritable readyWritable false
      = Call.returned
          ((((setHandles (some sampleReadSet)).filter
                (selectReadReady worldConnectedWithEvent readyWritable)).length : Int)
            + ((setHandles (some sampleWriteSet)).filter
                (selectWriteReady worldConnectedWithEvent readyWritable)).length,
           storeResult (some sampleReadSet) ((setHandles (some sampleReadSet)).filter
             (selectReadReady worldConnectedWithEvent readyWritable)),
           storeResult (some sampleWriteSet) ((setHandles (some sampleWriteSet)).filter
             (selectWriteReady worldConnectedWithEvent readyWritable)),
           (none : Option fd_set).map (fun e => { e with Count := 0 })) ∧
    (setHandles (some sampleReadSet)).filter
      (selectReadReady worldConnectedWithEvent readyWritable) = [] ∧
    (setHandles (some sampleWriteSet)).filter
      (selectWriteReady worldConnectedWithEvent readyWritable) = [1001] ∧
    (setHandles (some sampleReadSet)).filter
      (selectReadReady worldConnectedWithEvent readyReadable) = [1001] ∧
    GoSelect worldConnectedWithEvent (some sampleReadSet) none none
        (some ⟨0, 0⟩) readyReadable readyReadable false
      = Call.returned (1, some { Count := 1, Array := sampleReadSet.Array }, none, none) :=
  ⟨(C18_select_returns_ready_sets worldConnectedWithEvent (some sampleReadSet)
      (some sampleWriteSet) none (some ⟨0, 0⟩) readyWritable false
      (by intro rs h; cases h; decide) (by intro ws h; cases h; decide)).2.2 readyWritable false,
   by decide, by decide, by decide, by rfl⟩

/-! ## C19: the revents and the count WSAPoll returns -/

theorem isConnected_stream (st : SocketState) (k : Nat) (err : Option GoError)
    (hconn : st.Conn.isSome = true) : isConnected st (streamConn k err) = true := by
  unfold isConnected streamConn
  cases h : st.Conn with
  | none => rw [h] at hconn; simp at hconn
  | some c => simp

theorem putSocket_get (w : World) (s : Nat) (st : SocketState) :
    (putSocket w s st).registry.Get s = some st := by
  simp [putSocket, socketRegistry.Get, mapGet_mapSet_same]

/-- The read of GoRecv on a stream socket over the stream endpoint. -/
theorem recvRead_stream (st : SocketState) (k : Nat) (err : Option GoError) (stream : List Nat)
    (len : Nat) (window : List Nat) (htype : st.Type_ = SocketType.TypeTCP) :
    recvRead st (streamConn k err) stream len window
      = some (goCopy window (stream.take (min k window.length)),
          (stream.take (min k window.length)).length, err,
          stream.drop (min k window.length)) := by
  unfold recvRead
  rw [htype, if_neg (by decide)]
  rfl

/-- The tail of GoRecv on a stream socket: the bytes of the chunk the endpoint
hands over follow the `n` bytes already served. -/
theorem recvTail_stream (w : World) (s : Nat) (st : SocketState) (pb mem : List Nat)
    (peek : Bool) (n : Nat) (data1 : List Nat) (k : Nat) (err : Option GoError)
    (stream : List Nat) (htype : st.Type_ = SocketType.TypeTCP) :
    ∃ (r : Int × World × Option (List Nat) × List Nat) (out : List Nat),
      recvTail w s st pb (some mem) mem.length peek n data1 (streamConn k err) stream = some r ∧
      r.2.2.2 = stream.drop (min k (data1.drop n).length) ∧
      r.2.1.registry.Get s = some (setPeekBuf st
        (if (stream.take (min k (data1.drop n).length)).length > 0 ∧ peek = true
          then pb ++ stream.take (min k (data1.drop n).length) else pb)) ∧
      r.2.2.1 = some out ∧
      out = data1.take n ++ goCopy (data1.drop n) (stream.take (min k (data1.drop n).length))
        ++ mem.drop mem.length ∧
      (r.1 = ((n + (stream.take (min k (data1.drop n).length)).length : Nat) : Int) ∨
        (r.1 = -1 ∧ n + (stream.take (min k (data1.drop n).length)).length = 0)) := by
  unfold recvTail
  rw [recvRead_stream st k err stream _ _ htype]
  simp only
  have htk : (goCopy (data1.drop n) (stream.take (min k (data1.drop n).length))).take
      (stream.take (min k (data1.drop n).length)).length
      = stream.take (min k (data1.drop n).length) := by
    unfold goCopy
    rw [List.take_of_length_le (l := stream.take (min k (data1.drop n).length))
      (by rw [List.length_take]; omega)]
    exact List.take_left _ _
  have hn2 : (if (stream.take (min k (data1.drop n).length)).length > 0
      then n + (stream.take (min k (data1.drop n).length)).length else n)
      = n + (stream.take (min k (data1.drop n).length)).length := by
    split <;> omega
  rw [htk, hn2]
  by_cases herr : err.isSome = true ∧ n + (stream.take (min k (data1.drop n).length)).length = 0
  · rw [if_pos herr]
    refine ⟨_, _, rfl, rfl, ?_, rfl, by simp, Or.inr ⟨rfl, herr.2⟩⟩
    show (putSocket w s _).registry.Get s = _
    exact putSocket_get _ _ _
  · rw [if_neg herr]
    refine ⟨_, _, rfl, rfl, ?_, rfl, by simp, Or.inl rfl⟩
    exact putSocket_get _ _ _

theorem goCopy_length (dst src : List Nat) : (goCopy dst src).length = dst.length := by
  unfold goCopy
  rw [List.length_append, List.length_take, List.length_drop]
  omega

/-- The tail of GoRecv over the stream endpoint, as the caller sees it: the
bytes returned are the `n` bytes already in the buffer followed by a chunk
from the front of the stream. -/
theorem recvTail_result (w : World) (s : Nat) (st : SocketState) (pb mem : List Nat)
    (peek : Bool) (n : Nat) (data1 : List Nat) (k : Nat) (err : Option GoError)
    (stream : List Nat) (htype : st.Type_ = SocketType.TypeTCP)
    (hlen : data1.length = mem.length) (hn : n ≤ mem.length) :
    ∃ (r : Int × World × Option (List Nat) × List Nat) (chunk : List Nat),
      recvTail w s st pb (some mem) mem.length peek n data1 (streamConn k err) stream = some r ∧
      stream = chunk ++ r.2.2.2 ∧ n + chunk.length ≤ mem.length ∧
      r.2.1.registry.Get s = some (setPeekBuf st
        (if chunk.length > 0 ∧ peek = true then pb ++ chunk else pb)) ∧
      ((r.1 = ((n + chunk.length : Nat) : Int) ∧
          (r.2.2.1.getD []).take r.1.toNat = data1.take n ++ chunk) ∨
        (r.1 = -1 ∧ n + chunk.length = 0 ∧ (r.2.2.1.getD []).take r.1.toNat = [])) := by
  obtain ⟨r, out, hr, hstream, hget, hout1, hout2, hres⟩ :=
    recvTail_stream w s st pb mem peek n data1 k err stream htype
  have hwin : (data1.drop n).length = mem.length - n := by
    rw [List.length_drop, hlen]
  have hchunk : (stream.take (min k (data1.drop n).length)).length ≤ mem.length - n := by
    rw [List.length_take, hwin]; omega
  refine ⟨r, stream.take (min k (data1.drop n).length), hr, ?_, by omega, hget, ?_⟩
  · rw [hstream, List.take_append_drop]
  · rcases hres with h | h
    · left
      refine ⟨h, ?_⟩
      rw [hout1, Option.getD_some, hout2, h, Int.toNat_ofNat, List.append_assoc]
      have hdn : (data1.take n).length = n := by
        rw [List.length_take, hlen]; omega
      rw [List.take_append_eq_append_take, List.take_of_length_le (by omega), hdn,
        Nat.add_sub_cancel_left]
      congr 1
      unfold goCopy
      rw [List.take_of_length_le (l := stream.take (min k (data1.drop n).length))
        (by omega), List.append_assoc]
      exact List.take_left _ _
    · right
      refine ⟨h.1, h.2, ?_⟩
      rw [h.1]
      rfl

/-- What one GoRecv on a connected stream socket does, in terms of the peek
buffer `P` before the call, the peek buffer after it, the unread stream and
the bytes returned: either the call is served from the peek buffer alone, or
it returns the whole peek buffer followed by a chunk taken from the front of
the stream. -/
theorem recvCall_spec (s : Nat) (S : RecvState) (c : RecvCall) (st : SocketState)
    (hreg : S.w.registry.Get s = some st) (hconn : st.Conn.isSome = true)
    (htype : st.Type_ = SocketType.TypeTCP) :
    ∃ st1, (recvCall s S c).1.w.registry.Get s = some st1 ∧ st1.Conn = st.Conn ∧
      st1.Type_ = st.Type_ ∧
      (recvCall s S c).2.peek = c.peek ∧ (recvCall s S c).2.len = c.buf.length ∧
      ((0 < st.PeekBuf.length ∧ (c.buf.length ≤ st.PeekBuf.length ∨ c.peek = true) ∧
          (recvCall s S c).2.bytes = st.PeekBuf.take c.buf.length ∧
          st1.PeekBuf = (if c.peek = true then st.PeekBuf else st.PeekBuf.drop c.buf.length) ∧
          (recvCall s S c).1.stream = S.stream ∧
          (recvCall s S c).2.n = ((recvCall s S c).2.bytes.length : Int)) ∨
       ((c.peek = true → st.PeekBuf = []) ∧ st.PeekBuf.length ≤ c.buf.length ∧
          ∃ chunk, S.stream = chunk ++ (recvCall s S c).1.stream ∧
            st.PeekBuf.length + chunk.length ≤ c.buf.length ∧
            (recvCall s S c).2.bytes = st.PeekBuf ++ chunk ∧
            st1.PeekBuf = (if c.peek = true then chunk else []) ∧
            ((recvCall s S c).2.n = ((recvCall s S c).2.bytes.length : Int) ∨
              ((recvCall s S c).2.n = -1 ∧ (recvCall s S c).2.bytes = [])))) := by
  have hc := isConnected_stream st c.k c.err hconn
  have hpanic : ¬ ((c.buf.length : Int) < 0 ∨ ((some c.buf).isNone = true ∧ (c.buf.length : Int) > 0)) := by
    simp
  have hdata : ((some c.buf).getD []).take (c.buf.length : Int).toNat = c.buf := by
    simp
  have hG : GoRecv S.w s (some c.buf) c.buf.length c.flags (streamConn c.k c.err) S.stream
      = if st.PeekBuf.length > 0 then
          if ((min c.buf.length st.PeekBuf.length : Nat) : Int) ≥ c.buf.length ∨ c.peek = true then
            some (((min c.buf.length st.PeekBuf.length : Nat) : Int),
              putSocket S.w s (setPeekBuf st
                (if c.peek = true then st.PeekBuf
                  else st.PeekBuf.drop (min c.buf.length st.PeekBuf.length))),
              some (goCopy c.buf st.PeekBuf ++ c.buf.drop c.buf.length), S.stream)
          else recvTail S.w s st (if c.peek = true then st.PeekBuf
                  else st.PeekBuf.drop (min c.buf.length st.PeekBuf.length))
                (some c.buf) c.buf.length c.peek (min c.buf.length st.PeekBuf.length)
                (goCopy c.buf st.PeekBuf) (streamConn c.k c.err) S.stream
        else recvTail S.w s st st.PeekBuf (some c.buf) c.buf.length c.peek 0 c.buf
          (streamConn c.k c.err) S.stream := by
    unfold GoRecv
    rw [hreg]
    simp only [hc, not_true_eq_false, if_false, hpanic, RecvCall.peek, Option.map_some',
      Int.toNat_ofNat, Option.getD_some, List.take_length]
  have hcall : ∀ r, GoRecv S.w s (some c.buf) c.buf.length c.flags (streamConn c.k c.err) S.stream
      = some r →
      recvCall s S c = ({ w := r.2.1, stream := r.2.2.2 },
        { peek := c.peek, len := c.buf.length, n := r.1,
          bytes := (r.2.2.1.getD []).take r.1.toNat }) := by
    intro r h
    unfold recvCall
    rw [h]
  by_cases hP : st.PeekBuf.length > 0
  · rw [if_pos hP] at hG
    by_cases hserve : ((min c.buf.length st.PeekBuf.length : Nat) : Int) ≥ c.buf.length
        ∨ c.peek = true
    · rw [if_pos hserve] at hG
      have hbytes : (goCopy c.buf st.PeekBuf ++ c.buf.drop c.buf.length).take
          (min c.buf.length st.PeekBuf.length) = st.PeekBuf.take c.buf.length := by
        unfold goCopy
        rw [List.append_assoc]
        apply List.take_left'
        rw [List.length_take]
      have hpb : (if c.peek = true then st.PeekBuf
            else st.PeekBuf.drop (min c.buf.length st.PeekBuf.length))
          = (if c.peek = true then st.PeekBuf else st.PeekBuf.drop c.buf.length) := by
        by_cases hpk : c.peek = true
        · rw [if_pos hpk, if_pos hpk]
        · rw [if_neg hpk, if_neg hpk]
          have : min c.buf.length st.PeekBuf.length = c.buf.length := by
            rcases hserve with h | h
            · omega
            · exact absurd h hpk
          rw [this]
      rw [hcall _ hG]
      refine ⟨setPeekBuf st (if c.peek = true then st.PeekBuf
            else st.PeekBuf.drop (min c.buf.length st.PeekBuf.length)),
        putSocket_get _ _ _, rfl, rfl, rfl, rfl, Or.inl ⟨hP, ?_, ?_, hpb, rfl, ?_⟩⟩
      · rcases hserve with h | h
        · left; omega
        · right; exact h
      · show ((some (goCopy c.buf st.PeekBuf ++ c.buf.drop c.buf.length)).getD []).take
          ((min c.buf.length st.PeekBuf.length : Nat) : Int).toNat = _
        rw [Int.toNat_ofNat]
        exact hbytes
      · show ((min c.buf.length st.PeekBuf.length : Nat) : Int)
          = ((((some (goCopy c.buf st.PeekBuf ++ c.buf.drop c.buf.length)).getD []).take
              ((min c.buf.length st.PeekBuf.length : Nat) : Int).toNat).length : Int)
        rw [Int.toNat_ofNat]
        show _ = (((goCopy c.buf st.PeekBuf ++ c.buf.drop c.buf.length).take
          (min c.buf.length st.PeekBuf.length)).length : Int)
        rw [hbytes, List.length_take]
    · rw [if_neg hserve] at hG
      have hnp : c.peek = false := by
        cases h : c.peek
        · rfl
        · exact absurd (Or.inr h) hserve
      have hlt : st.PeekBuf.length < c.buf.length := by
        have := fun h => hserve (Or.inl h)
        omega
      have hmin : min c.buf.length st.PeekBuf.length = st.PeekBuf.length := by omega
      rw [hmin, hnp] at hG
      simp only [Bool.false_eq_true, if_false] at hG
      obtain ⟨r, chunk, hr, hstream, hfit, hget, hres⟩ :=
        recvTail_result S.w s st (st.PeekBuf.drop st.PeekBuf.length) c.buf false
          st.PeekBuf.length (goCopy c.buf st.PeekBuf) c.k c.err S.stream htype
          (goCopy_length _ _) (by omega)
      rw [hr] at hG
      rw [hcall _ hG]
      have hpre : (goCopy c.buf st.PeekBuf).take st.PeekBuf.length = st.PeekBuf := by
        unfold goCopy
        rw [List.take_of_length_le (l := st.PeekBuf) (by omega)]
        exact List.take_left _ _
      simp only [Bool.false_eq_true, and_false, if_false, List.drop_length] at hget
      refine ⟨setPeekBuf st [], hget, rfl, rfl, rfl, rfl, Or.inr ⟨?_, by omega, chunk, hstream,
        hfit, ?_, ?_, ?_⟩⟩
      · intro h; rw [hnp] at h; exact absurd h (by decide)
      · rcases hres with h | h
        · show (r.2.2.1.getD []).take r.1.toNat = _
          rw [h.2, hpre]
        · omega
      · rw [hnp]; rfl
      · rcases hres with h | h
        · left
          show r.1 = (((r.2.2.1.getD []).take r.1.toNat).length : Int)
          rw [h.2, hpre, h.1, List.length_append]
        · omega
  · rw [if_neg hP] at hG
    have hnil : st.PeekBuf = [] := List.eq_nil_of_length_eq_zero (by omega)
    obtain ⟨r, chunk, hr, hstream, hfit, hget, hres⟩ :=
      recvTail_result S.w s st st.PeekBuf c.buf c.peek 0 c.buf c.k c.err S.stream htype
        rfl (Nat.zero_le _)
    rw [hr] at hG
    rw [hcall _ hG]
    rw [hnil, List.nil_append] at hget
    rw [List.take_zero, List.nil_append] at hres
    have hpbuf : (if chunk.length > 0 ∧ c.peek = true then chunk else [])
        = (if c.peek = true then chunk else []) := by
      by_cases hpk : c.peek = true
      · by_cases hch : chunk.length > 0
        · rw [if_pos ⟨hch, hpk⟩, if_pos hpk]
        · rw [if_neg (fun h => hch h.1), if_pos hpk]
          exact (List.eq_nil_of_length_eq_zero (by omega)).symm
      · rw [if_neg (fun h => hpk h.2), if_neg hpk]
    rw [hpbuf] at hget
    refine ⟨_, hget, rfl, rfl, rfl, rfl, Or.inr ⟨fun _ => hnil, by omega, chunk, hstream,
      by omega, ?_, rfl, ?_⟩⟩
    · rw [hnil, List.nil_append]
      rcases hres with h | h
      · exact h.2
      · show (r.2.2.1.getD []).take r.1.toNat = _
        rw [h.2.2]
        exact (List.eq_nil_of_length_eq_zero (by omega)).symm
    · rcases hres with h | h
      · left
        show r.1 = (((r.2.2.1.getD []).take r.1.toNat).length : Int)
        rw [h.2, h.1, Nat.zero_add]
      · right
        exact ⟨h.1, h.2.2⟩

theorem peekBufOf_get (w : World) (s : Nat) (st : SocketState)
    (h : w.registry.Get s = some st) : peekBufOf w s = st.PeekBuf := by
  unfold peekBufOf
  rw [h]

/-- One GoRecv on a connected stream socket, in terms of what the caller and
the endpoint see. -/
theorem recv_step (s : Nat) (S : RecvState) (c : RecvCall) (hs : StreamSocket S.w s) :
    StreamSocket (recvCall s S c).1.w s ∧
    (recvCall s S c).2.peek = c.peek ∧ (recvCall s S c).2.len = c.buf.length ∧
    (if (recvCall s S c).2.peek = true then [] else (recvCall s S c).2.bytes)
        ++ peekBufOf (recvCall s S c).1.w s ++ (recvCall s S c).1.stream
      = peekBufOf S.w s ++ S.stream ∧
    (c.peek = true → (recvCall s S c).2.bytes <+: peekBufOf (recvCall s S c).1.w s ∧
      ∀ Q, Q <+: peekBufOf S.w s → Q <+: peekBufOf (recvCall s S c).1.w s) ∧
    (c.peek = false → ∀ Q, Q <+: peekBufOf S.w s →
      (Q.length ≤ c.buf.length → Q <+: (recvCall s S c).2.bytes) ∧
      (c.buf.length < Q.length → (recvCall s S c).2.bytes = Q.take c.buf.length)) ∧
    ((recvCall s S c).2.n = ((recvCall s S c).2.bytes.length : Int) ∨
      ((recvCall s S c).2.n = -1 ∧ (recvCall s S c).2.bytes = [])) := by
  obtain ⟨st, hreg, hconn, htype⟩ := hs
  obtain ⟨st1, hget, hc1, ht1, hpeek, hlen, hcase⟩ := recvCall_spec s S c st hreg hconn htype
  have hP := peekBufOf_get S.w s st hreg
  have hP1 := peekBufOf_get _ s st1 hget
  have hss : StreamSocket (recvCall s S c).1.w s :=
    ⟨st1, hget, by rw [hc1]; exact hconn, by rw [ht1]; exact htype⟩
  rw [hP, hP1, hpeek]
  refine ⟨hss, rfl, hlen, ?_⟩
  rcases hcase with ⟨hpos, hsv, hb, hpb, hst, hn⟩ | ⟨hpk, hle, chunk, hst, hfit, hb, hpb, hn⟩
  · rw [hb, hpb, hst]
    refine ⟨?_, ?_, ?_, Or.inl (by rw [hn, hb])⟩
    · by_cases h : c.peek = true
      · rw [if_pos h, if_pos h, List.nil_append]
      · rw [if_neg h, if_neg h, List.take_append_drop]
    · intro h
      rw [if_pos h]
      exact ⟨List.take_prefix _ _, fun Q hQ => hQ⟩
    · intro h Q hQ
      have hle : c.buf.length ≤ st.PeekBuf.length := by
        rcases hsv with h1 | h1
        · exact h1
        · rw [h] at h1; exact absurd h1 (by decide)
      refine ⟨fun hq => List.prefix_take_iff.mpr ⟨hQ, hq⟩, fun hq => ?_⟩
      obtain ⟨t, ht⟩ := hQ
      rw [← ht, List.take_append_of_le_length (by omega)]
  · rw [hb, hpb]
    refine ⟨?_, ?_, ?_, ?_⟩
    · by_cases h : c.peek = true
      · rw [if_pos h, if_pos h, hpk h, List.nil_append, List.nil_append]
        exact hst.symm
      · rw [if_neg h, if_neg h, List.append_nil, List.append_assoc]
        rw [hst]
    · intro h
      rw [if_pos h, hpk h, List.nil_append]
      refine ⟨List.prefix_refl _, fun Q hQ => ?_⟩
      rw [List.prefix_nil.mp hQ]
      exact List.nil_prefix
    · intro _ Q hQ
      have hql := hQ.length_le
      exact ⟨fun _ => hQ.trans (List.prefix_append _ _), fun hq => by omega⟩
    · rcases hn with h | h
      · left; rw [h, hb]
      · right; rw [← hb]; exact h

theorem delivered_cons (r : RecvResult) (rs : List RecvResult) :
    delivered (r :: rs) = (if r.peek = true then [] else r.bytes) ++ delivered rs := by
  unfold delivered
  cases h : r.peek <;> simp [List.filter_cons, h, List.flatMap_cons]

theorem recvRun_cons (s : Nat) (S : RecvState) (c : RecvCall) (cs : List RecvCall) :
    recvRun s S (c :: cs) = ((recvRun s (recvCall s S c).1 cs).1,
      (recvCall s S c).2 :: (recvRun s (recvCall s S c).1 cs).2) := rfl

theorem recvRun_append (s : Nat) : ∀ (xs : List RecvCall) (S : RecvState) (ys : List RecvCall),
    recvRun s S (xs ++ ys) = ((recvRun s (recvRun s S xs).1 ys).1,
      (recvRun s S xs).2 ++ (recvRun s (recvRun s S xs).1 ys).2) := by
  intro xs
  induction xs with
  | nil => intro S ys; rfl
  | cons x xs ih =>
    intro S ys
    rw [List.cons_append, recvRun_cons, recvRun_cons, ih]
    rfl

theorem recvRun_length (s : Nat) : ∀ (xs : List RecvCall) (S : RecvState),
    (recvRun s S xs).2.length = xs.length := by
  intro xs
  induction xs with
  | nil => intro S; rfl
  | cons x xs ih => intro S; rw [recvRun_cons, List.length_cons, List.length_cons, ih]

/-- GoRecv on a connected stream socket returns: it does not panic. -/
theorem GoRecv_stream_returns (s : Nat) (S : RecvState) (c : RecvCall)
    (hs : StreamSocket S.w s) :
    (GoRecv S.w s (some c.buf) c.buf.length c.flags (streamConn c.k c.err) S.stream).isSome
      = true := by
  obtain ⟨st, hreg, hconn, htype⟩ := hs
  have hc := isConnected_stream st c.k c.err hconn
  have hpanic : ¬ ((c.buf.length : Int) < 0 ∨ ((some c.buf).isNone = true ∧ (c.buf.length : Int) > 0)) := by
    simp
  have htail : ∀ pb peek n data1, (recvTail S.w s st pb (some c.buf) c.buf.length peek n data1
      (streamConn c.k c.err) S.stream).isSome = true := by
    intro pb peek n data1
    obtain ⟨r, out, hr, _⟩ := recvTail_stream S.w s st pb c.buf peek n data1 c.k c.err S.stream htype
    rw [hr]; rfl
  unfold GoRecv
  rw [hreg]
  simp only [hc, not_true_eq_false, if_false, hpanic]
  split_ifs <;> first | rfl | exact htail _ _ _ _

/-- Over any interleaving of calls, the bytes delivered by the non-peek
calls, the peek buffer and the unread stream always make up the bytes that
were there at the start, in order. -/
theorem recvRun_accounting (s : Nat) : ∀ (calls : List RecvCall) (S : RecvState),
    StreamSocket S.w s →
    StreamSocket (recvRun s S calls).1.w s ∧
    delivered (recvRun s S calls).2 ++ peekBufOf (recvRun s S calls).1.w s
        ++ (recvRun s S calls).1.stream
      = peekBufOf S.w s ++ S.stream := by
  intro calls
  induction calls with
  | nil => intro S hs; exact ⟨hs, by simp [recvRun, delivered]⟩
  | cons c cs ih =>
    intro S hs
    obtain ⟨h1, _, _, h4, _⟩ := recv_step s S c hs
    obtain ⟨i1, i2⟩ := ih (recvCall s S c).1 h1
    rw [recvRun_cons]
    refine ⟨i1, ?_⟩
    show delivered ((recvCall s S c).2 :: (recvRun s (recvCall s S c).1 cs).2) ++
      peekBufOf (recvRun s (recvCall s S c).1 cs).1.w s ++
      (recvRun s (recvCall s S c).1 cs).1.stream = _
    rw [delivered_cons, List.append_assoc, List.append_assoc, ← List.append_assoc (delivered _),
      i2, ← List.append_assoc, h4]

/-- Every call of an interleaving returns the number of bytes it hands over,
or fails with -1 and hands over nothing. -/
theorem recvRun_counts (s : Nat) : ∀ (calls : List RecvCall) (S : RecvState),
    StreamSocket S.w s →
    ∀ r ∈ (recvRun s S calls).2, r.n = (r.bytes.length : Int) ∨ (r.n = -1 ∧ r.bytes = []) := by
  intro calls
  induction calls with
  | nil => intro S _ r hr; cases hr
  | cons c cs ih =>
    intro S hs r hr
    obtain ⟨h1, _, _, _, _, _, h7⟩ := recv_step s S c hs
    rw [recvRun_cons] at hr
    rcases List.mem_cons.mp hr with h | h
    · rw [h]; exact h7
    · exact ih (recvCall s S c).1 h1 r h

/-- Bytes known to be at the front of the peek buffer stay there over any
number of peeks, and the next non-peek call returns them first. -/
theorem peeked_bytes_come_next (s : Nat) : ∀ (peeks : List RecvCall) (S : RecvState)
    (Q : List Nat) (c : RecvCall),
    StreamSocket S.w s → Q <+: peekBufOf S.w s → (∀ p ∈ peeks, p.peek = true) →
    c.peek = false →
      (Q.length ≤ c.buf.length → Q <+: (recvCall s (recvRun s S peeks).1 c).2.bytes) ∧
      (c.buf.length < Q.length →
        (recvCall s (recvRun s S peeks).1 c).2.bytes = Q.take c.buf.length) := by
  intro peeks
  induction peeks with
  | nil =>
    intro S Q c hs hQ _ hc
    obtain ⟨_, _, _, _, _, h6, _⟩ := recv_step s S c hs
    exact h6 hc Q hQ
  | cons p ps ih =>
    intro S Q c hs hQ hall hc
    obtain ⟨h1, _, _, _, h5, _, _⟩ := recv_step s S p hs
    have hp : p.peek = true := hall p (List.mem_cons_self _ _)
    have hQ1 := (h5 hp).2 Q hQ
    rw [recvRun_cons]
    exact ih (recvCall s S p).1 Q c h1 hQ1 (fun x hx => hall x (List.mem_cons_of_mem _ hx)) hc

theorem getElem?_two_marks {α : Type} (A : List α) (x : α) (B : List α) (y : α) (C : List α)
    (i j : Nat) (hi : i = A.length) (hj : j = B.length) :
    (A ++ x :: (B ++ y :: C))[i]? = some x ∧ (A ++ x :: (B ++ y :: C))[i + 1 + j]? = some y := by
  subst hi; subst hj
  constructor
  · rw [List.getElem?_append_right (Nat.le_refl _), Nat.sub_self]
    exact List.getElem?_cons_zero
  · rw [List.getElem?_append_right (by omega)]
    have h1 : A.length + 1 + B.length - A.length = B.length + 1 := by omega
    rw [h1, List.getElem?_cons_succ, List.getElem?_append_right (Nat.le_refl _), Nat.sub_self]
    exact List.getElem?_cons_zero

/-- C16: on a connected stream socket, over any interleaving of GoRecv calls
with and without MSG_PEEK, every call returns (the count of the bytes it hands
over, or -1 with none); the results of the non-peek calls, concatenated, then
the peek buffer, then the unread part of the stream are exactly the bytes that
were pending at the start, so the concatenation is a prefix of the stream with
nothing lost or repeated; and when a peek returned bytes P, the next non-peek
call (after any number of further peeks) returns data that begins with P, or
the first bytes of P when its buffer is shorter than P. -/
theorem C16_peek_and_recv_stream (s : Nat) (S : RecvState) (hs : StreamSocket S.w s) :
    (∀ (calls : List RecvCall) (c : RecvCall),
      (GoRecv (recvRun s S calls).1.w s (some c.buf) c.buf.length c.flags
        (streamConn c.k c.err) (recvRun s S calls).1.stream).isSome = true) ∧
    (∀ calls : List RecvCall,
      delivered (recvRun s S calls).2 ++ peekBufOf (recvRun s S calls).1.w s
          ++ (recvRun s S calls).1.stream = peekBufOf S.w s ++ S.stream ∧
      delivered (recvRun s S calls).2 <+: peekBufOf S.w s ++ S.stream ∧
      (peekBufOf S.w s = [] → delivered (recvRun s S calls).2 <+: S.stream) ∧
      (∀ r ∈ (recvRun s S calls).2,
        r.n = (r.bytes.length : Int) ∨ (r.n = -1 ∧ r.bytes = []))) ∧
    (∀ (pre : List RecvCall) (p : RecvCall) (peeks : List RecvCall) (c : RecvCall)
        (post : List RecvCall) (rp rc : RecvResult),
      p.peek = true → (∀ q ∈ peeks, q.peek = true) → c.peek = false →
      (recvRun s S (pre ++ p :: (peeks ++ c :: post))).2[pre.length]? = some rp →
      (recvRun s S (pre ++ p :: (peeks ++ c :: post))).2[pre.length + 1 + peeks.length]?
        = some rc →
      (rp.bytes.length ≤ c.buf.length → rp.bytes <+: rc.bytes) ∧
      (c.buf.length < rp.bytes.length → rc.bytes = rp.bytes.take c.buf.length)) := by
  refine ⟨?_, ?_, ?_⟩
  · intro calls c
    exact GoRecv_stream_returns s _ c (recvRun_accounting s calls S hs).1
  · intro calls
    obtain ⟨_, hacc⟩ := recvRun_accounting s calls S hs
    have hpre : delivered (recvRun s S calls).2 <+: peekBufOf S.w s ++ S.stream :=
      ⟨peekBufOf (recvRun s S calls).1.w s ++ (recvRun s S calls).1.stream, by
        rw [← List.append_assoc]; exact hacc⟩
    refine ⟨hacc, hpre, ?_, recvRun_counts s calls S hs⟩
    intro hempty
    rw [hempty, List.nil_append] at hpre
    exact hpre
  · intro pre p peeks c post rp rc hp hpeeks hc hrp hrc
    have hS1 := (recvRun_accounting s pre S hs).1
    obtain ⟨hS2, _, _, _, h5, _, _⟩ := recv_step s (recvRun s S pre).1 p hS1
    have hnext := peeked_bytes_come_next s peeks (recvCall s (recvRun s S pre).1 p).1
      (recvCall s (recvRun s S pre).1 p).2.bytes c hS2 (h5 hp).1 hpeeks hc
    rw [recvRun_append, recvRun_cons, recvRun_append, recvRun_cons] at hrp hrc
    obtain ⟨e1, e2⟩ := getElem?_two_marks (recvRun s S pre).2
      (recvCall s (recvRun s S pre).1 p).2
      (recvRun s (recvCall s (recvRun s S pre).1 p).1 peeks).2
      (recvCall s (recvRun s (recvCall s (recvRun s S pre).1 p).1 peeks).1 c).2
      (recvRun s (recvCall s (recvRun s (recvCall s (recvRun s S pre).1 p).1 peeks).1 c).1 post).2
      pre.length peeks.length (recvRun_length s pre S).symm (recvRun_length s peeks _).symm
    have hrp1 : rp = (recvCall s (recvRun s S pre).1 p).2 :=
      (Option.some.inj (hrp.symm.trans e1))
    have hrc1 : rc = (recvCall s (recvRun s (recvCall s (recvRun s S pre).1 p).1 peeks).1 c).2 :=
      (Option.some.inj (hrc.symm.trans e2))
    rw [hrp1, hrc1]
    exact hnext

theorem C16_peek_and_recv_stream_witness :
    StreamSocket worldConnectedWithEvent 1001 ∧
    (recvRun 1001 { w := worldConnectedWithEvent, stream := [1, 2, 3, 4, 5, 6, 7, 8, 9] }
      [{ buf := [0, 0, 0, 0], flags := MSG_PEEK, k := 3, err := none },
       { buf := [0, 0], flags := MSG_PEEK, k := 5, err := none },
       { buf := [0, 0, 0, 0, 0, 0], flags := 0, k := 2, err := none }]).2.map
        (fun r => (r.n, r.bytes))
      = [(3, [1, 2, 3]), (2, [1, 2]), (5, [1, 2, 3, 4, 5])] ∧
    delivered (recvRun 1001 { w := worldConnectedWithEvent, stream := [1, 2, 3, 4, 5, 6, 7, 8, 9] }
      [{ buf := [0, 0, 0, 0], flags := MSG_PEEK, k := 3, err := none },
       { buf := [0, 0], flags := MSG_PEEK, k := 5, err := none },
       { buf := [0, 0, 0, 0, 0, 0], flags := 0, k := 2, err := none }]).2
      <+: [1, 2, 3, 4, 5, 6, 7, 8, 9] :=
  ⟨⟨_, rfl, by decide, by decide⟩, by decide,
   ((C16_peek_and_recv_stream 1001
      { w := worldConnectedWithEvent, stream := [1, 2, 3, 4, 5, 6, 7, 8, 9] }
      ⟨_, rfl, by decide, by decide⟩).2.1 _).2.2.1 rfl⟩

/-! ## C21: what the last WSACleanup leaves in the registry -/

/-- C21 (evaluation at the failing input): after one WSAStartup, a socket
(handle 1001) and an event object (handle 1002) are created; the WSACleanup
that follows brings the reference count from 1 to 0 and runs the teardown.
Afterwards registry.Get fails for every socket handle, but registry.GetEvent
still finds the event object 1002, and GoWSASetEvent on it still returns 1:
PurgeAll empties the socket map only. -/
theorem C21_cleanup_keeps_event_objects :
    lifecycleSocketAndEvent.wsaRefCount = 1 ∧
    (lifecycleSocketAndEvent.world.registry.Get 1001).isSome = true ∧
    lifecycleSocketAndEvent.world.registry.GetEvent 1002 = some false ∧
    (GoWSACleanup lifecycleSocketAndEvent).1 = 0 ∧
    (GoWSACleanup lifecycleSocketAndEvent).2.wsaRefCount = 0 ∧
    (GoWSACleanup lifecycleSocketAndEvent).2.teardown
      = [TeardownCall.PurgeAll, TeardownCall.CloseStack] ∧
    (∀ h, (GoWSACleanup lifecycleSocketAndEvent).2.world.registry.Get h = none) ∧
    (GoWSACleanup lifecycleSocketAndEvent).2.world.registry.GetEvent 1002 = some false ∧
    (GoWSASetEvent (GoWSACleanup lifecycleSocketAndEvent).2.world 1002).1 = 1 := by
  refine ⟨by decide, by decide, by decide, by decide, by decide, by decide, ?_, by decide,
    by decide⟩
  intro h
  rfl

/-! ## C23: closesocket on an unknown handle -/

/-- C23 (evaluation at the failing input): the last-error cell holds 10054
(set with GoWSASetLastError) and no socket is registered.  GoClosesocket on
handle 555 returns -1 and leaves the whole state as it was, so the last-error
cell still holds 10054, not WSAENOTSOCK (10038); the sibling GoSetsockopt
stores 10038 on the same handle. -/
theorem C23_closesocket_keeps_last_error :
    (GoWSASetLastError (World.init true) WSAECONNRESET).registry.Get 555 = none ∧
    (GoClosesocket (GoWSASetLastError (World.init true) WSAECONNRESET) 555).1 = -1 ∧
    (GoClosesocket (GoWSASetLastError (World.init true) WSAECONNRESET) 555).2
      = GoWSASetLastError (World.init true) WSAECONNRESET ∧
    GoWSAGetLastError (GoClosesocket (GoWSASetLastError (World.init true) WSAECONNRESET) 555).2
      = 10054 ∧
    GoWSAGetLastError (GoClosesocket (GoWSASetLastError (World.init true) WSAECONNRESET) 555).2
      ≠ WSAENOTSOCK ∧
    GoWSAGetLastError (GoSetsockopt (GoWSASetLastError (World.init true) WSAECONNRESET) 555
      SOL_SOCKET SO_KEEPALIVE (some [1, 0, 0, 0]) 4).2 = WSAENOTSOCK := by
  decide

/-! ## C22: the early failures of bind -/

/-- C22: GoBind on a handle that is not registered returns -1 with
WSAENOTSOCK; on a registered socket whose bound address is already set, or
with a null sockaddr, or with a sockaddr whose family is not 2, it returns -1
with WSAEINVAL.  In each case nothing but the last-error cell changes, so the
socket state (bound address, connection, options and the rest) is as it
was. -/
theorem C22_bind_early_failures (w : World) (s : Nat) (name : Option SockAddrIn) (namelen : Int)
    (env : BindEnv) :
    (w.registry.Get s = none →
      GoBind w s name namelen env = (-1, setLastError w WSAENOTSOCK)) ∧
    (∀ st, w.registry.Get s = some st →
      (st.BoundAddr ≠ [] ∨ name = none ∨ (∃ sa, name = some sa ∧ sa.family ≠ 2)) →
      GoBind w s name namelen env = (-1, setLastError w WSAEINVAL) ∧
      GoWSAGetLastError (GoBind w s name namelen env).2 = 10022 ∧
      (GoBind w s name namelen env).2.registry = w.registry ∧
      (GoBind w s name namelen env).2.trace = w.trace ∧
      (GoBind w s name namelen env).2.registry.Get s = some st) := by
  constructor
  · intro h
    unfold GoBind
    rw [h]
  · intro st h hcase
    have hres : GoBind w s name namelen env = (-1, setLastError w WSAEINVAL) := by
      unfold GoBind
      rw [h]
      show (if st.BoundAddr ≠ [] then _ else _) = _
      by_cases hb : st.BoundAddr ≠ []
      · rw [if_pos hb]
      · rw [if_neg hb]
        rcases hcase with h1 | h1 | ⟨sa, h1, h2⟩
        · exact absurd h1 hb
        · rw [h1]; rfl
        · have hp : parseSockAddrIn (some sa) = none := by
            unfold parseSockAddrIn
            exact if_pos h2
          rw [h1, hp]
    rw [hres]
    exact ⟨rfl, rfl, rfl, rfl, h⟩

theorem C22_bind_early_failures_witness :
    worldDatagramSocket.registry.Get 555 = none ∧
    GoBind worldDatagramSocket 555 (some sampleAddr) 16 bindEnvOk
      = (-1, setLastError worldDatagramSocket WSAENOTSOCK) ∧
    GoBind worldDatagramSocket 1001 (some sampleAddr6) 16 bindEnvOk
      = (-1, setLastError worldDatagramSocket WSAEINVAL) :=
  ⟨by decide,
   (C22_bind_early_failures worldDatagramSocket 555 (some sampleAddr) 16 bindEnvOk).1
     (by decide),
   ((C22_bind_early_failures worldDatagramSocket 1001 (some sampleAddr6) 16 bindEnvOk).2
     _ rfl (Or.inr (Or.inr ⟨sampleAddr6, rfl, by decide⟩))).1⟩

/-! ## C29: retrying a bind that failed -/

/-- C29 (evaluation at the failing input): a datagram socket is bound to
10.0.0.1:80 while the transport is unavailable.  GoBind returns -1 with
WSAEHOSTUNREACH, yet the socket's BoundAddr is now "10.0.0.1:80"; the same
bind repeated when every transport step succeeds returns -1 with WSAEINVAL,
the answer to a second bind, whereas on the untouched socket it returns 0. -/
theorem C29_failed_bind_sets_bound_addr :
    (worldDatagramSocket.registry.Get 1001).map (fun st => st.BoundAddr) = some [] ∧
    (GoBind worldDatagramSocket 1001 (some sampleAddr) 16 bindEnvNoStack).1 = -1 ∧
    GoWSAGetLastError (GoBind worldDatagramSocket 1001 (some sampleAddr) 16 bindEnvNoStack).2
      = WSAEHOSTUNREACH ∧
    ((GoBind worldDatagramSocket 1001 (some sampleAddr) 16 bindEnvNoStack).2.registry.Get 1001).map
      (fun st => st.BoundAddr) = some (goBytes "10.0.0.1:80") ∧
    (GoBind (GoBind worldDatagramSocket 1001 (some sampleAddr) 16 bindEnvNoStack).2 1001
      (some sampleAddr) 16 bindEnvOk).1 = -1 ∧
    GoWSAGetLastError (GoBind (GoBind worldDatagramSocket 1001 (some sampleAddr) 16
      bindEnvNoStack).2 1001 (some sampleAddr) 16 bindEnvOk).2 = WSAEINVAL ∧
    (GoBind worldDatagramSocket 1001 (some sampleAddr) 16 bindEnvOk).1 = 0 := by
  decide

/-! ## C28: event objects as one-slot signals -/

theorem mapSet_mapSet_same {α : Type} (m : List (Nat × α)) (k : Nat) (v v1 : α) :
    mapSet (mapSet m k v) k v1 = mapSet m k v1 := by
  induction m with
  | nil => simp [mapSet]
  | cons kv rest ih =>
    obtain ⟨k0, v0⟩ := kv
    by_cases h0 : k0 = k
    · simp [mapSet, h0]
    · simp [mapSet, h0, ih]

theorem setEvent_registered (w : World) (h : Nat) (b : Bool)
    (hreg : w.registry.GetEvent h = some b) :
    (GoWSASetEvent w h).1 = 1 ∧
    (GoWSASetEvent w h).2.registry.GetEvent h = some true ∧
    (GoWSASetEvent w h).2 =
      { w with registry := { w.registry with events := mapSet w.registry.events h true } } ∧
    ∀ k, k ≠ h → (GoWSASetEvent w h).2.registry.GetEvent k = w.registry.GetEvent k := by
  have hget : mapGet w.registry.events h = some b := hreg
  have hst : (GoWSASetEvent w h).2 =
      { w with registry := { w.registry with events := mapSet w.registry.events h true } } := by
    unfold GoWSASetEvent
    rw [hreg]
    simp only [signalEvent, hget]
  refine ⟨?_, ?_, hst, ?_⟩
  · unfold GoWSASetEvent
    rw [hreg]
  · rw [hst]
    exact mapGet_mapSet_same _ _ _
  · intro k hk
    rw [hst]
    exact mapGet_mapSet_ne _ _ _ _ (fun e => hk e.symm)

theorem resetEvent_registered (w : World) (h : Nat) (b : Bool)
    (hreg : w.registry.GetEvent h = some b) :
    (GoWSAResetEvent w h).1 = 1 ∧
    (GoWSAResetEvent w h).2.registry.GetEvent h = some false ∧
    ∀ k, k ≠ h → (GoWSAResetEvent w h).2.registry.GetEvent k = w.registry.GetEvent k := by
  have hget : mapGet w.registry.events h = some b := hreg
  have hst : (GoWSAResetEvent w h).2 =
      { w with registry := { w.registry with events := mapSet w.registry.events h false } } := by
    unfold GoWSAResetEvent
    rw [hreg]
    simp only [drainEvent, hget]
  refine ⟨?_, ?_, ?_⟩
  · unfold GoWSAResetEvent
    rw [hreg]
  · rw [hst]
    exact mapGet_mapSet_same _ _ _
  · intro k hk
    rw [hst]
    exact mapGet_mapSet_ne _ _ _ _ (fun e => hk e.symm)

theorem setEventTimes_succ (w : World) (h : Nat) (b : Bool)
    (hreg : w.registry.GetEvent h = some b) :
    ∀ n, setEventTimes w h (n + 1) = (GoWSASetEvent w h).2 := by
  intro n
  induction n with
  | zero => rfl
  | succ n ih =>
    show (GoWSASetEvent (setEventTimes w h (n + 1)) h).2 = _
    rw [ih]
    obtain ⟨_, h2, h3, _⟩ := setEvent_registered w h b hreg
    obtain ⟨_, _, h3b, _⟩ := setEvent_registered (GoWSASetEvent w h).2 h true h2
    rw [h3b, h3]
    simp only [mapSet_mapSet_same]

/-- C28: an event object is a slot that holds at most one signal.  On a
registered handle GoWSASetEvent returns 1 and leaves the slot full, and any
number n >= 1 of such calls leaves the state one call leaves; GoWSAResetEvent
returns 1 and leaves the slot empty, whether or not it was full; neither
touches another event object.  On an unregistered handle both return 0 and
change nothing.  GoWSACloseEvent returns 1 and unregisters the handle, so that
GoWSASetEvent and GoWSAResetEvent on it return 0 afterwards. -/
theorem C28_event_slot (w : World) (h : Nat) :
    (∀ b, w.registry.GetEvent h = some b →
      (GoWSASetEvent w h).1 = 1 ∧
      (GoWSASetEvent w h).2.registry.GetEvent h = some true ∧
      (∀ n, setEventTimes w h (n + 1) = (GoWSASetEvent w h).2) ∧
      (∀ n, (GoWSASetEvent (setEventTimes w h n) h).1 = 1) ∧
      (GoWSAResetEvent w h).1 = 1 ∧
      (GoWSAResetEvent w h).2.registry.GetEvent h = some false ∧
      (∀ n, (GoWSAResetEvent (setEventTimes w h n) h).1 = 1 ∧
        (GoWSAResetEvent (setEventTimes w h n) h).2.registry.GetEvent h = some false) ∧
      (∀ k, k ≠ h → (GoWSASetEvent w h).2.registry.GetEvent k = w.registry.GetEvent k ∧
        (GoWSAResetEvent w h).2.registry.GetEvent k = w.registry.GetEvent k)) ∧
    (w.registry.GetEvent h = none →
      GoWSASetEvent w h = (0, w) ∧ GoWSAResetEvent w h = (0, w)) ∧
    ((GoWSACloseEvent w h).1 = 1 ∧
      (GoWSACloseEvent w h).2.registry.GetEvent h = none ∧
      (GoWSASetEvent (GoWSACloseEvent w h).2 h).1 = 0 ∧
      (GoWSAResetEvent (GoWSACloseEvent w h).2 h).1 = 0) := by
  have hreg_n : ∀ b, w.registry.GetEvent h = some b →
      ∀ n, ∃ b1, (setEventTimes w h n).registry.GetEvent h = some b1 := by
    intro b hb n
    cases n with
    | zero => exact ⟨b, hb⟩
    | succ n =>
      rw [setEventTimes_succ w h b hb n]
      exact ⟨true, (setEvent_registered w h b hb).2.1⟩
  refine ⟨?_, ?_, ?_⟩
  · intro b hb
    obtain ⟨s1, s2, _, s4⟩ := setEvent_registered w h b hb
    obtain ⟨r1, r2, r3⟩ := resetEvent_registered w h b hb
    refine ⟨s1, s2, setEventTimes_succ w h b hb, ?_, r1, r2, ?_, ?_⟩
    · intro n
      obtain ⟨b1, hb1⟩ := hreg_n b hb n
      exact (setEvent_registered _ h b1 hb1).1
    · intro n
      obtain ⟨b1, hb1⟩ := hreg_n b hb n
      obtain ⟨q1, q2, _⟩ := resetEvent_registered _ h b1 hb1
      exact ⟨q1, q2⟩
    · intro k hk
      exact ⟨s4 k hk, r3 k hk⟩
  · intro hn
    constructor
    · unfold GoWSASetEvent
      rw [hn]
    · unfold GoWSAResetEvent
      rw [hn]
  · have hclosed : (GoWSACloseEvent w h).2.registry.GetEvent h = none :=
      mapGet_mapDel_same _ _
    refine ⟨rfl, hclosed, ?_, ?_⟩
    · unfold GoWSASetEvent
      rw [hclosed]
    · unfold GoWSAResetEvent
      rw [hclosed]

theorem C28_event_slot_witness :
    (GoWSACreateEvent (World.init true)).1 = 1001 ∧
    (GoWSACreateEvent (World.init true)).2.registry.GetEvent 1001 = some false ∧
    (GoWSASetEvent (GoWSACreateEvent (World.init true)).2 1001).1 = 1 ∧
    (GoWSASetEvent (GoWSACreateEvent (World.init true)).2 1001).2.registry.GetEvent 1001
      = some true ∧
    setEventTimes (GoWSACreateEvent (World.init true)).2 1001 3
      = (GoWSASetEvent (GoWSACreateEvent (World.init true)).2 1001).2 ∧
    (GoWSAResetEvent (setEventTimes (GoWSACreateEvent (World.init true)).2 1001 3)
      1001).2.registry.GetEvent 1001 = some false :=
  ⟨by decide, by decide,
   ((C28_event_slot (GoWSACreateEvent (World.init true)).2 1001).1 false (by decide)).1,
   by decide, by decide, by decide⟩

/-! ## C30: element 0 of an empty gathered buffer -/

/-- C30 (evaluation at the failing input): the WSABUF array has one buffer of
length 0, so the gathered slice and the temporary buffer are empty.
GoWSASendTo, GoWSARecvFrom and the paths of GoWSASendMsg and GoWSARecvMsg taken
for a named address then panic on `&data[0]` or `&tmp[0]`, whatever the state
and whatever GoSendto and GoRecvfrom would do, while the sibling GoWSASend
returns 0 on the same array. -/
theorem C30_empty_buffers_panic (w : World) (s : Nat)
    (sendto : World → List Nat → Int → Int × World)
    (recvfrom : World → Nat → Int × List Nat × Int × World)
    (write : List Nat → Nat × Option GoError) (read : Nat → List Nat × Option GoError) :
    gatherBuffers oneEmptyBuffer 1 = [] ∧
    totalCap (oneEmptyBuffer.take 1) = 0 ∧
    GoWSASendTo w (some oneEmptyBuffer) 1 (some 0) sendto = none ∧
    GoWSARecvFrom w (some oneEmptyBuffer) 1 (some 0) recvfrom = none ∧
    GoWSASendMsg w s (some msgEmptyBuffer) (some 0) none sendto write = none ∧
    GoWSARecvMsg w s (some msgEmptyBuffer) (some 0) none recvfrom read = none ∧
    (GoWSASend worldConnectedWithEvent 1001 (some oneEmptyBuffer) 1 (some 7) none writeAll).1
      = 0 := by
  refine ⟨rfl, rfl, rfl, rfl, rfl, rfl, by decide⟩

/-! ## C27: the address gethostbyaddr hands back -/

set_option maxRecDepth 20000 in
/-- C27 (evaluation at the failing input): GoGethostbyaddr is called on the
16 bytes of 2001:db8::1 with addrType AF_INET6 and the reverse lookup yields a
name.  The hostent has Addrtype 23, Length 16 and one address entry followed
by null, but only the first four input bytes were stored (the row copied
into holds four bytes): the 16 bytes the entry points to are 20 01 0d b8
followed by the next three rows of the static array, here zeros, and differ
from the input.  For the four bytes of 10.0.0.1 with AF_INET the bytes handed
back are the input. -/
theorem C27_hostent_ipv6_address_truncated :
    (GoGethostbyaddr (World.init true) HostStatics.init (some sampleV6Bytes) 16 AF_INET6
      ptrFound).map (fun r => (r.1, r.2.2.Addrtype, r.2.2.Length, r.2.2.addrListSet,
        r.2.2.staticHostAddrPtrs.take 2, r.2.2.staticHostName.take 13))
      = some (true, 23, 16, true, [some 0, none], goBytes "host.example" ++ [0]) ∧
    (GoGethostbyaddr (World.init true) HostStatics.init (some sampleV6Bytes) 16 AF_INET6
      ptrFound).map (fun r => hostentAddr r.2.2 0)
      = some (some [0x20, 0x01, 0x0d, 0xb8, 0, 0, 0, 0, 0, 0, 0, 0, 0, 0, 0, 0]) ∧
    (GoGethostbyaddr (World.init true) HostStatics.init (some sampleV6Bytes) 16 AF_INET6
      ptrFound).map (fun r => hostentAddr r.2.2 0) ≠ some (some sampleV6Bytes) ∧
    (GoGethostbyaddr (World.init true) HostStatics.init (some [10, 0, 0, 1]) 4 AF_INET
      ptrFound).map (fun r => (r.1, r.2.2.Addrtype, r.2.2.Length,
        r.2.2.staticHostAddrPtrs.take 2, hostentAddr r.2.2 0))
      = some (true, 2, 4, [some 0, none], some [10, 0, 0, 1]) := by
  have h2 : (GoGethostbyaddr (World.init true) HostStatics.init (some sampleV6Bytes) 16 AF_INET6
      ptrFound).map (fun r => hostentAddr r.2.2 0)
      = some (some [0x20, 0x01, 0x0d, 0xb8, 0, 0, 0, 0, 0, 0, 0, 0, 0, 0, 0, 0]) := by rfl
  refine ⟨by rfl, h2, ?_, by rfl⟩
  rw [h2]
  decide

/-! ## Lemmas on the length of parsed addresses -/

theorem parseIPv4Loop_length (n : Nat) : ∀ (s : List Nat) (i prev val pos digLen : Nat)
    (fields f : List Nat), fields.length = 4 →
    parseIPv4Loop n s i prev val pos digLen fields = some f → f.length = 4 := by
  intro s
  induction s with
  | nil =>
    intro i prev val pos digLen fields f hl h
    simp only [parseIPv4Loop] at h
    split at h
    · cases h
    · cases h
      rw [List.length_set]; exact hl
  | cons c rest ih =>
    intro i prev val pos digLen fields f hl h
    simp only [parseIPv4Loop] at h
    split at h
    · split at h
      · cases h
      · split at h
        · cases h
        · exact ih _ _ _ _ _ _ _ hl h
    · split at h
      · split at h
        · cases h
        · split at h
          · cases h
          · exact ih _ _ _ _ _ _ _ (by rw [List.length_set]; exact hl) h
      · cases h

theorem parseIPv4_length (s f : List Nat) (h : parseIPv4 s = some f) : f.length = 4 :=
  parseIPv4Loop_length s.length s 0 0 0 0 0 [0, 0, 0, 0] f rfl h

/-- What the main loop of `parseIPv6` keeps: sixteen bytes, an even fill
index of at most 16, and an ellipsis no further than the fill index. -/
theorem parseIPv6Loop_inv : ∀ (fuel : Nat) (s ip : List Nat) (i : Nat) (ellipsis : Option Nat)
    (st : V6State), ip.length = 16 → i % 2 = 0 → i ≤ 16 → (∀ e, ellipsis = some e → e ≤ i) →
    parseIPv6Loop fuel s ip i ellipsis = some st →
    st.ip.length = 16 ∧ st.i ≤ 16 ∧ (∀ e, st.ellipsis = some e → e ≤ st.i) := by
  intro fuel
  induction fuel with
  | zero =>
    intro s ip i ellipsis st hl hev hi he h
    simp only [parseIPv6Loop] at h
    cases h
    exact ⟨hl, hi, he⟩
  | succ fuel ih =>
    intro s ip i ellipsis st hl hev hi he h
    rw [parseIPv6Loop] at h
    split at h
    · cases h
      exact ⟨hl, hi, he⟩
    · rename_i hi16
      have hi16 : i < 16 := by simpa using hi16
      split at h
      · cases h
      · rename_i off acc rest hscan
        split at h
        · cases h
        · split at h
          · split at h
            · cases h
            · split at h
              · cases h
              · rename_i hfit
                split at h
                · cases h
                · rename_i f hf
                  cases h
                  have hf4 : f.length = 4 :=
                    parseIPv4Loop_length _ _ _ _ _ _ _ [0, 0, 0, 0] f rfl hf
                  have hfit2 : i + 4 ≤ 16 := by omega
                  refine ⟨?_, hfit2, ?_⟩
                  · simp only [List.length_append, List.length_take, List.length_drop, hl, hf4]
                    omega
                  · intro e hee
                    have := he e hee
                    show e ≤ i + 4
                    omega
          · have hl2 : ((ip.set i (acc >>> 8 % 256)).set (i + 1) (acc % 256)).length = 16 := by
              rw [List.length_set, List.length_set]; exact hl
            have hi2 : i + 2 ≤ 16 := by omega
            have hev2 : (i + 2) % 2 = 0 := by omega
            split at h
            · cases h
              exact ⟨hl2, hi2, fun e hee => by have := he e hee; show e ≤ i + 2; omega⟩
            · split at h
              · cases h
              · split at h
                · cases h
                · split at h
                  · split at h
                    · cases h
                    · split at h
                      · cases h
                        exact ⟨hl2, hi2, fun e hee => by cases hee; exact Nat.le_refl _⟩
                      · exact ih _ _ _ _ _ hl2 hev2 hi2
                          (fun e hee => by cases hee; exact Nat.le_refl _) h
                  · exact ih _ _ _ _ _ hl2 hev2 hi2
                      (fun e hee => by have := he e hee; omega) h

theorem parseIPv6_length (s ip : List Nat) (h : parseIPv6 s = some ip) : ip.length = 16 := by
  unfold parseIPv6 at h
  simp only at h
  split at h
  · cases h
    rfl
  · split at h
    · cases h
    · rename_i st hst
      have hstart : ∀ e, (match s with
          | 58 :: 58 :: rest => ((some 0 : Option Nat), rest)
          | _ => (none, s)).1 = some e → e ≤ 0 := by
        intro e he
        split at he
        · cases he; exact Nat.le_refl _
        · cases he
      obtain ⟨h1, h2, h3⟩ := parseIPv6Loop_inv 8 _ _ 0 _ st (by rfl) rfl (by omega) hstart hst
      split at h
      · cases h
      · split at h
        · rename_i hlt
          split at h
          · cases h
          · rename_i e he
            cases h
            have hle := h3 e he
            unfold expandEllipsis
            simp only [List.length_append, List.length_take, List.length_drop,
              List.length_replicate, h1]
            omega
        · split at h
          · cases h
          · cases h
            exact h1

theorem parseAddrScan_length (s : List Nat) : ∀ (t ip : List Nat),
    parseAddrScan s t = some ip → ip.length = 16 := by
  intro t
  induction t with
  | nil => intro ip h; cases h
  | cons c rest ih =>
    intro ip h
    simp only [parseAddrScan] at h
    split at h
    · cases hp : parseIPv4 s with
      | none => rw [hp] at h; cases h
      | some f =>
        rw [hp] at h
        cases h
        have := parseIPv4_length s f hp
        simp only [List.length_append, List.length_cons, List.length_nil, this]
    · split at h
      · exact parseIPv6_length s ip h
      · split at h
        · cases h
        · exact ih ip h

/-- Every address `net.ParseIP` returns has sixteen bytes. -/
theorem ParseIP_length (s ip : List Nat) (h : ParseIP s = some ip) : ip.length = 16 := by
  unfold ParseIP at h
  split at h
  · cases h
  · exact parseAddrScan_length s s ip h

theorem IPTo4_length (ip ip4 : List Nat) (h : IPTo4 ip = some ip4) : ip4.length = 4 := by
  unfold IPTo4 at h
  split at h
  · cases h; assumption
  · split at h
    · rename_i h16
      cases h
      rw [List.length_drop, h16.1]
    · cases h

theorem goCopy_same_length (dst src : List Nat) (h : src.length = dst.length) :
    goCopy dst src = src := by
  unfold goCopy
  rw [List.take_of_length_le (by omega), List.drop_of_length_le (by omega), List.append_nil]

/-! ## Lemmas on the chain getaddrinfo builds -/

theorem nodeView_grow (alloc : addrInfoAlloc) (nd : CAddrInfo) (ns : List CAddrInfo)
    (x4 : List CSockaddrIn) (x6 : List CSockaddrIn6)
    (h4 : ∀ i, nd.Addr = some (AddrPtr.in4 i) → i < alloc.addrs4.length)
    (h6 : ∀ i, nd.Addr = some (AddrPtr.in6 i) → i < alloc.addrs6.length) :
    nodeView { nodes := ns, addrs4 := alloc.addrs4 ++ x4, addrs6 := alloc.addrs6 ++ x6 } nd
      = nodeView alloc nd := by
  unfold nodeView sockaddr4Of sockaddr6Of
  cases hA : nd.Addr with
  | none => rfl
  | some p =>
    cases p with
    | in4 i =>
      simp only
      rw [List.getElem?_append_left (h4 i hA)]
    | in6 i =>
      simp only
      rw [List.getElem?_append_left (h6 i hA)]

theorem addNode_spec (hFlags netPort total : Nat) (ip : List Nat) (alloc : addrInfoAlloc)
    (pair : Int × Int) (hlen : ip.length = 16) (hwf : allocWF alloc) :
    allocWF (addNode hFlags netPort total ip alloc pair) ∧
    (addNode hFlags netPort total ip alloc pair).nodes.length = alloc.nodes.length + 1 ∧
    (addNode hFlags netPort total ip alloc pair).nodes.map
        (nodeView (addNode hFlags netPort total ip alloc pair))
      = alloc.nodes.map (nodeView alloc)
        ++ [expectedView hFlags netPort total alloc.nodes.length (ip, pair)] := by
  have hold : ∀ (ns : List CAddrInfo) (x4 : List CSockaddrIn) (x6 : List CSockaddrIn6),
      alloc.nodes.map (nodeView
        { nodes := ns, addrs4 := alloc.addrs4 ++ x4, addrs6 := alloc.addrs6 ++ x6 })
      = alloc.nodes.map (nodeView alloc) := by
    intro ns x4 x6
    apply List.map_congr_left
    intro nd hnd
    exact nodeView_grow alloc nd ns x4 x6 (hwf nd hnd).1 (hwf nd hnd).2
  cases h4 : IPTo4 ip with
  | some ip4 =>
    have hl4 := IPTo4_length ip ip4 h4
    have hadd : addNode hFlags netPort total ip alloc pair =
        { nodes := alloc.nodes ++
            [{ Flags := hFlags, Family := AF_INET, Socktype := pair.1, Protocol := pair.2,
               Addrlen := 16, Canonname := none,
               Addr := some (AddrPtr.in4 alloc.addrs4.length),
               Next := if alloc.nodes.length + 1 < total then some (alloc.nodes.length + 1)
                 else none }],
          addrs4 := alloc.addrs4 ++
            [{ Family := 2, Port := netPort, Addr := goCopy [0, 0, 0, 0] ip4,
               Zero := List.replicate 8 0 }],
          addrs6 := alloc.addrs6 ++ [] } := by
      unfold addNode
      rw [h4, List.append_nil]
    rw [hadd]
    refine ⟨?_, ?_, ?_⟩
    · intro nd hnd
      simp only [List.mem_append, List.mem_singleton] at hnd
      rcases hnd with hnd | hnd
      · refine ⟨fun i hi => ?_, fun i hi => ?_⟩
        · have := (hwf nd hnd).1 i hi
          simp only [List.length_append, List.length_singleton]; omega
        · have := (hwf nd hnd).2 i hi
          simp only [List.length_append, List.length_nil]; omega
      · subst hnd
        refine ⟨fun i hi => ?_, fun i hi => ?_⟩
        · simp only [Option.some.injEq, AddrPtr.in4.injEq] at hi
          simp only [List.length_append, List.length_singleton]; omega
        · simp only [Option.some.injEq] at hi
          cases hi
    · simp only [List.length_append, List.length_singleton]
    · rw [List.map_append, hold]
      congr 1
      simp only [List.map_cons, List.map_nil, nodeView, sockaddr4Of, sockaddr6Of, expectedView, h4,
        List.getElem?_append_right (Nat.le_refl _), Nat.sub_self, List.getElem?_cons_zero,
        goCopy_same_length [0, 0, 0, 0] ip4 hl4]
      rfl
  | none =>
    have hadd : addNode hFlags netPort total ip alloc pair =
        { nodes := alloc.nodes ++
            [{ Flags := hFlags, Family := AF_INET6, Socktype := pair.1, Protocol := pair.2,
               Addrlen := 28, Canonname := none,
               Addr := some (AddrPtr.in6 alloc.addrs6.length),
               Next := if alloc.nodes.length + 1 < total then some (alloc.nodes.length + 1)
                 else none }],
          addrs4 := alloc.addrs4 ++ [],
          addrs6 := alloc.addrs6 ++
            [{ Family := 23, Port := netPort, Flowinfo := 0,
               Addr := goCopy (List.replicate 16 0) ((IPTo16 ip).getD []), ScopeID := 0 }] } := by
      unfold addNode
      rw [h4, List.append_nil]
    have h16 : goCopy (List.replicate 16 0) ((IPTo16 ip).getD []) = ip := by
      rw [IPTo16_self ip hlen, Option.getD_some]
      exact goCopy_same_length _ _ (by rw [hlen]; rfl)
    rw [hadd]
    refine ⟨?_, ?_, ?_⟩
    · intro nd hnd
      simp only [List.mem_append, List.mem_singleton] at hnd
      rcases hnd with hnd | hnd
      · refine ⟨fun i hi => ?_, fun i hi => ?_⟩
        · have := (hwf nd hnd).1 i hi
          simp only [List.length_append, List.length_nil]; omega
        · have := (hwf nd hnd).2 i hi
          simp only [List.length_append, List.length_singleton]; omega
      · subst hnd
        refine ⟨fun i hi => ?_, fun i hi => ?_⟩
        · simp only [Option.some.injEq] at hi
          cases hi
        · simp only [Option.some.injEq, AddrPtr.in6.injEq] at hi
          simp only [List.length_append, List.length_singleton]; omega
    · simp only [List.length_append, List.length_singleton]
    · rw [List.map_append, hold]
      congr 1
      simp only [List.map_cons, List.map_nil, nodeView, sockaddr4Of, sockaddr6Of, expectedView, h4,
        List.getElem?_append_right (Nat.le_refl _), Nat.sub_self, List.getElem?_cons_zero, h16]
      rfl

theorem chain_fold (hFlags netPort total : Nat) : ∀ (es : List (List Nat × (Int × Int)))
    (alloc : addrInfoAlloc), allocWF alloc → (∀ e ∈ es, e.1.length = 16) →
    allocWF (es.foldl (fun a e => addNode hFlags netPort total e.1 a e.2) alloc) ∧
    (es.foldl (fun a e => addNode hFlags netPort total e.1 a e.2) alloc).nodes.map
        (nodeView (es.foldl (fun a e => addNode hFlags netPort total e.1 a e.2) alloc))
      = alloc.nodes.map (nodeView alloc)
        ++ expectedViews hFlags netPort total alloc.nodes.length es := by
  intro es
  induction es with
  | nil =>
    intro alloc hwf _
    exact ⟨hwf, by simp [expectedViews]⟩
  | cons e es ih =>
    intro alloc hwf hlen
    obtain ⟨s1, s2, s3⟩ := addNode_spec hFlags netPort total e.1 alloc e.2
      (hlen e (List.mem_cons_self _ _)) hwf
    obtain ⟨i1, i2⟩ := ih (addNode hFlags netPort total e.1 alloc e.2) s1
      (fun x hx => hlen x (List.mem_cons_of_mem _ hx))
    rw [List.foldl_cons]
    refine ⟨i1, ?_⟩
    rw [i2, s3, s2, List.append_assoc]
    rfl

theorem chain_nested (hFlags netPort total : Nat) (pairs : List (Int × Int)) :
    ∀ (ips : List (List Nat)) (alloc : addrInfoAlloc),
    ips.foldl (fun a ip => pairs.foldl (addNode hFlags netPort total ip) a) alloc
      = (chainEntries ips pairs).foldl (fun a e => addNode hFlags netPort total e.1 a e.2)
          alloc := by
  intro ips
  induction ips with
  | nil => intro alloc; rfl
  | cons ip ips ih =>
    intro alloc
    have hc : chainEntries (ip :: ips) pairs
        = pairs.map (fun p => (ip, p)) ++ chainEntries ips pairs := by
      simp [chainEntries, List.flatMap_cons]
    rw [List.foldl_cons, ih, hc, List.foldl_append, List.foldl_map]

theorem chainEntries_length (ips : List (List Nat)) (pairs : List (Int × Int)) :
    (chainEntries ips pairs).length = ips.length * pairs.length := by
  induction ips with
  | nil => simp [chainEntries]
  | cons ip ips ih =>
    have hc : chainEntries (ip :: ips) pairs
        = pairs.map (fun p => (ip, p)) ++ chainEntries ips pairs := by
      simp [chainEntries, List.flatMap_cons]
    rw [hc, List.length_append, List.length_map, ih, List.length_cons, Nat.succ_mul]
    omega

theorem chainEntries_mem (ips : List (List Nat)) (pairs : List (Int × Int))
    (e : List Nat × (Int × Int)) (h : e ∈ chainEntries ips pairs) : e.1 ∈ ips ∧ e.2 ∈ pairs := by
  simp only [chainEntries, List.mem_flatMap, List.mem_map] at h
  obtain ⟨ip, hip, p, hp, rfl⟩ := h
  exact ⟨hip, hp⟩

theorem expectedViews_length (hFlags netPort total : Nat) :
    ∀ (es : List (List Nat × (Int × Int))) (j : Nat),
    (expectedViews hFlags netPort total j es).length = es.length := by
  intro es
  induction es with
  | nil => intro j; rfl
  | cons e es ih => intro j; simp only [expectedViews, List.length_cons, ih]

theorem expectedViews_getElem? (hFlags netPort total : Nat) :
    ∀ (es : List (List Nat × (Int × Int))) (j0 j : Nat),
    (expectedViews hFlags netPort total j0 es)[j]?
      = (es[j]?).map (expectedView hFlags netPort total (j0 + j)) := by
  intro es
  induction es with
  | nil => intro j0 j; simp [expectedViews]
  | cons e es ih =>
    intro j0 j
    cases j with
    | zero => simp [expectedViews]
    | succ j =>
      simp only [expectedViews, List.getElem?_cons_succ, ih]
      have hj : j0 + 1 + j = j0 + (j + 1) := by omega
      rw [hj]

/-- The chain of the two nested loops, node by node. -/
theorem buildChain_views (hFlags netPort : Nat) (ips : List (List Nat))
    (pairs : List (Int × Int)) (hlen : ∀ ip ∈ ips, ip.length = 16) :
    (buildChain hFlags netPort ips pairs).nodes.map
        (nodeView (buildChain hFlags netPort ips pairs))
      = expectedViews hFlags netPort (ips.length * pairs.length) 0 (chainEntries ips pairs) := by
  unfold buildChain
  rw [chain_nested]
  have hwf : allocWF { nodes := [], addrs4 := [], addrs6 := [] } := by
    intro nd hnd
    cases hnd
  obtain ⟨_, h2⟩ := chain_fold hFlags netPort (ips.length * pairs.length)
    (chainEntries ips pairs) { nodes := [], addrs4 := [], addrs6 := [] } hwf
    (fun e he => hlen e.1 (chainEntries_mem ips pairs e he).1)
  rw [h2]
  rfl

theorem setCanonname_views (alloc : addrInfoAlloc) (node : Option (List Nat)) (hFlags : Nat) :
    (setCanonname alloc node hFlags).nodes.map (nodeView (setCanonname alloc node hFlags))
      = alloc.nodes.map (nodeView alloc) := by
  unfold setCanonname
  split
  · split
    · rename_i first rest hn
      rw [hn]
      rfl
    · rfl
  · rfl

theorem htons16_eq (v : Nat) : htons16 v = v % 256 * 256 + v / 256 % 256 := by
  unfold htons16 u16
  rw [Nat.shiftRight_eq_div_pow, Nat.shiftLeft_eq, Nat.lor_comm, Nat.mul_comm]
  have hlt : v % 2 ^ 16 / 2 ^ 8 < 2 ^ 8 := by omega
  rw [← Nat.mul_add_lt_is_or hlt (v % 2 ^ 16)]
  have hx : v % 2 ^ 16 < 65536 := by omega
  have e1 : v % 256 = v % 2 ^ 16 % 256 := by omega
  have e2 : v / 256 % 256 = v % 2 ^ 16 / 256 := by omega
  rw [e1, e2]
  generalize v % 2 ^ 16 = x at hx
  omega

theorem swap_bytes (lo hi : Nat) (hlo : lo < 256) (hhi : hi < 256) :
    (lo * 256 + hi) % 256 = hi ∧ (lo * 256 + hi) / 256 % 256 = lo ∧
    (lo * 256 + hi) / 256 = lo := by
  omega

theorem htons16_htons16 (p : Nat) (hp : p < 65536) : htons16 (htons16 p) = p := by
  have hhi : p / 256 < 256 := by omega
  have hlo : p % 256 < 256 := by omega
  obtain ⟨h1, h2, _⟩ := swap_bytes (p % 256) (p / 256) hlo hhi
  rw [htons16_eq p, Nat.mod_eq_of_lt hhi, htons16_eq, h1, h2]
  omega

theorem resolveNode_length (node : Option (List Nat)) (hFlags : Nat) (hFamily : Int)
    (env : ResolveEnv) (ips : List (List Nat))
    (h : resolveNode node hFlags hFamily env = Except.ok ips) : ∀ ip ∈ ips, ip.length = 16 := by
  unfold resolveNode at h
  cases node with
  | none =>
    simp only at h
    intro ip hip
    split at h <;> cases h <;>
      · simp only [List.mem_append] at hip
        rcases hip with hip | hip
        · split at hip
          · simp only [List.mem_singleton] at hip
            rw [hip]; rfl
          · cases hip
        · split at hip
          · simp only [List.mem_singleton] at hip
            rw [hip]; rfl
          · cases hip
  | some mem =>
    simp only at h
    cases hp : ParseIP (goStringFromPtr (some mem)) with
    | some ip0 =>
      rw [hp] at h
      cases h
      intro ip hip
      simp only [List.mem_singleton] at hip
      rw [hip]
      exact ParseIP_length _ _ hp
    | none =>
      rw [hp] at h
      simp only at h
      split at h
      · cases h
      · split at h
        · cases h
        · split at h
          · cases h
          · cases h
            intro ip hip
            simp only [List.mem_filterMap] at hip
            obtain ⟨r, _, hr⟩ := hip
            exact ParseIP_length _ _ hr

theorem resolveIPs_ok (node : Option (List Nat)) (hFlags : Nat) (hFamily : Int)
    (env : ResolveEnv) (ips : List (List Nat))
    (h : resolveIPs node hFlags hFamily env = Except.ok ips) :
    0 < ips.length ∧ (∀ ip ∈ ips, ip.length = 16) ∧
    ∃ all, resolveNode node hFlags hFamily env = Except.ok all ∧ ips = filterFamily hFamily all := by
  unfold resolveIPs at h
  split at h
  · cases h
  · rename_i all hall
    split at h
    · cases h
    · rename_i hne
      cases h
      refine ⟨by omega, ?_, all, hall, rfl⟩
      intro ip hip
      have hin : ip ∈ all := by
        unfold filterFamily at hip
        split at hip
        · exact (List.mem_filter.mp hip).1
        · exact hip
      exact resolveNode_length node hFlags hFamily env all hall ip hin

theorem nodeSpec_of_view (alloc : addrInfoAlloc) (hFlags netPort total j : Nat) (nd : CAddrInfo)
    (ip : List Nat) (pair : Int × Int)
    (h : nodeView alloc nd = expectedView hFlags netPort total j (ip, pair)) :
    NodeSpec alloc netPort total j nd ip pair := by
  unfold expectedView at h
  cases h4 : IPTo4 ip with
  | some ip4 =>
    simp only [h4] at h
    have a1 := congrArg NodeView.Socktype h
    have a2 := congrArg NodeView.Protocol h
    have a3 := congrArg NodeView.Next h
    have a4 := congrArg NodeView.Family h
    have a5 := congrArg NodeView.Addrlen h
    have a6 := congrArg NodeView.sa4 h
    exact ⟨a1, a2, a3, Or.inl ⟨a4, a5, ip4, h4, a6⟩⟩
  | none =>
    simp only [h4] at h
    have a1 := congrArg NodeView.Socktype h
    have a2 := congrArg NodeView.Protocol h
    have a3 := congrArg NodeView.Next h
    have a4 := congrArg NodeView.Family h
    have a5 := congrArg NodeView.Addrlen h
    have a6 := congrArg NodeView.sa6 h
    exact ⟨a1, a2, a3, Or.inr ⟨a4, a5, h4, a6⟩⟩

/-- The allocation GoGetaddrinfo hands back satisfies ChainSpec. -/
theorem chain_spec (hFlags netPort : Nat) (ips : List (List Nat)) (pairs : List (Int × Int))
    (node : Option (List Nat)) (hlen : ∀ ip ∈ ips, ip.length = 16) :
    ChainSpec (setCanonname (buildChain hFlags netPort ips pairs) node hFlags) netPort ips
      pairs := by
  have hv : (setCanonname (buildChain hFlags netPort ips pairs) node hFlags).nodes.map
      (nodeView (setCanonname (buildChain hFlags netPort ips pairs) node hFlags))
      = expectedViews hFlags netPort (ips.length * pairs.length) 0 (chainEntries ips pairs) := by
    rw [setCanonname_views, buildChain_views hFlags netPort ips pairs hlen]
  have hl : (setCanonname (buildChain hFlags netPort ips pairs) node hFlags).nodes.length
      = ips.length * pairs.length := by
    have := congrArg List.length hv
    rw [List.length_map, expectedViews_length, chainEntries_length] at this
    exact this
  refine ⟨hl, ?_⟩
  intro j hj
  generalize setCanonname (buildChain hFlags netPort ips pairs) node hFlags = A at hv hl hj ⊢
  have hj2 : j < (chainEntries ips pairs).length := by
    rw [chainEntries_length, ← hl]; exact hj
  have hnd : A.nodes[j]? = some (A.nodes[j]) := List.getElem?_eq_getElem hj
  have he : (chainEntries ips pairs)[j]? = some ((chainEntries ips pairs)[j]) :=
    List.getElem?_eq_getElem hj2
  have hview := congrArg (fun l => l[j]?) hv
  simp only [List.getElem?_map, hnd, Option.map_some', expectedViews_getElem?, he,
    Nat.zero_add, Option.some.injEq] at hview
  refine ⟨A.nodes[j], ((chainEntries ips pairs)[j]).1, ((chainEntries ips pairs)[j]).2, hnd, he, ?_⟩
  rw [hl]
  exact nodeSpec_of_view A hFlags netPort _ j _ _ _ hview

/-- The four ways GoGetaddrinfo ends. -/
theorem getaddrinfo_cases (node service : Option (List Nat)) (hints : Option CAddrInfo)
    (res : Option (Option addrInfoAlloc)) (env : ResolveEnv)
    (hFlags : Nat) (hFamily hSocktype hProtocol : Int)
    (hh : hintFields hints = (hFlags, hFamily, hSocktype, hProtocol)) :
    (res = none ∧ GoGetaddrinfo node service hints res env = (EAI_FAIL, none)) ∨
    (∃ e, servicePort service hFlags hSocktype env = Except.error e ∧
      GoGetaddrinfo node service hints res env = (e, some none)) ∨
    (∃ port e, servicePort service hFlags hSocktype env = Except.ok port ∧
      resolveIPs node hFlags hFamily env = Except.error e ∧
      GoGetaddrinfo node service hints res env = (e, some none)) ∨
    (∃ port ips, servicePort service hFlags hSocktype env = Except.ok port ∧
      resolveIPs node hFlags hFamily env = Except.ok ips ∧
      GoGetaddrinfo node service hints res env = (0, some (some (setCanonname
        (buildChain hFlags (htons16 (port % 65536).toNat) ips (hintPairs hSocktype hProtocol))
        node hFlags)))) := by
  cases res with
  | none => exact Or.inl ⟨rfl, rfl⟩
  | some r0 =>
    right
    have hG : GoGetaddrinfo node service hints (some r0) env =
        match servicePort service hFlags hSocktype env with
        | Except.error e => (e, some none)
        | Except.ok port =>
          match resolveIPs node hFlags hFamily env with
          | Except.error e => (e, some none)
          | Except.ok ips =>
            (0, some (some (setCanonname
              (buildChain hFlags (htons16 (port % 65536).toNat) ips
                (hintPairs hSocktype hProtocol)) node hFlags))) := by
      unfold GoGetaddrinfo
      rw [hh]
    rw [hG]
    cases hsp : servicePort service hFlags hSocktype env with
    | error e => exact Or.inl ⟨e, rfl, rfl⟩
    | ok port =>
      right
      cases hri : resolveIPs node hFlags hFamily env with
      | error e => exact Or.inl ⟨port, e, rfl, rfl, rfl⟩
      | ok ips => exact Or.inr ⟨port, ips, rfl, rfl, rfl⟩

theorem resolveIPs_null (hFlags : Nat) (hFamily : Int) (env : ResolveEnv)
    (hfam : hFamily = 0 ∨ hFamily = AF_INET ∨ hFamily = AF_INET6) :
    resolveIPs none hFlags hFamily env
      = Except.ok (nullNodeAddrs (decide (hFlags &&& AI_PASSIVE ≠ 0)) hFamily) := by
  unfold resolveIPs resolveNode
  by_cases hp : hFlags &&& AI_PASSIVE ≠ 0
  · rw [decide_eq_true hp]
    simp only []
    rw [if_pos hp]
    rcases hfam with h | h | h <;> subst h <;> rfl
  · rw [decide_eq_false hp]
    simp only []
    rw [if_neg hp]
    rcases hfam with h | h | h <;> subst h <;> rfl

theorem servicePort_numeric (mem : List Nat) (hFlags : Nat) (hSocktype : Int) (env : ResolveEnv)
    (p : Int) (h : Atoi (goStringFromPtr (some mem)) = some p) :
    servicePort (some mem) hFlags hSocktype env = Except.ok p := by
  unfold servicePort
  simp only [h]

theorem servicePort_numericserv (mem : List Nat) (hFlags : Nat) (hSocktype : Int)
    (env : ResolveEnv) (h : Atoi (goStringFromPtr (some mem)) = none)
    (hf : hFlags &&& AI_NUMERICSERV ≠ 0) :
    servicePort (some mem) hFlags hSocktype env = Except.error EAI_SERVICE := by
  unfold servicePort
  simp only [h]
  rw [if_pos hf]

/-- C25: GoGetaddrinfo with a null node and a non-null `res`.  For a hint
family of 0, AF_INET or AF_INET6 the addresses are the wildcard pair
[0.0.0.0, ::] when the hints carry AI_PASSIVE and the loopback pair
[127.0.0.1, ::1] otherwise, cut down to the IPv4 member for AF_INET and to the
IPv6 member for AF_INET6.  A service string that Atoi reads as `p` gives the
port `p`: the call returns 0 and `*res` heads the chain for these addresses
whose port fields hold `p` (its low 16 bits, bytes exchanged).  A service
string that Atoi rejects, with AI_NUMERICSERV set, gives EAI_SERVICE and
leaves `*res` null, whatever the node. -/
theorem C25_getaddrinfo_null_node (node : Option (List Nat)) (svc : List Nat)
    (hints : Option CAddrInfo) (r0 : Option addrInfoAlloc) (env : ResolveEnv)
    (hFlags : Nat) (hFamily hSocktype hProtocol : Int)
    (hh : hintFields hints = (hFlags, hFamily, hSocktype, hProtocol)) :
    ((hFamily = 0 ∨ hFamily = AF_INET ∨ hFamily = AF_INET6) →
      resolveIPs none hFlags hFamily env
        = Except.ok (nullNodeAddrs (decide (hFlags &&& AI_PASSIVE ≠ 0)) hFamily) ∧
      ∀ p, Atoi (goStringFromPtr (some svc)) = some p →
        servicePort (some svc) hFlags hSocktype env = Except.ok p ∧
        ∃ alloc, GoGetaddrinfo none (some svc) hints (some r0) env = (0, some (some alloc)) ∧
          ChainSpec alloc (htons16 (p % 65536).toNat)
            (nullNodeAddrs (decide (hFlags &&& AI_PASSIVE ≠ 0)) hFamily)
            (hintPairs hSocktype hProtocol)) ∧
    (Atoi (goStringFromPtr (some svc)) = none → hFlags &&& AI_NUMERICSERV ≠ 0 →
      GoGetaddrinfo node (some svc) hints (some r0) env = (EAI_SERVICE, some none) ∧
      EAI_SERVICE = 10109) := by
  constructor
  · intro hfam
    have hri := resolveIPs_null hFlags hFamily env hfam
    refine ⟨hri, ?_⟩
    intro p hp
    have hsp := servicePort_numeric svc hFlags hSocktype env p hp
    refine ⟨hsp, ?_⟩
    obtain ⟨_, hlen, _⟩ := resolveIPs_ok none hFlags hFamily env _ hri
    rcases getaddrinfo_cases none (some svc) hints (some r0) env hFlags hFamily hSocktype
      hProtocol hh with ⟨h0, _⟩ | ⟨e, h1, _⟩ | ⟨port, e, _, h2, _⟩ | ⟨port, ips, h1, h2, h⟩
    · cases h0
    · rw [hsp] at h1; cases h1
    · rw [hri] at h2; cases h2
    · rw [hsp] at h1
      rw [hri] at h2
      cases h1
      cases h2
      exact ⟨_, h, chain_spec hFlags _ _ _ none hlen⟩
  · intro ha hf
    have hsp := servicePort_numericserv svc hFlags hSocktype env ha hf
    refine ⟨?_, rfl⟩
    rcases getaddrinfo_cases node (some svc) hints (some r0) env hFlags hFamily hSocktype
      hProtocol hh with ⟨h0, _⟩ | ⟨e, h1, h⟩ | ⟨port, e, h1, _, _⟩ | ⟨port, ips, h1, _, _⟩
    · cases h0
    · rw [hsp] at h1
      cases h1
      exact h
    · rw [hsp] at h1; cases h1
    · rw [hsp] at h1; cases h1

theorem C25_getaddrinfo_null_node_witness :
    Atoi (goStringFromPtr (some (goBytes "8080" ++ [0]))) = some 8080 ∧
    nullNodeAddrs (decide ((0 : Nat) &&& AI_PASSIVE ≠ 0)) 0
      = [IPv4 127 0 0 1, [0, 0, 0, 0, 0, 0, 0, 0, 0, 0, 0, 0, 0, 0, 0, 1]] ∧
    (servicePort (some (goBytes "8080" ++ [0])) 0 0 resolveEnvNone = Except.ok 8080 ∧
      ∃ alloc, GoGetaddrinfo none (some (goBytes "8080" ++ [0])) none (some none) resolveEnvNone
          = (0, some (some alloc)) ∧
        ChainSpec alloc (htons16 ((8080 : Int) % 65536).toNat)
          (nullNodeAddrs (decide ((0 : Nat) &&& AI_PASSIVE ≠ 0)) 0) (hintPairs 0 0)) ∧
    Atoi (goStringFromPtr (some (goBytes "http" ++ [0]))) = none ∧
    (GoGetaddrinfo none (some (goBytes "http" ++ [0])) (some numericServHints) (some none)
      resolveEnvNone).1 = 10109 :=
  ⟨by decide, by decide,
   ((C25_getaddrinfo_null_node none (goBytes "8080" ++ [0]) none none resolveEnvNone 0 0 0 0
      rfl).1 (Or.inl rfl)).2 8080 (by decide),
   by decide, by decide⟩

/-! ## C26: getnameinfo with numeric flags -/

theorem toDigitsCore_length (b : Nat) : ∀ (fuel n : Nat) (ds : List Char),
    (Nat.toDigitsCore b fuel n ds).length ≤ fuel + ds.length := by
  intro fuel
  induction fuel with
  | zero => intro n ds; simp [Nat.toDigitsCore]
  | succ fuel ih =>
    intro n ds
    simp only [Nat.toDigitsCore]
    split
    · simp only [List.length_cons]; omega
    · have := ih (n / b) (Nat.digitChar (n % b) :: ds)
      simp only [List.length_cons] at this
      omega

theorem itoa_length (n : Nat) : (itoa n).length ≤ n + 1 := by
  unfold itoa Nat.toDigits
  rw [List.length_map]
  have := toDigitsCore_length 10 (n + 1) n []
  simpa using this

theorem appendDecimal_length_le (x : Nat) : (appendDecimal x).length ≤ 3 := by
  unfold appendDecimal
  split <;> split <;> simp

theorem ipv4String_length (a b c d : Nat) : (ipv4String a b c d).length ≤ 15 := by
  unfold ipv4String
  have ha := appendDecimal_length_le a
  have hb := appendDecimal_length_le b
  have hc := appendDecimal_length_le c
  have hd := appendDecimal_length_le d
  simp only [List.length_append, List.length_singleton]
  omega

theorem writeCString_fits (buf : List Nat) (len : Nat) (s : List Nat)
    (hs : s.length + 1 ≤ len) (hb : len ≤ buf.length) :
    writeCString buf len s = s ++ 0 :: buf.drop (s.length + 1) := by
  unfold writeCString
  have hl : (buf.take len).length = len := by rw [List.length_take]; omega
  rw [goCopy_fits _ _ (by omega)]
  unfold goStore
  have hdrop : (buf.take len).drop s.length ≠ [] := by
    intro hnil
    have := congrArg List.length hnil
    simp only [List.length_drop, List.length_nil, hl] at this
    omega
  obtain ⟨c, rest, hcr⟩ := List.exists_cons_of_ne_nil hdrop
  have hrest : rest ++ buf.drop len = buf.drop (s.length + 1) := by
    have h1 : ((buf.take len).drop s.length).drop 1 = rest := by rw [hcr]; rfl
    rw [← h1, List.drop_drop, ← List.drop_append_of_le_length (by omega)]
    rw [List.take_append_drop]
  rw [hcr, List.set_append_right _ _ (Nat.le_refl _), Nat.sub_self, List.set_cons_zero,
    List.append_assoc, List.cons_append, hrest]

theorem nameinfoHost_numeric (ip : List Nat) (buf : List Nat) (hostlen flags : Nat)
    (lookupPTR : List Nat → Option (List Nat)) (hnh : flags &&& NI_NUMERICHOST ≠ 0) :
    nameinfoHost ip (some buf) hostlen flags lookupPTR =
      if hostlen = 0 then Except.ok (some buf)
      else if u32 ((IPString ip).length + 1) > hostlen then Except.error EAI_MEMORY
      else Except.ok (some (writeCString buf hostlen (IPString ip))) := by
  unfold nameinfoHost
  simp only [hnh, ne_eq, not_false_eq_true, if_true]

theorem nameinfoServ_some (port : Nat) (buf : List Nat) (servlen flags : Nat) :
    nameinfoServ port (some buf) servlen flags =
      if servlen = 0 then Except.ok (some buf)
      else if u32 ((nameinfoServText port flags).length + 1) > servlen
        then Except.error EAI_MEMORY
      else Except.ok (some (writeCString buf servlen (nameinfoServText port flags))) := rfl

/-- The three outcomes of writing a text `s` into a buffer of `len` bytes. -/
theorem textStep_cases (buf s : List Nat) (len : Nat) (hs : s.length + 1 < 2 ^ 32)
    (hb : len ≤ buf.length) :
    (len = 0 ∧
      (if len = 0 then (Except.ok (some buf) : Except Int (Option (List Nat)))
        else if u32 (s.length + 1) > len then Except.error EAI_MEMORY
        else Except.ok (some (writeCString buf len s))) = Except.ok (some buf)) ∨
    (0 < len ∧ len < s.length + 1 ∧
      (if len = 0 then (Except.ok (some buf) : Except Int (Option (List Nat)))
        else if u32 (s.length + 1) > len then Except.error EAI_MEMORY
        else Except.ok (some (writeCString buf len s))) = Except.error EAI_MEMORY) ∨
    (0 < len ∧ s.length + 1 ≤ len ∧
      (if len = 0 then (Except.ok (some buf) : Except Int (Option (List Nat)))
        else if u32 (s.length + 1) > len then Except.error EAI_MEMORY
        else Except.ok (some (writeCString buf len s)))
        = Except.ok (some (s ++ 0 :: buf.drop (s.length + 1)))) := by
  have hu : u32 (s.length + 1) = s.length + 1 := by
    unfold u32; exact Nat.mod_eq_of_lt hs
  rw [hu]
  by_cases h0 : len = 0
  · left
    exact ⟨h0, if_pos h0⟩
  · right
    by_cases hf : s.length + 1 > len
    · left
      refine ⟨by omega, by omega, ?_⟩
      rw [if_neg h0, if_pos hf]
    · right
      refine ⟨by omega, by omega, ?_⟩
      rw [if_neg h0, if_neg hf, writeCString_fits _ _ _ (by omega) hb]

/-- GoGetnameinfo with NI_NUMERICHOST on a sockaddr_in, for whatever text the
service part writes. -/
theorem getnameinfo_fill (a b c d p : Nat) (addr6 hbuf sbuf : List Nat)
    (hostlen servlen flags : Nat) (lookupPTR : List Nat → Option (List Nat))
    (hp : p < 65536) (hnh : flags &&& NI_NUMERICHOST ≠ 0)
    (hhl : hostlen ≤ hbuf.length) (hsl : servlen ≤ sbuf.length)
    (htxt : (nameinfoServText p flags).length + 1 < 2 ^ 32) :
    NameinfoSpec
      (GoGetnameinfo (some ⟨2, htons16 p, [a, b, c, d], addr6⟩) (some hbuf) hostlen (some sbuf)
        servlen flags lookupPTR)
      hbuf hostlen (ipv4String a b c d) sbuf servlen (nameinfoServText p flags) := by
  have hip : IPString (IPv4 a b c d) = ipv4String a b c d := IPString_IPv4 a b c d
  have hhlen := ipv4String_length a b c d
  have hG : GoGetnameinfo (some ⟨2, htons16 p, [a, b, c, d], addr6⟩) (some hbuf) hostlen
      (some sbuf) servlen flags lookupPTR
      = nameinfoFill (IPv4 a b c d) p (some hbuf) hostlen (some sbuf) servlen flags
          lookupPTR := by
    unfold GoGetnameinfo
    simp only [if_true, htons16_htons16 p hp]
    rfl
  rw [hG]
  unfold nameinfoFill NameinfoSpec tooSmall textIn
  rw [nameinfoHost_numeric _ _ _ _ _ hnh, nameinfoServ_some, hip]
  rcases textStep_cases hbuf (ipv4String a b c d) hostlen (by omega) hhl with
    ⟨h0, e1⟩ | ⟨h1, h2, e1⟩ | ⟨h1, h2, e1⟩
  · rcases textStep_cases sbuf (nameinfoServText p flags) servlen htxt hsl with
      ⟨s0, e2⟩ | ⟨s1, s2, e2⟩ | ⟨s1, s2, e2⟩
    · rw [e1, e2, if_pos h0, if_pos s0]
      exact ⟨⟨fun h => absurd (show (0 : Int) = EAI_MEMORY from h) (by decide),
        fun h => by omega⟩, fun _ => rfl⟩
    · rw [e1, e2]
      exact ⟨⟨fun _ => Or.inr ⟨s1, s2⟩, fun _ => rfl⟩, fun h => absurd (Or.inr ⟨s1, s2⟩) h⟩
    · rw [e1, e2, if_pos h0, if_neg (by omega)]
      exact ⟨⟨fun h => absurd (show (0 : Int) = EAI_MEMORY from h) (by decide),
        fun h => by omega⟩, fun _ => rfl⟩
  · rw [e1]
    exact ⟨⟨fun _ => Or.inl ⟨h1, h2⟩, fun _ => rfl⟩, fun h => absurd (Or.inl ⟨h1, h2⟩) h⟩
  · rcases textStep_cases sbuf (nameinfoServText p flags) servlen htxt hsl with
      ⟨s0, e2⟩ | ⟨s1, s2, e2⟩ | ⟨s1, s2, e2⟩
    · rw [e1, e2, if_neg (by omega), if_pos s0]
      exact ⟨⟨fun h => absurd (show (0 : Int) = EAI_MEMORY from h) (by decide),
        fun h => by omega⟩, fun _ => rfl⟩
    · rw [e1, e2]
      exact ⟨⟨fun _ => Or.inr ⟨s1, s2⟩, fun _ => rfl⟩, fun h => absurd (Or.inr ⟨s1, s2⟩) h⟩
    · rw [e1, e2, if_neg (by omega), if_neg (by omega)]
      exact ⟨⟨fun h => absurd (show (0 : Int) = EAI_MEMORY from h) (by decide),
        fun h => by omega⟩, fun _ => rfl⟩

theorem servTable_names_short : ∀ e ∈ servTable, e.Name.length < 64 := by
  decide

/-- C26: GoGetnameinfo on a sockaddr_in with address a.b.c.d whose port field
holds the port `p` in network order (the value htons16 p), with
NI_NUMERICHOST and buffers of `hostlen` and `servlen` bytes (a length of 0
asks for no text).  With NI_NUMERICSERV the call returns EAI_MEMORY (8)
exactly when a requested text with its terminator is longer than its buffer,
and otherwise returns 0 with each requested buffer holding its text, the
dotted-decimal address or the decimal port, followed by NUL and the rest of
the buffer as it was.  Without NI_NUMERICSERV, when the service table has an
entry for the port and the protocol the flags select (udp with NI_DGRAM, tcp
without), the same holds with the name of the first such entry as the service
text. -/
theorem C26_getnameinfo_numeric (a b c d p : Nat) (addr6 hbuf sbuf : List Nat)
    (hostlen servlen flags : Nat) (lookupPTR : List Nat → Option (List Nat))
    (hp : p < 65536) (hnh : flags &&& NI_NUMERICHOST ≠ 0)
    (hhl : hostlen ≤ hbuf.length) (hsl : servlen ≤ sbuf.length) :
    (flags &&& NI_NUMERICSERV ≠ 0 →
      NameinfoSpec
        (GoGetnameinfo (some ⟨2, htons16 p, [a, b, c, d], addr6⟩) (some hbuf) hostlen
          (some sbuf) servlen flags lookupPTR)
        hbuf hostlen (ipv4String a b c d) sbuf servlen (itoa p)) ∧
    (flags &&& NI_NUMERICSERV = 0 → ∀ e, servFindByPort p flags = some e →
      NameinfoSpec
        (GoGetnameinfo (some ⟨2, htons16 p, [a, b, c, d], addr6⟩) (some hbuf) hostlen
          (some sbuf) servlen flags lookupPTR)
        hbuf hostlen (ipv4String a b c d) sbuf servlen e.Name) := by
  constructor
  · intro hns
    have hst : nameinfoServText p flags = itoa p := by
      unfold nameinfoServText
      rw [if_pos hns]
    have hslen := itoa_length p
    have h := getnameinfo_fill a b c d p addr6 hbuf sbuf hostlen servlen flags lookupPTR hp hnh
      hhl hsl (by rw [hst]; omega)
    rw [hst] at h
    exact h
  · intro hns e he
    have hst : nameinfoServText p flags = e.Name := by
      unfold nameinfoServText
      rw [if_neg (by simpa using hns)]
      unfold servFindByPort at he
      rw [he]
    have hmem : e ∈ servTable := List.mem_of_find?_eq_some he
    have hn := servTable_names_short e hmem
    have h := getnameinfo_fill a b c d p addr6 hbuf sbuf hostlen servlen flags lookupPTR hp hnh
      hhl hsl (by rw [hst]; omega)
    rw [hst] at h
    exact h

theorem C26_getnameinfo_numeric_witness :
    GoGetnameinfo (some ⟨2, htons16 443, [10, 1, 2, 3], []⟩) (some (List.replicate 16 7)) 16
        (some (List.replicate 8 7)) 8 (NI_NUMERICHOST ||| NI_NUMERICSERV) (fun _ => none)
      = (0, some (goBytes "10.1.2.3" ++ [0, 7, 7, 7, 7, 7, 7, 7]),
          some (goBytes "443" ++ [0, 7, 7, 7, 7])) ∧
    servFindByPort 443 NI_NUMERICHOST = some httpsEntry ∧
    NameinfoSpec
      (GoGetnameinfo (some ⟨2, htons16 443, [10, 1, 2, 3], []⟩) (some (List.replicate 16 7)) 16
        (some (List.replicate 8 7)) 8 NI_NUMERICHOST (fun _ => none))
      (List.replicate 16 7) 16 (ipv4String 10 1 2 3) (List.replicate 8 7) 8 httpsEntry.Name ∧
    (GoGetnameinfo (some ⟨2, htons16 443, [10, 1, 2, 3], []⟩) (some (List.replicate 16 7)) 16
        (some (List.replicate 8 7)) 8 NI_NUMERICHOST (fun _ => none)).2.2
      = some (goBytes "https" ++ [0, 7, 7]) ∧
    (GoGetnameinfo (some ⟨2, htons16 443, [10, 1, 2, 3], []⟩) (some (List.replicate 16 7)) 8
        (some (List.replicate 8 7)) 8 (NI_NUMERICHOST ||| NI_NUMERICSERV) (fun _ => none)).1
      = 8 :=
  ⟨by decide, by decide,
   (C26_getnameinfo_numeric 10 1 2 3 443 [] (List.replicate 16 7) (List.replicate 8 7) 16 8
     NI_NUMERICHOST (fun _ => none) (by decide) (by decide) (by decide) (by decide)).2
     (by decide) httpsEntry (by decide),
   by decide, by decide⟩

end Winsock
